import Mathlib

/-!
# Access gate and request logging of the notifications service

A shallow embedding of the API-key gate (`internal/middleware`), the key
service and repository (`internal/service`, `internal/repository`), the
request logger, key issuance, the log queries and statistics behind the
dashboard and the dashboard page (`internal/server/transport`) and the route
table with its handler chains (`internal/server`), followed by the properties
proved about them.

Go strings are byte sequences, so they are modelled as lists of bytes:
`len(s)` is `List.length` and `s[:8]` is `List.take 8`. The database is
modelled by its tables and by the way PostgreSQL evaluates the statements
the repositories send. A handler body is the sequence of calls it makes on
its `gin.Context`; a chain of handlers runs on a `World` (context, database,
entropy source, spawned log entries), in which a panic is a flag that
`gin.Recovery` clears.
-/

set_option autoImplicit false

namespace Notifications

/-- A Go `string`: an immutable sequence of bytes. -/
abbrev GoString := List UInt8

/-- The bytes of a string literal of the source (UTF-8, as the Go compiler stores it). -/
def lit (s : String) : GoString := s.toUTF8.data.toList

/-! ## `net/url`: query strings (library code the handlers rely on) -/

namespace url

/-- Go `ishex`: the byte is one of `0-9`, `a-f`, `A-F`. -/
def ishex (c : UInt8) : Bool :=
  (48 ≤ c && c ≤ 57) || (97 ≤ c && c ≤ 102) || (65 ≤ c && c ≤ 70)

/-- Go `unhex`: the value of a hexadecimal digit. -/
def unhex (c : UInt8) : UInt8 :=
  if 48 ≤ c && c ≤ 57 then c - 48
  else if 97 ≤ c && c ≤ 102 then c - 97 + 10
  else if 65 ≤ c && c ≤ 70 then c - 65 + 10
  else 0

/-- Go `url.QueryUnescape`: `%XY` becomes the byte `0xXY`, `+` becomes a space;
`none` stands for the `EscapeError` of a `%` not followed by two hex digits. -/
def QueryUnescape : GoString → Option GoString
  | [] => some []
  | b :: t =>
    if b = 37 then
      match t with
      | h :: l :: t' =>
        if ishex h && ishex l then
          (QueryUnescape t').map (fun r => (unhex h * 16 + unhex l) :: r)
        else none
      | _ => none
    else if b = 43 then (QueryUnescape t).map (fun r => 32 :: r)
    else (QueryUnescape t).map (fun r => b :: r)

/-- Go `strings.Cut(s, sep)` for a one-byte separator: the text before the first
`sep` and the text after it (all of `s` and nothing when `sep` does not occur). -/
def cut (sep : UInt8) : GoString → GoString × GoString
  | [] => ([], [])
  | b :: t => if b = sep then ([], t) else ((cut sep t).1.cons b, (cut sep t).2)

/-- The pieces of a raw query between `&` separators, in order. -/
def pieces : GoString → List GoString
  | [] => [[]]
  | b :: t =>
    if b = 38 then [] :: pieces t
    else
      match pieces t with
      | [] => [[b]]
      | s :: r => (b :: s) :: r

/-- One iteration of the loop of Go `url.parseQuery`: a piece holding `;`, an empty
piece, or a piece whose key or value does not unescape adds nothing. -/
def parsePiece (piece : GoString) : Option (GoString × GoString) :=
  if piece.contains 59 then none
  else if piece = [] then none
  else
    match QueryUnescape (cut 61 piece).1, QueryUnescape (cut 61 piece).2 with
    | some k, some v => some (k, v)
    | _, _ => none

/-- Go `URL.Query()`: the key/value pairs of the raw query in order of appearance
(the parse error is dropped, the pairs parsed so far are kept). -/
def ParseQuery (query : GoString) : List (GoString × GoString) :=
  (pieces query).filterMap parsePiece

end url

/-! ## `encoding/hex` (library code the key service relies on) -/

namespace hex

/-- Go `hextable`: the sixteen lowercase hexadecimal digits. -/
def hextable : GoString := lit "0123456789abcdef"

/-- Go `hex.EncodeToString`: every byte `v` becomes the two digits `hextable[v>>4]` and
`hextable[v&0x0f]`. -/
def EncodeToString : GoString → GoString
  | [] => []
  | v :: t =>
    hextable.getD (v >>> 4).toNat 0 :: hextable.getD (v &&& 0x0f).toNat 0 :: EncodeToString t

/-- The byte is one of `0-9`, `a-f`. -/
def isLowerHex (c : UInt8) : Bool :=
  (48 ≤ c && c ≤ 57) || (97 ≤ c && c ≤ 102)

end hex

/-! ## `internal/models` -/

/-- A `time.Time` instant, counted from the Go zero time, so that `IsZero` is `t = 0`. -/
abbrev Time := Int

/-- The struct `models.APIKey`: one row of table `api_keys`. -/
structure APIKey where
  /-- Column `id`. -/
  ID : Int
  /-- Column `key`: the token. -/
  Key : GoString
  /-- Column `name`. -/
  Name : GoString
  /-- Column `active`. -/
  Active : Bool
  /-- Column `created_at`. -/
  CreatedAt : Time
  /-- Column `last_used_at`, nil while the key was never used. -/
  LastUsedAt : Option Time
  deriving DecidableEq

/-- The struct `models.RequestLog`: one row of table `request_logs`. -/
structure RequestLog where
  /-- Column `id`. -/
  ID : Int
  /-- Column `method`. -/
  Method : GoString
  /-- Column `path`. -/
  Path : GoString
  /-- Column `query_params`. -/
  QueryParams : GoString
  /-- Column `status_code`. -/
  StatusCode : Int
  /-- Column `ip_address`. -/
  IPAddress : GoString
  /-- Column `user_agent`. -/
  UserAgent : GoString
  /-- Column `api_key`. -/
  APIKey : GoString
  /-- Column `response_time_ms`. -/
  ResponseTime : Int
  /-- Column `created_at`. -/
  CreatedAt : Time
  deriving DecidableEq

/-- The struct `models.CreateAPIKeyRequest`: the body of `POST /api-keys`. -/
structure CreateAPIKeyRequest where
  /-- Field `name`, required by the binding. -/
  Name : GoString
  deriving DecidableEq

/-- The struct `models.CreateAPIKeyResponse`. -/
structure CreateAPIKeyResponse where
  /-- Field `key`. -/
  Key : GoString
  /-- Field `name`. -/
  Name : GoString
  /-- Field `created_at`. -/
  CreatedAt : Time
  deriving DecidableEq

/-- The struct `models.LogQueryParams`; the zero value of a field means it was not given. -/
structure LogQueryParams where
  /-- Form field `limit`. -/
  Limit : Int := 0
  /-- Form field `page`. -/
  Page : Int := 0
  /-- Form field `offset`. -/
  Offset : Int := 0
  /-- Form field `method`. -/
  Method : GoString := []
  /-- Form field `status_code`. -/
  StatusCode : Int := 0
  /-- Form field `path`. -/
  Path : GoString := []
  /-- Form field `start_date`. -/
  StartDate : Time := 0
  /-- Form field `end_date`. -/
  EndDate : Time := 0
  deriving DecidableEq

/-- The struct `models.PathCount`. -/
structure PathCount where
  /-- Field `path`. -/
  Path : GoString
  /-- Field `count`. -/
  Count : Int
  deriving DecidableEq

/-- The struct `models.MethodCount`. -/
structure MethodCount where
  /-- Field `method`. -/
  Method : GoString
  /-- Field `count`. -/
  Count : Int
  deriving DecidableEq

/-- The struct `models.LogStats`. The average is kept as the exact quotient the database
computes; its conversion to `float64` is not modelled. The map `StatusCodes` is `none`
when nil and otherwise its entries, one per key. -/
structure LogStats where
  /-- Field `total_requests`. -/
  TotalRequests : Int := 0
  /-- Field `average_response_time_ms`. -/
  AverageResponseTime : ℚ := 0
  /-- Field `status_codes`: status code to count. -/
  StatusCodes : Option (List (Int × Int)) := none
  /-- Field `top_paths`. -/
  TopPaths : List PathCount := []
  /-- Field `top_methods`. -/
  TopMethods : List MethodCount := []
  deriving DecidableEq

/-! ## `gin`: the request context (library code the handlers rely on) -/

/-- A Go `error` value, as far as the handlers tell errors apart. -/
inductive Error where
  /-- The error `pgx.ErrNoRows`: a row query matched no row. -/
  | ErrNoRows
  /-- The error `http.ErrNoCookie`: the request has no cookie of that name. -/
  | ErrNoCookie
  /-- Any other error, with its message. -/
  | other (msg : GoString)
  deriving DecidableEq

/-- The parts of `http.Request` the handlers read. -/
structure Request where
  /-- The request method. -/
  Method : GoString
  /-- The field `URL.Path`. -/
  Path : GoString
  /-- The field `URL.RawQuery`: the query string as sent, still escaped. -/
  RawQuery : GoString
  /-- The request headers as (canonical name, value), in order. -/
  Header : List (GoString × GoString)
  /-- The cookies of the `Cookie` header as (name, value), in order. -/
  Cookies : List (GoString × GoString)
  /-- What `gin.Context.ClientIP` reports for the request. -/
  ClientIP : GoString
  deriving DecidableEq

/-- A JSON object `gin.H` with string values, as (field, value) pairs. -/
abbrev H := List (GoString × GoString)

/-- The values the handlers pass to `c.JSON`. -/
inductive Payload where
  /-- A `gin.H` with string values. -/
  | H (obj : H)
  /-- A `*models.CreateAPIKeyResponse`, `none` for the nil pointer. -/
  | CreateAPIKeyResponse (response : Option CreateAPIKeyResponse)
  /-- The `gin.H` of `GetLogs` with its fields `logs`, `total`, `limit`, `offset`, `page`. -/
  | Logs (logs : List RequestLog) (total limit offset page : Int)
  /-- A `*models.LogStats`, `none` for the nil pointer. -/
  | LogStats (stats : Option LogStats)
  /-- The bytes handed to `c.Data` with their content type. -/
  | Data (contentType data : GoString)
  deriving DecidableEq

/-- The response side of `gin.Context` together with the request. -/
structure Context where
  /-- The request being served. -/
  Request : Request
  /-- What `c.Writer.Status()` reports: the status written so far, 200 at first. -/
  Status : Int := 200
  /-- The body written so far, if any. -/
  Body : Option Payload := none
  /-- The `Location` header of a redirect, if one was written. -/
  Location : Option GoString := none
  /-- What `c.IsAborted()` reports: `c.Abort()` set the chain index to `abortIndex`. -/
  Aborted : Bool := false
  /-- The chain index is past the last handler: a `c.Next()` has run the handlers that
  followed. -/
  Finished : Bool := false
  deriving DecidableEq

/-- The `http` status constants the handlers use. -/
def StatusFound : Int := 302
/-- The constant `http.StatusForbidden`. -/
def StatusForbidden : Int := 403
/-- The constant `http.StatusInternalServerError`. -/
def StatusInternalServerError : Int := 500
/-- The constant `http.StatusOK`. -/
def StatusOK : Int := 200
/-- The constant `http.StatusCreated`. -/
def StatusCreated : Int := 201
/-- The constant `http.StatusBadRequest`. -/
def StatusBadRequest : Int := 400

/-- First value stored under `key` in an ordered key/value list, `""` when there is none
(Go `Values.Get`, `Header.Get`). -/
def firstValue (key : GoString) (kvs : List (GoString × GoString)) : GoString :=
  match kvs.find? (fun kv => kv.1 == key) with
  | some kv => kv.2
  | none => []

/-- The call `c.Query(key)`: the first value of `key` in the parsed query string, `""` when absent. -/
def Context.Query (c : Context) (key : GoString) : GoString :=
  firstValue key (url.ParseQuery c.Request.RawQuery)

/-- The call `c.GetHeader(key)` for a canonical header name: its first value, `""` when absent. -/
def Context.GetHeader (c : Context) (key : GoString) : GoString :=
  firstValue key c.Request.Header

/-- The call `c.Cookie(name)`: `("", ErrNoCookie)` when the request has no such cookie,
otherwise the query-unescaped value of the first one (`""` when it does not unescape)
and a nil error. -/
def Context.Cookie (c : Context) (name : GoString) : GoString × Option Error :=
  match c.Request.Cookies.find? (fun kv => kv.1 == name) with
  | none => ([], some Error.ErrNoCookie)
  | some kv => ((url.QueryUnescape kv.2).getD [], none)

/-- The call `c.ClientIP()`. -/
def Context.ClientIP (c : Context) : GoString := c.Request.ClientIP

/-- The calls a handler of this service makes on its `gin.Context`, in the order it makes them. -/
inductive Call where
  /-- The call `c.JSON(code, obj)`. -/
  | JSON (code : Int) (obj : Payload)
  /-- The call `c.Redirect(code, location)`. -/
  | Redirect (code : Int) (location : GoString)
  /-- The call `c.Data(code, contentType, data)`. -/
  | Data (code : Int) (contentType data : GoString)
  /-- The call `c.Abort()`. -/
  | Abort
  /-- The call `c.Next()`: run the handlers that follow in the chain. -/
  | Next
  deriving DecidableEq

/-- Effect of one call on the context and on the number of times the handlers that follow
were started; `next` is what those handlers do. `c.Next()` starts them unless the chain
index is already past them (after `c.Abort()` or an earlier `c.Next()`). -/
def Context.call (next : Context → Context) (s : Context × Nat) : Call → Context × Nat
  | .JSON code obj => ({ s.1 with Status := code, Body := some obj }, s.2)
  | .Redirect code location => ({ s.1 with Status := code, Location := some location }, s.2)
  | .Data code contentType data =>
    ({ s.1 with Status := code, Body := some (Payload.Data contentType data) }, s.2)
  | .Abort => ({ s.1 with Aborted := true }, s.2)
  | .Next =>
    if s.1.Aborted || s.1.Finished then s
    else ({ next s.1 with Finished := true }, s.2 + 1)

/-- Effect of a handler body, given as its sequence of calls: the context when the handler
returns and the number of times it started the handlers that follow. -/
def Context.run (next : Context → Context) (c : Context) (calls : List Call) :
    Context × Nat :=
  calls.foldl (Context.call next) (c, 0)

/-- The step of the loop of `gin.Context.Next` that dispatches one handler: the handler body
runs; when it returns with the chain index not past the handlers that follow (it neither
aborted nor called `c.Next()`), the loop starts them. The result is the context at the
end and the number of times the handlers that follow were started. -/
def Context.serve (next : Context → Context) (c : Context) (calls : List Call) :
    Context × Nat :=
  let s := c.run next calls
  if s.1.Aborted || s.1.Finished then s
  else ({ next s.1 with Finished := true }, s.2 + 1)

/-- What the JSON decoder finds in the body of a request bound to
`models.CreateAPIKeyRequest`. -/
inductive JSONBody where
  /-- The body is not a JSON document that decodes into the struct. -/
  | malformed
  /-- The body is a JSON object; `name` is the value of its string member `name`, `none`
  when the object has no such member. -/
  | object (name : Option GoString)
  deriving DecidableEq

/-- The error of a body that does not decode. -/
def ErrDecode : Error := Error.other (lit "invalid JSON body")
/-- The error of the validator for a field tagged `binding:"required"` that holds the zero
value of its type. -/
def ErrRequired : Error :=
  Error.other (lit "Field validation for 'Name' failed on the 'required' tag")

/-- The call `c.ShouldBindJSON(&req)` for `req` of type `models.CreateAPIKeyRequest`: the
body is decoded into the struct, then the `required` tag of `Name` is checked, which
fails on the zero value `""`. The result is `req` afterwards and the error. -/
def ShouldBindJSON : JSONBody → CreateAPIKeyRequest × Option Error
  | .malformed => ({ Name := [] }, some ErrDecode)
  | .object none => ({ Name := [] }, some ErrRequired)
  | .object (some name) =>
    if name = [] then ({ Name := [] }, some ErrRequired) else ({ Name := name }, none)

/-- The handler functions (`gin.HandlerFunc` values) this service registers. -/
inductive Handler where
  /-- The middleware `gin.Logger()`. -/
  | Logger
  /-- The middleware `gin.Recovery()`. -/
  | Recovery
  /-- The handler `ginSwagger.WrapHandler(swaggerFiles.Handler)`. -/
  | Swagger
  /-- The handler `transport.AuthPage`. -/
  | AuthPage
  /-- The handler `transport.SetAuthCookie`. -/
  | SetAuthCookie
  /-- The handler `transport.ClearAuthCookie`. -/
  | ClearAuthCookie
  /-- The middleware `middleware.RequestLogger(logService)`. -/
  | RequestLogger
  /-- The middleware `middleware.MasterKeyAuth(cfg.MasterAPIKey)`. -/
  | MasterKeyAuth
  /-- The middleware `middleware.APIKeyAuth(apiKeyService)`. -/
  | APIKeyAuth
  /-- The handler `apiKeyHandler.CreateAPIKey`. -/
  | CreateAPIKey
  /-- The handler `dashboardHandler.DashboardPage`. -/
  | DashboardPage
  /-- The handler `dashboardHandler.GetLogs`. -/
  | GetLogs
  /-- The handler `dashboardHandler.GetStats`. -/
  | GetStats
  /-- The handler `transport.hello`. -/
  | hello
  deriving DecidableEq

/-- An entry of the routing tree of the engine: the chain it holds was fixed by
`combineHandlers` when the route was registered. -/
structure Route where
  /-- The HTTP method. -/
  method : GoString
  /-- The absolute path. -/
  path : GoString
  /-- The handler chain. -/
  handlers : List Handler
  deriving DecidableEq

/-- The struct `gin.RouterGroup`. -/
structure RouterGroup where
  /-- The field `basePath`. -/
  basePath : GoString
  /-- The field `Handlers`: the middleware of the group. -/
  Handlers : List Handler
  deriving DecidableEq

/-- The struct `gin.Engine`: its embedded root group and the routes registered so far, in
registration order. -/
structure Engine where
  /-- The embedded `RouterGroup`. -/
  RouterGroup : RouterGroup
  /-- The routes of the method trees. -/
  routes : List Route
  deriving DecidableEq

/-- The function `joinPaths` of gin for clean paths (no `.` or `..` element, no doubled
slash): an empty relative path leaves the base unchanged, otherwise the two are joined
with exactly one slash between them. -/
def joinPaths (absolutePath relativePath : GoString) : GoString :=
  if relativePath = [] then absolutePath
  else
    let base := if absolutePath.getLast? = some 47 then absolutePath.dropLast else absolutePath
    let rel := if relativePath.head? = some 47 then relativePath.tail else relativePath
    base ++ [47] ++ rel

/-- The function `gin.New()`: an engine with root path `/`, no middleware and no route. -/
def gin.New : Engine :=
  { RouterGroup := { basePath := lit "/", Handlers := [] }, routes := [] }

/-- The method `RouterGroup.Use`: the middleware is appended to the handlers of the group. -/
def RouterGroup.Use (group : RouterGroup) (middleware : List Handler) : RouterGroup :=
  { group with Handlers := group.Handlers ++ middleware }

/-- The method `Engine.Use`: `RouterGroup.Use` on the root group. Routes registered
earlier keep the chain they were given. -/
def Engine.Use (engine : Engine) (middleware : List Handler) : Engine :=
  { engine with RouterGroup := engine.RouterGroup.Use middleware }

/-- The method `RouterGroup.Group`: a new group whose handlers are a copy of the handlers
the parent has at this moment. -/
def RouterGroup.Group (group : RouterGroup) (relativePath : GoString) : RouterGroup :=
  { basePath := joinPaths group.basePath relativePath, Handlers := group.Handlers }

/-- The method `RouterGroup.handle`: the route is added to the engine with the handlers
the group has at this moment followed by the given ones. -/
def RouterGroup.handle (group : RouterGroup) (engine : Engine) (httpMethod : GoString)
    (relativePath : GoString) (handlers : List Handler) : Engine :=
  { engine with
    routes := engine.routes ++
      [{ method := httpMethod, path := joinPaths group.basePath relativePath,
         handlers := group.Handlers ++ handlers }] }

/-- The method `RouterGroup.GET`. -/
def RouterGroup.GET (group : RouterGroup) (engine : Engine) (relativePath : GoString)
    (handlers : List Handler) : Engine :=
  group.handle engine (lit "GET") relativePath handlers

/-- The method `RouterGroup.POST`. -/
def RouterGroup.POST (group : RouterGroup) (engine : Engine) (relativePath : GoString)
    (handlers : List Handler) : Engine :=
  group.handle engine (lit "POST") relativePath handlers

/-- The method `GET` called on the engine itself: a route of the root group. -/
def Engine.GET (engine : Engine) (relativePath : GoString) (handlers : List Handler) :
    Engine :=
  engine.RouterGroup.GET engine relativePath handlers

/-- The method `POST` called on the engine itself: a route of the root group. -/
def Engine.POST (engine : Engine) (relativePath : GoString) (handlers : List Handler) :
    Engine :=
  engine.RouterGroup.POST engine relativePath handlers

/-- The chain registered for a method and an absolute path, if there is such a route. -/
def Engine.chain (engine : Engine) (httpMethod path : GoString) : Option (List Handler) :=
  (engine.routes.find? (fun r => r.method == httpMethod && r.path == path)).map
    (fun r => r.handlers)

/-! ## `strconv` (library code the dashboard relies on) -/

/-- The decimal digits of a natural number, most significant first. -/
def strconv.digits (n : Nat) : GoString :=
  (Nat.toDigits 10 n).map (fun ch => UInt8.ofNat ch.toNat)

/-- The function `strconv.FormatInt(n, 10)`, which is also `strconv.Itoa`: the decimal
rendering, with a leading `-` for a negative number. -/
def strconv.FormatInt (n : Int) : GoString :=
  if n < 0 then lit "-" ++ strconv.digits n.natAbs else strconv.digits n.natAbs

/-! ## `fmt` and `crypto/rand` (library code the key service relies on) -/

/-- The method `Error()` of an error: its message. -/
def Error.message : Error → GoString
  | .ErrNoRows => lit "no rows in result set"
  | .ErrNoCookie => lit "http: named cookie not present"
  | .other msg => msg

/-- The call `fmt.Errorf(text + "%w", err)`: an error whose message is `text` followed by
the message of `err`. -/
def fmt.Errorf (text : GoString) (err : Error) : Error :=
  Error.other (text ++ err.message)

/-- The entropy source behind `crypto/rand`: the bytes it delivers to a `Read`, the error
(if any) with which a `Read` fails, and the number of `Read` calls so far. -/
structure Rand where
  /-- Bytes delivered to a `Read`. -/
  bytes : GoString
  /-- Error with which a `Read` fails; nil when the source delivers. -/
  err : Option Error := none
  /-- Number of `Read` calls made so far. -/
  reads : Nat := 0
  deriving DecidableEq

/-- The call `rand.Read(b)` on a fresh buffer `b = make([]byte, n)`: the buffer afterwards
and the error. On success the delivered bytes fill the buffer. -/
def rand.Read (rnd : Rand) (n : Nat) : (GoString × Option Error) × Rand :=
  match rnd.err with
  | some err => ((List.replicate n 0, some err), { rnd with reads := rnd.reads + 1 })
  | none =>
    (((rnd.bytes ++ List.replicate n 0).take n, none), { rnd with reads := rnd.reads + 1 })

/-! ## `internal/database`: the connection pool and the tables behind it -/

/-- A value bound to a placeholder `$n` of a query. -/
inductive Arg where
  /-- A Go `string`. -/
  | text (s : GoString)
  /-- A Go `int`. -/
  | int (n : Int)
  /-- A Go `time.Time`. -/
  | timestamp (t : Time)
  deriving DecidableEq

/-- A conjunct of the WHERE clause that `LogRepository.List` builds, with the number of
its placeholder. -/
inductive Conjunct where
  /-- The text `1=1`. -/
  | always
  /-- The text `method = $pos`. -/
  | methodEq (pos : Nat)
  /-- The text `status_code = $pos`. -/
  | statusEq (pos : Nat)
  /-- The text `path LIKE $pos`. -/
  | pathLike (pos : Nat)
  /-- The text `created_at >= $pos`. -/
  | createdGe (pos : Nat)
  /-- The text `created_at <= $pos`. -/
  | createdLe (pos : Nat)
  deriving DecidableEq

/-- A statement sent to the pool by a repository method. -/
inductive Stmt where
  /-- The SELECT of `APIKeyRepository.FindByKey` with its argument. -/
  | SelectKey (key : GoString)
  /-- The UPDATE of `APIKeyRepository.UpdateLastUsed` with its two arguments. -/
  | UpdateLastUsed (now : Time) (key : GoString)
  /-- The INSERT of `LogRepository.Create` with the record it binds. -/
  | InsertLog (log : RequestLog)
  /-- The INSERT of `APIKeyRepository.Create` with its two arguments. -/
  | InsertKey (key name : GoString)
  /-- The `SELECT COUNT(*)` of `LogRepository.List` with its WHERE clause and arguments. -/
  | CountLogs (conjuncts : List Conjunct) (args : List Arg)
  /-- The page SELECT of `LogRepository.List` with its WHERE clause, its arguments and the
  placeholders of `LIMIT` and `OFFSET`. -/
  | SelectLogs (conjuncts : List Conjunct) (args : List Arg) (limitPos offsetPos : Nat)
  /-- The totals query of `LogRepository.GetStats` with its two arguments. -/
  | StatsTotals (startDate endDate : Time)
  /-- The status-code query of `LogRepository.GetStats` with its two arguments. -/
  | StatsStatusCodes (startDate endDate : Time)
  /-- The path query of `LogRepository.GetStats` with its two arguments. -/
  | StatsPaths (startDate endDate : Time)
  /-- The method query of `LogRepository.GetStats` with its two arguments. -/
  | StatsMethods (startDate endDate : Time)
  deriving DecidableEq

/-- The database reached through `database.DB.Pool`: the two tables, the error (if any)
with which the backend answers each kind of statement, and the statements received. -/
structure Pool where
  /-- Rows of table `api_keys`. -/
  api_keys : List APIKey
  /-- Rows of table `request_logs`, oldest first. -/
  request_logs : List RequestLog
  /-- Last value handed out by the `id` sequence of `request_logs`. -/
  request_logs_id : Int
  /-- Error with which the SELECT on `api_keys` fails; nil when the backend answers it. -/
  selectKeyErr : Option Error
  /-- Error with which the UPDATE on `api_keys` fails; nil when the backend answers it. -/
  updateKeyErr : Option Error
  /-- Error with which the INSERT on `request_logs` fails; nil when the backend answers it. -/
  insertLogErr : Option Error
  /-- Statements received so far, oldest first. -/
  executed : List Stmt
  /-- Last value handed out by the `id` sequence of `api_keys`. -/
  api_keys_id : Int := 0
  /-- Error with which the INSERT on `api_keys` fails for a reason other than a duplicate
  key (for instance a value too long for its column); nil when the backend accepts it. -/
  insertKeyErr : Option Error := none
  /-- Error with which the `SELECT COUNT(*)` on `request_logs` fails; nil when answered. -/
  countLogsErr : Option Error := none
  /-- Error with which `Query` or `Scan` of the page SELECT on `request_logs` fails; nil
  when answered. -/
  selectLogsErr : Option Error := none
  /-- Error with which the totals query of the statistics fails; nil when answered. -/
  statsTotalsErr : Option Error := none
  /-- Error with which the status-code query of the statistics fails; nil when answered. -/
  statsStatusCodesErr : Option Error := none
  /-- Error with which the path query of the statistics fails; nil when answered. -/
  statsPathsErr : Option Error := none
  /-- Error with which the method query of the statistics fails; nil when answered. -/
  statsMethodsErr : Option Error := none
  deriving DecidableEq

/-- The pool after it received one more statement. -/
def Pool.record (db : Pool) (st : Stmt) : Pool :=
  { db with executed := db.executed ++ [st] }

/-- Result of `QueryRow(ctx, query, key).Scan(...)` for
`SELECT ... FROM api_keys WHERE key = $1 AND active = TRUE`: the backend error if it
fails, `pgx.ErrNoRows` if no row qualifies, the first qualifying row otherwise. -/
def Pool.scanActiveKey (db : Pool) (key : GoString) : Option APIKey × Option Error :=
  match db.selectKeyErr with
  | some e => (none, some e)
  | none =>
    match db.api_keys.find? (fun r => r.Key == key && r.Active) with
    | none => (none, some Error.ErrNoRows)
    | some r => (some r, none)

/-! ### The log queries as PostgreSQL evaluates them -/

/-- PostgreSQL `text LIKE pattern`, byte by byte: `%` stands for any run of bytes, `_` for
one byte, a backslash makes the next pattern byte literal; a pattern ending in a lone
backslash (rejected by PostgreSQL) matches nothing. -/
def sqlLike : GoString → GoString → Bool
  | [], text => text.isEmpty
  | p :: ps, text =>
    if p = 37 then text.tails.any (fun t => sqlLike ps t)
    else if p = 95 then
      match text with
      | [] => false
      | _ :: t => sqlLike ps t
    else if p = 92 then
      match ps with
      | [] => false
      | q :: ps' =>
        match text with
        | [] => false
        | x :: t => x == q && sqlLike ps' t
    else
      match text with
      | [] => false
      | x :: t => x == p && sqlLike ps t

/-- The value bound to placeholder `$pos` (counted from 1), if any. -/
def Arg.bound (args : List Arg) (pos : Nat) : Option Arg :=
  if pos = 0 then none else args[pos - 1]?

/-- The conjunct has its placeholder bound to a value of the type of its column. -/
def Conjunct.wellBound (args : List Arg) : Conjunct → Bool
  | .always => true
  | .methodEq pos => match Arg.bound args pos with | some (.text _) => true | _ => false
  | .statusEq pos => match Arg.bound args pos with | some (.int _) => true | _ => false
  | .pathLike pos => match Arg.bound args pos with | some (.text _) => true | _ => false
  | .createdGe pos => match Arg.bound args pos with | some (.timestamp _) => true | _ => false
  | .createdLe pos => match Arg.bound args pos with | some (.timestamp _) => true | _ => false

/-- Truth of one conjunct on a row of `request_logs`. -/
def Conjunct.holds (args : List Arg) (row : RequestLog) : Conjunct → Bool
  | .always => true
  | .methodEq pos =>
    match Arg.bound args pos with | some (.text s) => row.Method == s | _ => false
  | .statusEq pos =>
    match Arg.bound args pos with | some (.int n) => row.StatusCode == n | _ => false
  | .pathLike pos =>
    match Arg.bound args pos with | some (.text s) => sqlLike s row.Path | _ => false
  | .createdGe pos =>
    match Arg.bound args pos with | some (.timestamp t) => decide (row.CreatedAt ≥ t) | _ => false
  | .createdLe pos =>
    match Arg.bound args pos with | some (.timestamp t) => decide (row.CreatedAt ≤ t) | _ => false

/-- Truth of `WHERE c1 AND c2 AND ...` on a row (an empty list stands for no WHERE clause). -/
def whereHolds (conjuncts : List Conjunct) (args : List Arg) (row : RequestLog) : Bool :=
  conjuncts.all (fun cj => cj.holds args row)

/-- The error of a query that PostgreSQL rejects (unbound placeholder, negative `LIMIT`
or `OFFSET`). -/
def ErrQuery : Error := Error.other (lit "invalid query")

/-- Result of `QueryRow(ctx, countQuery, args...).Scan(&total)` for
`SELECT COUNT(*) FROM request_logs WHERE ...`. -/
def Pool.queryCount (db : Pool) (conjuncts : List Conjunct) (args : List Arg) :
    Int × Option Error :=
  match db.countLogsErr with
  | some err => (0, some err)
  | none =>
    if conjuncts.all (fun cj => cj.wellBound args) then
      (((db.request_logs.filter (whereHolds conjuncts args)).length : Int), none)
    else (0, some ErrQuery)

/-- The rows of `ORDER BY created_at DESC`; rows with equal `created_at`, whose order
PostgreSQL leaves open, stay in table order. -/
def newestFirst (rows : List RequestLog) : List RequestLog :=
  rows.insertionSort (fun a b => a.CreatedAt ≥ b.CreatedAt)

/-- Result of the page query
`SELECT ... FROM request_logs WHERE ... ORDER BY created_at DESC LIMIT $l OFFSET $o` and of
reading its rows. PostgreSQL rejects a negative `LIMIT` or `OFFSET`. -/
def Pool.queryLogs (db : Pool) (conjuncts : List Conjunct) (args : List Arg)
    (limitPos offsetPos : Nat) : List RequestLog × Option Error :=
  match db.selectLogsErr with
  | some err => ([], some err)
  | none =>
    match Arg.bound args limitPos, Arg.bound args offsetPos with
    | some (.int limit), some (.int offset) =>
      if conjuncts.all (fun cj => cj.wellBound args) && decide (0 ≤ limit) && decide (0 ≤ offset) then
        (((newestFirst (db.request_logs.filter (whereHolds conjuncts args))).drop
            offset.toNat).take limit.toNat, none)
      else ([], some ErrQuery)
    | _, _ => ([], some ErrQuery)

/-- The rows of `request_logs` with `created_at >= $1 AND created_at <= $2`. -/
def Pool.inWindow (db : Pool) (startDate endDate : Time) : List RequestLog :=
  db.request_logs.filter (fun r => decide (r.CreatedAt ≥ startDate) && decide (r.CreatedAt ≤ endDate))

/-- Result of the totals query `SELECT COUNT(*), COALESCE(AVG(response_time_ms), 0) ...`
scanned into a `sql.NullInt64` and a `sql.NullFloat64`: one row, both columns valid. -/
def Pool.queryTotals (db : Pool) (startDate endDate : Time) :
    (Option Int × Option ℚ) × Option Error :=
  match db.statsTotalsErr with
  | some err => ((none, none), some err)
  | none =>
    let rows := db.inWindow startDate endDate
    if rows = [] then ((some 0, some 0), none)
    else
      ((some (rows.length : Int),
        some (((rows.map (fun r => r.ResponseTime)).sum : ℚ) / (rows.length : ℚ))), none)

/-- The rows of `SELECT k, COUNT(*) as count ... GROUP BY k ORDER BY count DESC` for the
key column values `keys` of the selected rows: one row per distinct key with the number
of its occurrences, larger counts first (the order of equal counts is left open by
PostgreSQL). -/
def groupCount {κ : Type} [DecidableEq κ] (keys : List κ) : List (κ × Int) :=
  (keys.dedup.map (fun k => (k, (keys.count k : Int)))).insertionSort
    (fun a b => a.2 ≥ b.2)

/-- Result of the status-code query of the statistics. -/
def Pool.queryStatusCodes (db : Pool) (startDate endDate : Time) :
    List (Int × Int) × Option Error :=
  match db.statsStatusCodesErr with
  | some err => ([], some err)
  | none => (groupCount ((db.inWindow startDate endDate).map (fun r => r.StatusCode)), none)

/-- Result of the path query of the statistics (`LIMIT 10`). -/
def Pool.queryPaths (db : Pool) (startDate endDate : Time) :
    List (GoString × Int) × Option Error :=
  match db.statsPathsErr with
  | some err => ([], some err)
  | none =>
    ((groupCount ((db.inWindow startDate endDate).map (fun r => r.Path))).take 10, none)

/-- Result of the method query of the statistics. -/
def Pool.queryMethods (db : Pool) (startDate endDate : Time) :
    List (GoString × Int) × Option Error :=
  match db.statsMethodsErr with
  | some err => ([], some err)
  | none => (groupCount ((db.inWindow startDate endDate).map (fun r => r.Method)), none)

/-- The assignment `m[k] = v` on a Go map kept as its list of entries. -/
def mapSet (m : List (Int × Int)) (k v : Int) : List (Int × Int) :=
  m.filter (fun e => e.1 ≠ k) ++ [(k, v)]

/-- The value `m[k]` of a Go map kept as its list of entries, if the key is present. -/
def mapGet (m : List (Int × Int)) (k : Int) : Option Int :=
  (m.find? (fun e => e.1 == k)).map (fun e => e.2)

/-! ## `internal/repository` -/

/-- The method `APIKeyRepository.FindByKey`: returns `(nil, nil)` on `pgx.ErrNoRows`,
`(nil, err)` on any other error and the scanned row otherwise. -/
def APIKeyRepository.FindByKey (db : Pool) (key : GoString) :
    (Option APIKey × Option Error) × Pool :=
  let db1 := db.record (Stmt.SelectKey key)
  match db.scanActiveKey key with
  | (_, some err) =>
    if err = Error.ErrNoRows then ((none, none), db1)
    else ((none, some err), db1)
  | (apiKey, none) => ((apiKey, none), db1)

/-- The method `APIKeyRepository.UpdateLastUsed`:
`UPDATE api_keys SET last_used_at = $1 WHERE key = $2` with `time.Now()` as `$1`;
returns the error of `Exec`. -/
def APIKeyRepository.UpdateLastUsed (db : Pool) (now : Time) (key : GoString) :
    Option Error × Pool :=
  let db1 := db.record (Stmt.UpdateLastUsed now key)
  match db.updateKeyErr with
  | some err => (some err, db1)
  | none =>
    (none, { db1 with api_keys := db1.api_keys.map (fun r =>
      if r.Key == key then { r with LastUsedAt := some now } else r) })

/-- The error of an INSERT whose `key` is already in `api_keys` (the column is `UNIQUE`). -/
def ErrUniqueViolation : Error :=
  Error.other (lit "duplicate key value violates unique constraint api_keys_key_key")

/-- The method `APIKeyRepository.Create`:
`INSERT INTO api_keys (key, name, active) VALUES ($1, $2, TRUE) RETURNING ...`; `now` is
the `CURRENT_TIMESTAMP` of the database, the default of `created_at`. Returns the stored
record, or `(nil, err)` when the query fails. -/
def APIKeyRepository.Create (db : Pool) (now : Time) (key name : GoString) :
    (Option APIKey × Option Error) × Pool :=
  let db1 := db.record (Stmt.InsertKey key name)
  match db.insertKeyErr with
  | some err => ((none, some err), db1)
  | none =>
    if db.api_keys.any (fun r => r.Key == key) then
      ((none, some ErrUniqueViolation), { db1 with api_keys_id := db.api_keys_id + 1 })
    else
      let apiKey : APIKey :=
        { ID := db.api_keys_id + 1, Key := key, Name := name, Active := true,
          CreatedAt := now, LastUsedAt := none }
      ((some apiKey, none),
        { db1 with api_keys := db1.api_keys ++ [apiKey], api_keys_id := db.api_keys_id + 1 })

/-- The method `LogRepository.Create`: inserts the record with its nine bound fields and
scans the new `id` into it; returns the error of the query. -/
def LogRepository.Create (db : Pool) (log : RequestLog) : (Option Error × RequestLog) × Pool :=
  let db1 := db.record (Stmt.InsertLog log)
  match db.insertLogErr with
  | some err => ((some err, log), db1)
  | none =>
    let row := { log with ID := db.request_logs_id + 1 }
    ((none, row), { db1 with request_logs := db1.request_logs ++ [row],
                             request_logs_id := db.request_logs_id + 1 })

/-- The local variables `where`, `args` and `argPos` of `LogRepository.List`. -/
structure WhereClause where
  /-- The slice `where`: the conjuncts, joined by `AND` into the WHERE clause. -/
  conjuncts : List Conjunct
  /-- The slice `args`. -/
  args : List Arg
  /-- The counter `argPos`: number of the next placeholder. -/
  argPos : Nat
  deriving DecidableEq

/-- One of the five tests of `LogRepository.List`: when the field is present, a conjunct
with placeholder `$argPos` and its argument are appended and `argPos` is incremented. -/
def WhereClause.add (w : WhereClause) (present : Bool) (conjunct : Nat → Conjunct)
    (arg : Arg) : WhereClause :=
  if present then
    { conjuncts := w.conjuncts ++ [conjunct w.argPos], args := w.args ++ [arg],
      argPos := w.argPos + 1 }
  else w

/-- The WHERE clause `LogRepository.List` builds from the filter (source lines 47-79). -/
def LogRepository.List.build (params : LogQueryParams) : WhereClause :=
  let w : WhereClause := { conjuncts := [Conjunct.always], args := [], argPos := 1 }
  let w := w.add (params.Method ≠ []) Conjunct.methodEq (Arg.text params.Method)
  let w := w.add (params.StatusCode > 0) Conjunct.statusEq (Arg.int params.StatusCode)
  let w := w.add (params.Path ≠ []) Conjunct.pathLike
    (Arg.text (lit "%" ++ params.Path ++ lit "%"))
  let w := w.add (params.StartDate ≠ 0) Conjunct.createdGe (Arg.timestamp params.StartDate)
  let w := w.add (params.EndDate ≠ 0) Conjunct.createdLe (Arg.timestamp params.EndDate)
  w

/-- The number of the placeholder a conjunct uses, if it uses one. -/
def Conjunct.placeholder : Conjunct → Option Nat
  | .always => none
  | .methodEq pos => some pos
  | .statusEq pos => some pos
  | .pathLike pos => some pos
  | .createdGe pos => some pos
  | .createdLe pos => some pos

/-- The five filter fields of `LogQueryParams` as the specification lists them, in the
order method, status code, path, start date, end date: whether the field is present, the
conjunct it stands for and its value as a query argument (the path wrapped as `%path%`). -/
def filterFields (params : LogQueryParams) : List (Bool × (Nat → Conjunct) × Arg) :=
  [(decide (params.Method ≠ []), Conjunct.methodEq, Arg.text params.Method),
   (decide (params.StatusCode > 0), Conjunct.statusEq, Arg.int params.StatusCode),
   (decide (params.Path ≠ []), Conjunct.pathLike,
     Arg.text (lit "%" ++ params.Path ++ lit "%")),
   (decide (params.StartDate ≠ 0), Conjunct.createdGe, Arg.timestamp params.StartDate),
   (decide (params.EndDate ≠ 0), Conjunct.createdLe, Arg.timestamp params.EndDate)]

/-- The field `params.Limit` of `LogRepository.List` after its two adjustments (source
lines 98-103). -/
def LogRepository.List.limit (params : LogQueryParams) : Int :=
  let limit := if params.Limit ≤ 0 then 100 else params.Limit
  if limit > 1000 then 1000 else limit

/-- The method `LogRepository.List`: the count query, then the page query with the
adjusted limit and the offset appended to the arguments. Returns the Go triple
`(logs, total, err)` and the pool afterwards. A failing page query is modelled as the
error `Query` or `Scan` returns, with which the source returns `(nil, 0, err)`; an error
that only `rows.Err()` reports comes in the source with the rows read so far and the
total, values its callers do not read when the error is not nil. -/
def LogRepository.List (db : Pool) (params : LogQueryParams) :
    (List RequestLog × Int × Option Error) × Pool :=
  let w := LogRepository.List.build params
  let db1 := db.record (Stmt.CountLogs w.conjuncts w.args)
  match db.queryCount w.conjuncts w.args with
  | (_, some err) => (([], 0, some err), db1)
  | (total, none) =>
    let args := w.args ++ [Arg.int (LogRepository.List.limit params), Arg.int params.Offset]
    let db2 := db1.record (Stmt.SelectLogs w.conjuncts args w.argPos (w.argPos + 1))
    match db.queryLogs w.conjuncts args w.argPos (w.argPos + 1) with
    | (_, some err) => (([], 0, some err), db2)
    | (logs, none) => ((logs, total, none), db2)

/-- The method `LogRepository.GetStats`: the totals query (whose `pgx.ErrNoRows` is
ignored), then the status-code, path and method queries; any other error ends it with
`(nil, err)`. Returns the Go pair `(stats, err)` and the pool afterwards. A failing
grouped query is modelled as `Query` returning the error; the source does not test
`rows.Err()` after its three loops, so an error that ends a loop early, which the source
leaves unreported, is outside this model. -/
def LogRepository.GetStats (db : Pool) (startDate endDate : Time) :
    (Option LogStats × Option Error) × Pool :=
  let stats : LogStats := { StatusCodes := some [] }
  let db1 := db.record (Stmt.StatsTotals startDate endDate)
  match db.queryTotals startDate endDate with
  | ((total, avgResponseTime), err) =>
    if err ≠ none ∧ err ≠ some Error.ErrNoRows then ((none, err), db1)
    else
      let stats := match total with
        | some n => { stats with TotalRequests := n }
        | none => stats
      let stats := match avgResponseTime with
        | some a => { stats with AverageResponseTime := a }
        | none => stats
      let db2 := db1.record (Stmt.StatsStatusCodes startDate endDate)
      match db.queryStatusCodes startDate endDate with
      | (_, some err) => ((none, some err), db2)
      | (statusRows, none) =>
        let statusCodes := statusRows.foldl (fun m row => mapSet m row.1 row.2) []
        let stats := { stats with StatusCodes := some statusCodes }
        let db3 := db2.record (Stmt.StatsPaths startDate endDate)
        match db.queryPaths startDate endDate with
        | (_, some err) => ((none, some err), db3)
        | (pathRows, none) =>
          let topPaths := pathRows.map (fun row => PathCount.mk row.1 row.2)
          let stats := { stats with TopPaths := topPaths }
          let db4 := db3.record (Stmt.StatsMethods startDate endDate)
          match db.queryMethods startDate endDate with
          | (_, some err) => ((none, some err), db4)
          | (methodRows, none) =>
            let topMethods := methodRows.map (fun row => MethodCount.mk row.1 row.2)
            ((some { stats with TopMethods := topMethods }, none), db4)

/-! ## `internal/service` -/

/-- The method `APIKeyService.GenerateKey`: 32 bytes read from `crypto/rand`, rendered in
hexadecimal; a failing read is returned as `("", err)` with the wrapped error. -/
def APIKeyService.GenerateKey (rnd : Rand) : (GoString × Option Error) × Rand :=
  match rand.Read rnd 32 with
  | ((_, some err), rnd1) =>
    (([], some (fmt.Errorf (lit "failed to generate random bytes: ") err)), rnd1)
  | ((bytes, none), rnd1) => ((hex.EncodeToString bytes, none), rnd1)

/-- The method `APIKeyService.CreateAPIKey`; `now` is the clock of the database. Returns
the Go pair `(response, err)`, the entropy source and the pool afterwards. The record is
dereferenced only when `Create` returned a nil error, in which case it is not nil. -/
def APIKeyService.CreateAPIKey (rnd : Rand) (db : Pool) (now : Time) (name : GoString) :
    (Option CreateAPIKeyResponse × Option Error) × Rand × Pool :=
  match APIKeyService.GenerateKey rnd with
  | ((_, some err), rnd1) => ((none, some err), rnd1, db)
  | ((key, none), rnd1) =>
    match APIKeyRepository.Create db now key name with
    | ((_, some err), db1) => ((none, some err), rnd1, db1)
    | ((apiKey, none), db1) =>
      ((apiKey.map (fun k => { Key := k.Key, Name := k.Name, CreatedAt := k.CreatedAt }), none),
        rnd1, db1)

/-- The method `APIKeyService.ValidateKey`; `now` is the clock reading of the
`UpdateLastUsed` call. Returns the Go pair `(valid, err)` and the pool afterwards. -/
def APIKeyService.ValidateKey (db : Pool) (now : Time) (key : GoString) :
    (Bool × Option Error) × Pool :=
  match APIKeyRepository.FindByKey db key with
  | ((_, some err), db1) => ((false, some err), db1)
  | ((none, none), db1) => ((false, none), db1)
  | ((some _, none), db1) =>
    -- Update last used timestamp; the error is discarded
    ((true, none), (APIKeyRepository.UpdateLastUsed db1 now key).2)

/-- The method `LogService.LogRequest`; `now` is the clock reading used when the record
has no creation time. -/
def LogService.LogRequest (db : Pool) (now : Time) (log : RequestLog) :
    (Option Error × RequestLog) × Pool :=
  let log1 := if log.CreatedAt = 0 then { log with CreatedAt := now } else log
  LogRepository.Create db log1

/-- The method `LogService.GetLogs`. -/
def LogService.GetLogs (db : Pool) (params : LogQueryParams) :
    (List RequestLog × Int × Option Error) × Pool :=
  LogRepository.List db params

/-- Twenty-four hours, instants being counted in nanoseconds. -/
def Day : Int := 86400000000000

/-- The call `t.AddDate(0, 0, days)` in a location whose clock does not change in
between (such as UTC). -/
def Time.AddDays (t : Time) (days : Int) : Time := t + days * Day

/-- The window `(startDate, endDate)` that `LogService.GetStats` hands to the repository
(source lines 31-36); `now₁` and `now₂` are the clock readings of its two `time.Now()`
calls. -/
def LogService.GetStats.window (now₁ now₂ : Time) (startDate endDate : Time) : Time × Time :=
  let startDate := if startDate = 0 then Time.AddDays now₁ (-7) else startDate
  let endDate := if endDate = 0 then now₂ else endDate
  (startDate, endDate)

/-- The method `LogService.GetStats`. -/
def LogService.GetStats (db : Pool) (now₁ now₂ : Time) (startDate endDate : Time) :
    (Option LogStats × Option Error) × Pool :=
  LogRepository.GetStats db (LogService.GetStats.window now₁ now₂ startDate endDate).1
    (LogService.GetStats.window now₁ now₂ startDate endDate).2

/-! ## `internal/middleware` -/

/-- The body `gin.H{"error": msg}` of an error response. -/
def errorBody (msg : GoString) : Payload := Payload.H [(lit "error", msg)]

/-- Message of the user-key gate for a request without credential. -/
def msgKeyRequired : GoString :=
  lit "API key is required. Provide it as 'api' query parameter or authenticate via /auth page."
/-- Message of the user-key gate when the lookup failed. -/
def msgInternal : GoString := lit "Internal server error"
/-- Message of the user-key gate for an unknown or inactive key. -/
def msgInvalidKey : GoString := lit "Invalid or inactive API key"
/-- Message of the master-key gate when no master key is configured. -/
def msgNotConfigured : GoString :=
  lit "Master API key not configured. Set MASTER_API_KEY environment variable."
/-- Message of the master-key gate for a request without credential. -/
def msgMasterRequired : GoString :=
  lit "Master API key is required. Provide it as 'api' query parameter or authenticate via /auth page."
/-- Message of the master-key gate for a credential that is not the master key. -/
def msgInvalidMaster : GoString := lit "Invalid master API key"

/-- Local variable `apiKey` of `APIKeyAuth` after the extraction (source lines 13-16):
the cookie `api_key`, replaced by query parameter `api` when `c.Cookie` fails or
returns `""`. -/
def APIKeyAuth.apiKey (c : Context) : GoString :=
  match c.Cookie (lit "api_key") with
  | (apiKey, err) =>
    if err ≠ none || apiKey == [] then c.Query (lit "api") else apiKey

/-- The handler returned by `APIKeyAuth(apiKeyService)`: the calls it makes on the
context and the pool afterwards; `now` is the clock reading of the key service. -/
def APIKeyAuth (db : Pool) (now : Time) (c : Context) : List Call × Pool :=
  let apiKey := APIKeyAuth.apiKey c
  if apiKey = [] then
    ([Call.JSON StatusForbidden (errorBody msgKeyRequired), Call.Abort], db)
  else
    match APIKeyService.ValidateKey db now apiKey with
    | ((_, some _), db1) =>
      ([Call.JSON StatusInternalServerError (errorBody msgInternal), Call.Abort], db1)
    | ((valid, none), db1) =>
      if !valid then
        ([Call.JSON StatusForbidden (errorBody msgInvalidKey), Call.Abort], db1)
      else
        ([Call.Next], db1)

/-- Local variable `apiKey` of `MasterKeyAuth` after the extraction (source lines 20-23). -/
def MasterKeyAuth.apiKey (c : Context) : GoString :=
  match c.Cookie (lit "api_key") with
  | (apiKey, err) =>
    if err ≠ none || apiKey == [] then c.Query (lit "api") else apiKey

/-- The handler returned by `MasterKeyAuth(masterKey)`: the calls it makes on the context. -/
def MasterKeyAuth (masterKey : GoString) (c : Context) : List Call :=
  if masterKey = [] then
    [Call.JSON StatusForbidden (errorBody msgNotConfigured), Call.Abort]
  else
    let apiKey := MasterKeyAuth.apiKey c
    if apiKey = [] then
      -- Redirect to auth page for HTML requests, return JSON error for API requests
      if c.GetHeader (lit "Accept") = lit "text/html" || c.Request.Path = lit "/dashboard" then
        [Call.Redirect StatusFound (lit "/auth"), Call.Abort]
      else
        [Call.JSON StatusForbidden (errorBody msgMasterRequired), Call.Abort]
    else if apiKey ≠ masterKey then
      [Call.JSON StatusForbidden (errorBody msgInvalidMaster), Call.Abort]
    else
      [Call.Next]

/-- The masking step of `RequestLogger` (source lines 24-27): a key longer than 8 bytes
is cut to its first 8 bytes followed by `"..."`. -/
def RequestLogger.mask (apiKey : GoString) : GoString :=
  if apiKey.length > 8 then apiKey.take 8 ++ lit "..." else apiKey

/-- The log entry `RequestLogger` builds once `c.Next()` has returned: `c` is the context
at that point, `responseTime` the elapsed milliseconds and `now` the clock reading. -/
def RequestLogger.logEntry (c : Context) (responseTime : Int) (now : Time) : RequestLog :=
  let apiKey := RequestLogger.mask (c.Query (lit "api"))
  { ID := 0
    Method := c.Request.Method
    Path := c.Request.Path
    QueryParams := c.Request.RawQuery
    StatusCode := c.Status
    IPAddress := c.ClientIP
    UserAgent := c.GetHeader (lit "User-Agent")
    APIKey := apiKey
    ResponseTime := responseTime
    CreatedAt := now }

/-- The handler returned by `RequestLogger(logService)`: it runs the rest of the chain
(`next`), then builds the log entry; the result is the context afterwards and the entry
the spawned goroutine hands to `LogService.LogRequest`. -/
def RequestLogger (next : Context → Context) (responseTime : Int) (now : Time)
    (c : Context) : Context × RequestLog :=
  let c1 := (c.run next [Call.Next]).1
  (c1, RequestLogger.logEntry c1 responseTime now)

/-- The goroutine spawned by `RequestLogger`: `LogService.LogRequest` on the entry, its
error discarded; the result is the pool afterwards. -/
def RequestLogger.persist (db : Pool) (now : Time) (logEntry : RequestLog) : Pool :=
  (LogService.LogRequest db now logEntry).2

/-! ## `internal/server/transport` -/

/-- Go `int` arithmetic is modulo `2^64` (64-bit platforms): the value of a result `x`. -/
def wrapInt (x : Int) : Int := (x + 2 ^ 63) % 2 ^ 64 - 2 ^ 63

/-- Message of `POST /api-keys` for a body that does not bind. -/
def msgInvalidRequest : GoString := lit "Invalid request. 'name' field is required."
/-- Message of `POST /api-keys` when the key service fails. -/
def msgCreateFailed : GoString := lit "Failed to create API key"
/-- Message of `GET /dashboard/logs` for a query that does not bind. -/
def msgInvalidQuery : GoString := lit "Invalid query parameters"
/-- Message of `GET /dashboard/logs` when the log service fails. -/
def msgLogsFailed : GoString := lit "Failed to retrieve logs"

/-- The handler `APIKeyHandler.CreateAPIKey`; `bind` is what `c.ShouldBindJSON(&req)`
leaves in `req` and returns. The result is the calls it makes on the context, the entropy
source and the pool afterwards. -/
def APIKeyHandler.CreateAPIKey (bind : CreateAPIKeyRequest × Option Error) (rnd : Rand)
    (db : Pool) (now : Time) : List Call × Rand × Pool :=
  match bind with
  | (_, some _) => ([Call.JSON StatusBadRequest (errorBody msgInvalidRequest)], rnd, db)
  | (req, none) =>
    match APIKeyService.CreateAPIKey rnd db now req.Name with
    | ((_, some _), rnd1, db1) =>
      ([Call.JSON StatusInternalServerError (errorBody msgCreateFailed)], rnd1, db1)
    | ((response, none), rnd1, db1) =>
      ([Call.JSON StatusCreated (Payload.CreateAPIKeyResponse response)], rnd1, db1)

/-- The struct `params` of `DashboardHandler.GetLogs` when it is handed to the log service
(source lines 45-51): a limit of zero or less becomes 100, and a positive page sets the
offset to `(Page - 1) * Limit`. -/
def DashboardHandler.GetLogs.params (params : LogQueryParams) : LogQueryParams :=
  let params := if params.Limit ≤ 0 then { params with Limit := 100 } else params
  if params.Page > 0 then
    { params with Offset := wrapInt ((params.Page - 1) * params.Limit) }
  else params

/-- The handler `DashboardHandler.GetLogs`; `bind` is what `c.ShouldBindQuery(&params)`
leaves in `params` and returns. The result is the calls it makes on the context and the
pool afterwards. -/
def DashboardHandler.GetLogs (bind : LogQueryParams × Option Error) (db : Pool) :
    List Call × Pool :=
  match bind with
  | (_, some _) => ([Call.JSON StatusBadRequest (errorBody msgInvalidQuery)], db)
  | (params, none) =>
    let params := DashboardHandler.GetLogs.params params
    match LogService.GetLogs db params with
    | ((_, _, some _), db1) =>
      ([Call.JSON StatusInternalServerError (errorBody msgLogsFailed)], db1)
    | ((logs, total, none), db1) =>
      ([Call.JSON StatusOK (Payload.Logs logs total params.Limit params.Offset params.Page)],
        db1)

/-- Message of `GET /dashboard/stats` for a `start_date` that does not parse. -/
def msgInvalidStartDate : GoString := lit "Invalid start_date format"
/-- Message of `GET /dashboard/stats` for an `end_date` that does not parse. -/
def msgInvalidEndDate : GoString := lit "Invalid end_date format"
/-- Message of `GET /dashboard/stats` when the log service fails. -/
def msgStatsFailed : GoString := lit "Failed to retrieve statistics"

/-- The handler `DashboardHandler.GetStats`; `parse` is `time.Parse(time.RFC3339, ·)` and
`now₁`, `now₂` are the clock readings of the log service. The result is the calls it makes
on the context and the pool afterwards. -/
def DashboardHandler.GetStats (parse : GoString → Time × Option Error) (c : Context)
    (db : Pool) (now₁ now₂ : Time) : List Call × Pool :=
  let startDateStr := c.Query (lit "start_date")
  match (if startDateStr ≠ [] then parse startDateStr else (0, none)) with
  | (_, some _) => ([Call.JSON StatusBadRequest (errorBody msgInvalidStartDate)], db)
  | (startDate, none) =>
    let endDateStr := c.Query (lit "end_date")
    match (if endDateStr ≠ [] then parse endDateStr else (0, none)) with
    | (_, some _) => ([Call.JSON StatusBadRequest (errorBody msgInvalidEndDate)], db)
    | (endDate, none) =>
      match LogService.GetStats db now₁ now₂ startDate endDate with
      | ((_, some _), db1) =>
        ([Call.JSON StatusInternalServerError (errorBody msgStatsFailed)], db1)
      | ((stats, none), db1) => ([Call.JSON StatusOK (Payload.LogStats stats)], db1)

/-- The local `statusClass` of `generateLogsTableRows`. -/
def generateLogsTableRows.statusClass (code : Int) : GoString :=
  if code ≥ 300 ∧ code < 400 then lit "3xx"
  else if code ≥ 400 ∧ code < 500 then lit "4xx"
  else if code ≥ 500 then lit "5xx"
  else lit "2xx"

/-- The text one iteration of `generateLogsTableRows` appends to `rows`; `format` is
`t.Format("2006-01-02 15:04:05")`. -/
def generateLogsTableRows.row (format : Time → GoString) (log : RequestLog) : GoString :=
  lit "<tr>\n\t\t\t<td>" ++ format log.CreatedAt ++
  lit "</td>\n\t\t\t<td><strong>" ++ log.Method ++
  lit "</strong></td>\n\t\t\t<td>" ++ log.Path ++
  lit "</td>\n\t\t\t<td><span class=\"status-code status-" ++
  generateLogsTableRows.statusClass log.StatusCode ++
  lit "\">" ++ strconv.FormatInt log.StatusCode ++
  lit "</span></td>\n\t\t\t<td class=\"response-time\">" ++
  strconv.FormatInt log.ResponseTime ++
  lit "ms</td>\n\t\t\t<td>" ++ log.IPAddress ++
  lit "</td>\n\t\t</tr>"

/-- The function `generateLogsTableRows`: the loop that appends one row per record. -/
def generateLogsTableRows (format : Time → GoString) (logs : List RequestLog) : GoString :=
  logs.foldl (fun rows log => rows ++ generateLogsTableRows.row format log) []

/-- The function `formatNumber`. -/
def formatNumber (n : Int) : GoString := strconv.FormatInt n

/-- The fixed text of the page built by `generateDashboardHTML`, cut where values are
inserted, and the two library renderings it uses. -/
structure DashboardTemplate where
  /-- Source lines 129-252: from `<!DOCTYPE html>` to the opening of the first value. -/
  head : GoString
  /-- Source lines 252-256: between the total and the average. -/
  afterTotal : GoString
  /-- Source lines 256-286: from `ms</div>` to the opening of the table body. -/
  afterAverage : GoString
  /-- Source lines 286-290: from the end of the table body to `Showing `. -/
  afterRows : GoString
  /-- Source lines 290-384: from ` logs</div>` to `</html>`. -/
  tail : GoString
  /-- The call `t.Format("2006-01-02 15:04:05")`. -/
  Format : Time → GoString
  /-- The call `strconv.FormatFloat(f, 'f', 2, 64)`. -/
  FormatFloat : ℚ → GoString

/-- The function `generateDashboardHTML`; `none` is the run-time panic of dereferencing the
nil pointer `stats`, which the first inserted value `stats.TotalRequests` does. -/
def generateDashboardHTML (t : DashboardTemplate) (stats : Option LogStats)
    (logs : List RequestLog) (total : Int) : Option GoString :=
  match stats with
  | none => none
  | some stats =>
    some (t.head ++ formatNumber stats.TotalRequests ++ t.afterTotal ++
      t.FormatFloat stats.AverageResponseTime ++ t.afterAverage ++
      generateLogsTableRows t.Format logs ++ t.afterRows ++
      formatNumber (logs.length : Int) ++ lit " of " ++ formatNumber total ++ t.tail)

/-- The content type of the dashboard page. -/
def contentTypeHTML : GoString := lit "text/html; charset=utf-8"

/-- The handler `DashboardHandler.DashboardPage`; `now₁`, `now₂` are the clock readings of
the log service. Both service errors are discarded. The result is the calls it makes on
the context (`none` when it panics) and the pool afterwards. -/
def DashboardHandler.DashboardPage (t : DashboardTemplate) (db : Pool) (now₁ now₂ : Time) :
    Option (List Call) × Pool :=
  match LogService.GetStats db now₁ now₂ 0 0 with
  | ((stats, _), db1) =>
    match LogService.GetLogs db1 { Limit := 50, Offset := 0 } with
    | ((logs, total, _), db2) =>
      match generateDashboardHTML t stats logs total with
      | none => (none, db2)
      | some html => (some [Call.Data StatusOK contentTypeHTML html], db2)

/-- The handler `hello`. -/
def hello : List Call :=
  [Call.JSON StatusOK (Payload.H [(lit "message", lit "Hello, World!")])]

/-- The function `RegisterAdminRoutes`. -/
def RegisterAdminRoutes (engine : Engine) (rg : RouterGroup) : Engine :=
  rg.POST engine (lit "/api-keys") [Handler.CreateAPIKey]

/-- The function `RegisterDashboardRoutes`. -/
def RegisterDashboardRoutes (engine : Engine) (rg : RouterGroup) : Engine :=
  let engine := rg.GET engine (lit "") [Handler.DashboardPage]
  let engine := rg.GET engine (lit "/logs") [Handler.GetLogs]
  rg.GET engine (lit "/stats") [Handler.GetStats]

/-- The function `RegisterRoutes`. -/
def RegisterRoutes (engine : Engine) (rg : RouterGroup) : Engine :=
  rg.GET engine (lit "/hello") [Handler.hello]

/-! ## `internal/server`: the router and the chains it serves -/

/-- The function `NewRouter`: the statements of its body that touch the engine, in source
order. -/
def NewRouter : Engine :=
  let r := gin.New
  let r := r.Use [Handler.Logger, Handler.Recovery]
  -- Swagger UI (public)
  let r := r.GET (lit "/swagger/*any") [Handler.Swagger]
  -- Auth routes (public)
  let r := r.GET (lit "/auth") [Handler.AuthPage]
  let r := r.POST (lit "/auth/set") [Handler.SetAuthCookie]
  let r := r.POST (lit "/auth/clear") [Handler.ClearAuthCookie]
  -- Request logging middleware (applies to all routes except swagger)
  let r := r.Use [Handler.RequestLogger]
  -- Admin routes (require master API key)
  let admin := r.RouterGroup.Group (lit "/")
  let admin := admin.Use [Handler.MasterKeyAuth]
  let r := RegisterAdminRoutes r admin
  -- Dashboard routes (require master API key)
  let dashboard := r.RouterGroup.Group (lit "/dashboard")
  let dashboard := dashboard.Use [Handler.MasterKeyAuth]
  let r := RegisterDashboardRoutes r dashboard
  -- Protected API routes (require regular API key)
  let api := r.RouterGroup.Group (lit "/")
  let api := api.Use [Handler.APIKeyAuth]
  RegisterRoutes r api

/-- What a request brings with it and what the process is configured with, beyond the
context and the stores. -/
structure Env where
  /-- The configured `cfg.MasterAPIKey`. -/
  masterKey : GoString
  /-- The clock reading of the calls made while the request is served. -/
  now : Time
  /-- The milliseconds `RequestLogger` measures. -/
  responseTime : Int
  /-- The request body as the JSON decoder sees it. -/
  body : JSONBody
  /-- What `c.ShouldBindQuery(&params)` leaves in `params` and returns. -/
  logQuery : LogQueryParams × Option Error
  /-- The call `time.Parse(time.RFC3339, ·)`. -/
  parse : GoString → Time × Option Error
  /-- The fixed text of the dashboard page. -/
  template : DashboardTemplate
  /-- The calls of the handlers whose bodies are outside this development (Swagger, the
  authentication page and the two cookie handlers). -/
  other : Handler → List Call

/-- Everything a handler chain can change while one request is served. -/
structure World where
  /-- The `gin.Context` of the request. -/
  c : Context
  /-- The database. -/
  db : Pool
  /-- The entropy source. -/
  rnd : Rand
  /-- The log entries handed to goroutines that call `LogService.LogRequest`. -/
  spawned : List RequestLog := []
  /-- A panic is unwinding the stack. -/
  panicking : Bool := false

/-- Effect of one call on the world; `next` is what the handlers that follow do.
`c.Next()` starts them unless the chain index is already past them. -/
def World.call (next : World → World) (w : World) : Call → World
  | .Next =>
    if w.c.Aborted || w.c.Finished then w
    else
      let w1 := next w
      { w1 with c := { w1.c with Finished := true } }
  | call => { w with c := (Context.call id (w.c, 0) call).1 }

/-- Effect of a handler body given as its sequence of calls; a panic raised by the handlers
that follow skips the rest of the body. -/
def World.run (next : World → World) (w : World) : List Call → World
  | [] => w
  | call :: rest =>
    let w1 := w.call next call
    if w1.panicking then w1 else World.run next w1 rest

/-- The body of each handler; `next` is what the handlers that follow do. -/
def World.exec (env : Env) (next : World → World) (w : World) : Handler → World
  | .Logger => w.run next [Call.Next]
  | .Recovery =>
    -- the deferred function recovers the panic and calls c.AbortWithStatus(500)
    let w1 := w.run next [Call.Next]
    if w1.panicking then
      { w1 with
        panicking := false,
        c := { w1.c with Status := StatusInternalServerError, Aborted := true } }
    else w1
  | .RequestLogger =>
    -- a panic unwinds through the code after c.Next()
    let w1 := w.run next [Call.Next]
    if w1.panicking then w1
    else
      { w1 with
        spawned := w1.spawned ++ [RequestLogger.logEntry w1.c env.responseTime env.now] }
  | .MasterKeyAuth => w.run next (MasterKeyAuth env.masterKey w.c)
  | .APIKeyAuth =>
    let r := APIKeyAuth w.db env.now w.c
    World.run next { w with db := r.2 } r.1
  | .CreateAPIKey =>
    let r := APIKeyHandler.CreateAPIKey (ShouldBindJSON env.body) w.rnd w.db env.now
    World.run next { w with rnd := r.2.1, db := r.2.2 } r.1
  | .GetLogs =>
    let r := DashboardHandler.GetLogs env.logQuery w.db
    World.run next { w with db := r.2 } r.1
  | .GetStats =>
    let r := DashboardHandler.GetStats env.parse w.c w.db env.now env.now
    World.run next { w with db := r.2 } r.1
  | .DashboardPage =>
    match DashboardHandler.DashboardPage env.template w.db env.now env.now with
    | (none, db1) => { w with db := db1, panicking := true }
    | (some calls, db1) => World.run next { w with db := db1 } calls
  | .hello => w.run next hello
  | .Swagger => w.run next (env.other Handler.Swagger)
  | .AuthPage => w.run next (env.other Handler.AuthPage)
  | .SetAuthCookie => w.run next (env.other Handler.SetAuthCookie)
  | .ClearAuthCookie => w.run next (env.other Handler.ClearAuthCookie)

/-- The loop of `gin.Context.Next` over a chain: each handler runs in turn; a handler that
aborted, or that ran the rest of the chain itself through `c.Next()`, ends the loop, and so
does a panic. -/
def World.Next (env : Env) : List Handler → World → World
  | [], w => w
  | h :: rest, w =>
    let w1 := w.exec env (World.Next env rest) h
    if w1.panicking || w1.c.Aborted || w1.c.Finished then w1
    else
      let w2 := World.Next env rest w1
      { w2 with c := { w2.c with Finished := true } }

/-- The world in which the engine starts the chain of a request: nothing has aborted the
chain, the chain index is at its start and no panic is unwinding. -/
def World.fresh (w : World) : Prop :=
  w.panicking = false ∧ w.c.Aborted = false ∧ w.c.Finished = false

/-! ## Sample inputs -/

/-- An issued, active key record. -/
def sampleKey : APIKey :=
  { ID := 1, Key := lit "0123456789abcdef", Name := lit "svc-a", Active := true,
    CreatedAt := 100, LastUsedAt := none }

/-- A deactivated key record. -/
def revokedKey : APIKey :=
  { ID := 2, Key := lit "fedcba9876543210", Name := lit "svc-b", Active := false,
    CreatedAt := 50, LastUsedAt := none }

/-- A healthy pool holding the two sample keys. -/
def samplePool : Pool :=
  { api_keys := [sampleKey, revokedKey], request_logs := [], request_logs_id := 0,
    selectKeyErr := none, updateKeyErr := none, insertLogErr := none, executed := [] }

/-- A request `GET path?rawQuery` with the given headers and cookies. -/
def sampleRequest (path rawQuery : String) (header cookies : List (String × String)) : Context :=
  { Request :=
      { Method := lit "GET", Path := lit path, RawQuery := lit rawQuery,
        Header := header.map (fun kv => (lit kv.1, lit kv.2)),
        Cookies := cookies.map (fun kv => (lit kv.1, lit kv.2)),
        ClientIP := lit "203.0.113.7" } }

/-- A log row of a `GET` request. -/
def sampleLog (id : Int) (path : String) (status responseTime : Int) (createdAt : Time) :
    RequestLog :=
  { ID := id, Method := lit "GET", Path := lit path, QueryParams := [], StatusCode := status,
    IPAddress := lit "203.0.113.7", UserAgent := [], APIKey := [], ResponseTime := responseTime,
    CreatedAt := createdAt }

/-- A healthy pool whose log holds a request answered 200 in 10 ms at instant 1000 and a
request answered 500 in 20 ms at instant 2000. -/
def logPool : Pool :=
  { samplePool with
    request_logs := [sampleLog 1 "/hello" 200 10 1000, sampleLog 2 "/dashboard" 500 20 2000],
    request_logs_id := 2 }

/-- An entropy source that delivers the 32 bytes `0, 1, ..., 31`. -/
def sampleRand : Rand :=
  { bytes := (List.range 32).map (fun n => UInt8.ofNat n) }

/-- An entropy source that fails. -/
def brokenRand : Rand :=
  { bytes := [], err := some (Error.other (lit "entropy source unavailable")) }

/-- A pool whose statistics queries fail, as when the database cannot be reached. -/
def brokenStatsPool : Pool :=
  { logPool with statsTotalsErr := some (Error.other (lit "connection refused")) }

/-- A page template with short fixed text, instants rendered as their number and averages
rendered as their integral part. -/
def sampleTemplate : DashboardTemplate :=
  { head := lit "<html><body><div class=\"value\">"
    afterTotal := lit "</div><div class=\"value\">"
    afterAverage := lit "ms</div><table><tbody id=\"logsTableBody\">"
    afterRows := lit "</tbody></table><div>Showing "
    tail := lit " logs</div></body></html>"
    Format := strconv.FormatInt
    FormatFloat := fun f => strconv.FormatInt f.floor }

/-- A process configured with the master key `master-secret`, serving a request whose body
is the JSON object with `name` set to `svc-c` and whose query binds to the zero filter. -/
def sampleEnv : Env :=
  { masterKey := lit "master-secret"
    now := 5000
    responseTime := 3
    body := JSONBody.object (some (lit "svc-c"))
    logQuery := ({}, none)
    parse := fun _ => (0, some (Error.other (lit "parsing time")))
    template := sampleTemplate
    other := fun _ => [Call.JSON StatusOK (Payload.H [])] }

/-- The world at the start of a request, with the sample entropy source. -/
def sampleWorld (c : Context) (db : Pool) : World :=
  { c := c, db := db, rnd := sampleRand }

/-- A request `POST /api-keys?rawQuery` with the given headers, in the world at its
start. -/
def samplePost (rawQuery : String) (header : List (String × String)) : World :=
  sampleWorld
    { Request :=
        { Method := lit "POST", Path := lit "/api-keys", RawQuery := lit rawQuery,
          Header := header.map (fun kv => (lit kv.1, lit kv.2)),
          Cookies := [],
          ClientIP := lit "203.0.113.7" } }
    samplePool

/-! ## Lemmas on the model -/

/-- The three possible shapes of the result of `FindByKey`. -/
theorem FindByKey_shape (db : Pool) (key : GoString) :
    (∃ e, (APIKeyRepository.FindByKey db key).1 = (none, some e)) ∨
    (APIKeyRepository.FindByKey db key).1 = (none, none) ∨
    (∃ r, (APIKeyRepository.FindByKey db key).1 = (some r, none) ∧
      r ∈ db.api_keys ∧ r.Key = key ∧ r.Active = true) := by
  unfold APIKeyRepository.FindByKey Pool.scanActiveKey
  cases hE : db.selectKeyErr with
  | some e =>
    by_cases he : e = Error.ErrNoRows
    · right; left; simp [he]
    · left; exact ⟨e, by simp [he]⟩
  | none =>
    cases hF : db.api_keys.find? (fun r => r.Key == key && r.Active) with
    | none => right; left; simp
    | some r =>
      right; right
      refine ⟨r, by simp, List.mem_of_find?_eq_some hF, ?_⟩
      have := List.find?_some hF
      simpa using this

/-- The pool after `FindByKey` is the pool with the SELECT recorded. -/
theorem FindByKey_pool (db : Pool) (key : GoString) :
    (APIKeyRepository.FindByKey db key).2 = db.record (Stmt.SelectKey key) := by
  unfold APIKeyRepository.FindByKey
  split
  · split <;> rfl
  · rfl

/-- The method `ValidateKey` in terms of the result of `FindByKey`. -/
theorem ValidateKey_of_FindByKey (db : Pool) (now : Time) (key : GoString) :
    (APIKeyService.ValidateKey db now key).1 =
      match (APIKeyRepository.FindByKey db key).1 with
      | (_, some err) => (false, some err)
      | (none, none) => (false, none)
      | (some _, none) => (true, none) := by
  unfold APIKeyService.ValidateKey
  rcases h : APIKeyRepository.FindByKey db key with ⟨⟨r, e⟩, db1⟩
  cases e <;> cases r <;> rfl

/-- The calls of `APIKeyAuth` in terms of the extracted credential and `ValidateKey`. -/
theorem APIKeyAuth_calls (db : Pool) (now : Time) (c : Context) :
    (APIKeyAuth db now c).1 =
      if APIKeyAuth.apiKey c = [] then
        [Call.JSON StatusForbidden (errorBody msgKeyRequired), Call.Abort]
      else
        match (APIKeyService.ValidateKey db now (APIKeyAuth.apiKey c)).1 with
        | (_, some _) => [Call.JSON StatusInternalServerError (errorBody msgInternal), Call.Abort]
        | (false, none) => [Call.JSON StatusForbidden (errorBody msgInvalidKey), Call.Abort]
        | (true, none) => [Call.Next] := by
  unfold APIKeyAuth
  by_cases h : APIKeyAuth.apiKey c = []
  · simp [h]
  · simp only [h, if_false]
    rcases hv : APIKeyService.ValidateKey db now (APIKeyAuth.apiKey c) with ⟨⟨v, e⟩, db1⟩
    cases e <;> cases v <;> rfl

/-- A handler that responds and aborts without `c.Next()`: the handlers that follow are
not started, the context is aborted and does not depend on them. -/
theorem serve_reject (c : Context) (next : Context → Context) (r : Call)
    (hr : r ≠ Call.Next) :
    (c.serve next [r, Call.Abort]).2 = 0 ∧
    (c.serve next [r, Call.Abort]).1.Aborted = true ∧
    c.serve next [r, Call.Abort] = c.serve id [r, Call.Abort] := by
  cases r <;> simp_all [Context.serve, Context.run, Context.call]

/-- A handler that only calls `c.Next()` on a context whose chain is still running: the
handlers that follow are started once, on the context as it was. -/
theorem serve_pass (c : Context) (next : Context → Context)
    (h1 : c.Aborted = false) (h2 : c.Finished = false) :
    c.serve next [Call.Next] = ({ next c with Finished := true }, 1) := by
  simp [Context.serve, Context.run, Context.call, h1, h2]

/-- For a handler that either only calls `c.Next()` or responds and aborts: the handlers
that follow are started exactly when it calls `c.Next()`, and otherwise the chain is
aborted. -/
theorem serve_gate (c : Context) (next : Context → Context) (calls : List Call)
    (hshape : calls = [Call.Next] ∨ ∃ r, r ≠ Call.Next ∧ calls = [r, Call.Abort])
    (h1 : c.Aborted = false) (h2 : c.Finished = false) :
    ((c.serve next calls).2 = 1 ↔ Call.Next ∈ calls) ∧
    (Call.Next ∉ calls →
      (c.serve next calls).2 = 0 ∧ (c.serve next calls).1.Aborted = true ∧
      c.serve next calls = c.serve id calls) := by
  rcases hshape with h | ⟨r, hr, h⟩
  · subst h
    rw [serve_pass c next h1 h2]
    simp
  · subst h
    have hs := serve_reject c next r hr
    refine ⟨?_, fun _ => hs⟩
    rw [hs.1]
    simp [hr.symm]

/-- The user-key gate either only calls `c.Next()` or responds and aborts. -/
theorem APIKeyAuth_shape (db : Pool) (now : Time) (c : Context) :
    (APIKeyAuth db now c).1 = [Call.Next] ∨
      ∃ r, r ≠ Call.Next ∧ (APIKeyAuth db now c).1 = [r, Call.Abort] := by
  rw [APIKeyAuth_calls]
  split
  · exact Or.inr ⟨_, by simp, rfl⟩
  · split
    · exact Or.inr ⟨_, by simp, rfl⟩
    · exact Or.inr ⟨_, by simp, rfl⟩
    · exact Or.inl rfl

/-- The master-key gate either only calls `c.Next()` or responds and aborts. -/
theorem MasterKeyAuth_shape (S : GoString) (c : Context) :
    MasterKeyAuth S c = [Call.Next] ∨
      ∃ r, r ≠ Call.Next ∧ MasterKeyAuth S c = [r, Call.Abort] := by
  unfold MasterKeyAuth
  split
  · exact Or.inr ⟨_, by simp, rfl⟩
  · simp only
    split
    · split
      · exact Or.inr ⟨_, by simp, rfl⟩
      · exact Or.inr ⟨_, by simp, rfl⟩
    · split
      · exact Or.inr ⟨_, by simp, rfl⟩
      · exact Or.inl rfl

/-- A non-empty credential that differs from the configured secret is answered 403. -/
theorem MasterKeyAuth_mismatch (S : GoString) (c : Context)
    (hS : S ≠ []) (hc : MasterKeyAuth.apiKey c ≠ []) (h : MasterKeyAuth.apiKey c ≠ S) :
    MasterKeyAuth S c =
      [Call.JSON StatusForbidden (errorBody msgInvalidMaster), Call.Abort] := by
  simp [MasterKeyAuth, hS, hc, h]

/-! ## The user-key gate -/

/-- C1: decision table of the user-key gate `APIKeyAuth`. With the extracted credential
`APIKeyAuth.apiKey c`: an empty credential is answered 403 and aborted; otherwise an error
of the store lookup is answered 500 and aborted; otherwise a lookup that finds no active
record is answered 403 and aborted; otherwise the handler calls `c.Next()` and nothing
else. So, when gin dispatches the gate, the handlers that follow are started (once) if and
only if the credential is non-empty and the lookup returned an active record without
error; in every other case they are not started, the chain is aborted and the resulting
context does not depend on them. -/
theorem APIKeyAuth_decision_table (db : Pool) (now : Time) (c : Context) :
    (APIKeyAuth.apiKey c = [] →
      (APIKeyAuth db now c).1 =
        [Call.JSON StatusForbidden (errorBody msgKeyRequired), Call.Abort]) ∧
    (APIKeyAuth.apiKey c ≠ [] →
      ∀ e, (APIKeyRepository.FindByKey db (APIKeyAuth.apiKey c)).1.2 = some e →
        (APIKeyService.ValidateKey db now (APIKeyAuth.apiKey c)).1 = (false, some e) ∧
        (APIKeyAuth db now c).1 =
          [Call.JSON StatusInternalServerError (errorBody msgInternal), Call.Abort]) ∧
    (APIKeyAuth.apiKey c ≠ [] →
      (APIKeyRepository.FindByKey db (APIKeyAuth.apiKey c)).1 = (none, none) →
        (APIKeyAuth db now c).1 =
          [Call.JSON StatusForbidden (errorBody msgInvalidKey), Call.Abort]) ∧
    (APIKeyAuth.apiKey c ≠ [] →
      ∀ r, (APIKeyRepository.FindByKey db (APIKeyAuth.apiKey c)).1 = (some r, none) →
        (APIKeyAuth db now c).1 = [Call.Next]) ∧
    (Call.Next ∈ (APIKeyAuth db now c).1 ↔
      APIKeyAuth.apiKey c ≠ [] ∧
        ∃ r, (APIKeyRepository.FindByKey db (APIKeyAuth.apiKey c)).1 = (some r, none) ∧
          r.Key = APIKeyAuth.apiKey c ∧ r.Active = true) ∧
    (∀ next : Context → Context, c.Aborted = false → c.Finished = false →
      ((c.serve next (APIKeyAuth db now c).1).2 = 1 ↔
        APIKeyAuth.apiKey c ≠ [] ∧
          ∃ r, (APIKeyRepository.FindByKey db (APIKeyAuth.apiKey c)).1 = (some r, none) ∧
            r.Key = APIKeyAuth.apiKey c ∧ r.Active = true) ∧
      ((c.serve next (APIKeyAuth db now c).1).2 ≠ 1 →
        (c.serve next (APIKeyAuth db now c).1).2 = 0 ∧
        (c.serve next (APIKeyAuth db now c).1).1.Aborted = true ∧
        c.serve next (APIKeyAuth db now c).1 = c.serve id (APIKeyAuth db now c).1)) := by
  have hcalls := APIKeyAuth_calls db now c
  have hval := ValidateKey_of_FindByKey db now (APIKeyAuth.apiKey c)
  have hserve : ∀ next : Context → Context, c.Aborted = false → c.Finished = false →
      ((c.serve next (APIKeyAuth db now c).1).2 = 1 ↔ Call.Next ∈ (APIKeyAuth db now c).1) ∧
      ((c.serve next (APIKeyAuth db now c).1).2 ≠ 1 →
        (c.serve next (APIKeyAuth db now c).1).2 = 0 ∧
        (c.serve next (APIKeyAuth db now c).1).1.Aborted = true ∧
        c.serve next (APIKeyAuth db now c).1 = c.serve id (APIKeyAuth db now c).1) := by
    intro next h1 h2
    have hs := serve_gate c next _ (APIKeyAuth_shape db now c) h1 h2
    exact ⟨hs.1, fun hn => hs.2 (fun hm => hn (hs.1.mpr hm))⟩
  have hiff : Call.Next ∈ (APIKeyAuth db now c).1 ↔
      APIKeyAuth.apiKey c ≠ [] ∧
        ∃ r, (APIKeyRepository.FindByKey db (APIKeyAuth.apiKey c)).1 = (some r, none) ∧
          r.Key = APIKeyAuth.apiKey c ∧ r.Active = true := by
    by_cases hk : APIKeyAuth.apiKey c = []
    · rw [hcalls, if_pos hk]; simp [hk]
    · rw [if_neg hk] at hcalls
      rcases FindByKey_shape db (APIKeyAuth.apiKey c) with ⟨e, hf⟩ | hf | ⟨r, hf, _, hkey, hact⟩
      · rw [hf] at hval; simp only at hval
        rw [hval] at hcalls; simp only at hcalls
        rw [hcalls, hf]; simp
      · rw [hf] at hval; simp only at hval
        rw [hval] at hcalls; simp only at hcalls
        rw [hcalls, hf]; simp
      · rw [hf] at hval; simp only at hval
        rw [hval] at hcalls; simp only at hcalls
        rw [hcalls, hf]
        simp only [List.mem_singleton, true_iff]
        exact ⟨hk, r, rfl, hkey, hact⟩
  refine ⟨?_, ?_, ?_, ?_, hiff, fun next h1 h2 =>
    ⟨(hserve next h1 h2).1.trans hiff, (hserve next h1 h2).2⟩⟩
  · intro hk
    rw [hcalls, if_pos hk]
  · intro hk e he
    rw [if_neg hk] at hcalls
    rcases hF : (APIKeyRepository.FindByKey db (APIKeyAuth.apiKey c)).1 with ⟨a, err⟩
    rw [hF] at he hval
    simp only at he
    subst he
    simp only at hval
    rw [hval] at hcalls
    exact ⟨hval, hcalls⟩
  · intro hk hf
    rw [if_neg hk] at hcalls
    rw [hf] at hval; simp only at hval
    rw [hval] at hcalls
    exact hcalls
  · intro hk r hf
    rw [if_neg hk] at hcalls
    rw [hf] at hval; simp only at hval
    rw [hval] at hcalls
    exact hcalls

/-- Witness for C1 on the sample pool: a request with the issued key passes and starts the
handlers that follow once, a request with an unknown key is answered 403, a request
without credential is answered 403, and with a failing store the issued key is answered
500. -/
theorem APIKeyAuth_decision_table_witness :
    (APIKeyAuth samplePool 200 (sampleRequest "/hello" "api=0123456789abcdef" [] [])).1 =
      [Call.Next] ∧
    ((sampleRequest "/hello" "api=0123456789abcdef" [] []).serve id
      (APIKeyAuth samplePool 200
        (sampleRequest "/hello" "api=0123456789abcdef" [] [])).1).2 = 1 ∧
    (APIKeyAuth samplePool 200 (sampleRequest "/hello" "api=wrong" [] [])).1 =
      [Call.JSON StatusForbidden (errorBody msgInvalidKey), Call.Abort] ∧
    (APIKeyAuth samplePool 200 (sampleRequest "/hello" "" [] [])).1 =
      [Call.JSON StatusForbidden (errorBody msgKeyRequired), Call.Abort] ∧
    (APIKeyAuth { samplePool with selectKeyErr := some (Error.other (lit "connection refused")) }
        200 (sampleRequest "/hello" "api=0123456789abcdef" [] [])).1 =
      [Call.JSON StatusInternalServerError (errorBody msgInternal), Call.Abort] :=
  ⟨(APIKeyAuth_decision_table samplePool 200
      (sampleRequest "/hello" "api=0123456789abcdef" [] [])).2.2.2.1
      (by decide) sampleKey (by decide),
   ((APIKeyAuth_decision_table samplePool 200
      (sampleRequest "/hello" "api=0123456789abcdef" [] [])).2.2.2.2.2 id rfl rfl).1.mpr
      ⟨by decide, sampleKey, by decide, by decide, by decide⟩,
   (APIKeyAuth_decision_table samplePool 200
      (sampleRequest "/hello" "api=wrong" [] [])).2.2.1 (by decide) (by decide),
   (APIKeyAuth_decision_table samplePool 200
      (sampleRequest "/hello" "" [] [])).1 (by decide),
   ((APIKeyAuth_decision_table
      { samplePool with selectKeyErr := some (Error.other (lit "connection refused")) } 200
      (sampleRequest "/hello" "api=0123456789abcdef" [] [])).2.1 (by decide)
      (Error.other (lit "connection refused")) (by decide)).2⟩

/-! ## The master-key gate -/

/-- C2: master-key gate with a configured secret. For a non-empty secret `S` and a request
whose extracted credential is non-empty, the handler calls `c.Next()` exactly when the
credential equals `S`, so the handlers that follow are started (once) if and only if the
credential equals `S`; a credential different from `S` is answered 403 and aborted: the
handlers that follow are not started and the resulting context has status 403, is
aborted and does not depend on them. -/
theorem MasterKeyAuth_credential_present (S : GoString) (c : Context)
    (hS : S ≠ []) (hc : MasterKeyAuth.apiKey c ≠ []) :
    (Call.Next ∈ MasterKeyAuth S c ↔ MasterKeyAuth.apiKey c = S) ∧
    (MasterKeyAuth.apiKey c = S → MasterKeyAuth S c = [Call.Next]) ∧
    (MasterKeyAuth.apiKey c ≠ S →
      MasterKeyAuth S c =
        [Call.JSON StatusForbidden (errorBody msgInvalidMaster), Call.Abort]) ∧
    (∀ next : Context → Context, c.Aborted = false → c.Finished = false →
      ((c.serve next (MasterKeyAuth S c)).2 = 1 ↔ MasterKeyAuth.apiKey c = S) ∧
      (MasterKeyAuth.apiKey c ≠ S →
        (c.serve next (MasterKeyAuth S c)).2 = 0 ∧
        (c.serve next (MasterKeyAuth S c)).1.Status = StatusForbidden ∧
        (c.serve next (MasterKeyAuth S c)).1.Aborted = true ∧
        c.serve next (MasterKeyAuth S c) = c.serve id (MasterKeyAuth S c))) := by
  by_cases h : MasterKeyAuth.apiKey c = S
  · have hcalls : MasterKeyAuth S c = [Call.Next] := by
      simp [MasterKeyAuth, hS, hc, h]
    refine ⟨by simp [hcalls, h], fun _ => hcalls, fun hne => absurd h hne,
      fun next h1 h2 => ⟨?_, fun hne => absurd h hne⟩⟩
    rw [hcalls, serve_pass c next h1 h2]
    simp [h]
  · have hcalls := MasterKeyAuth_mismatch S c hS hc h
    refine ⟨by simp [hcalls, h], fun heq => absurd heq h, fun _ => hcalls,
      fun next _ _ => ?_⟩
    rw [hcalls]
    have hs := serve_reject c next
      (Call.JSON StatusForbidden (errorBody msgInvalidMaster)) (by simp)
    refine ⟨?_, fun _ => ⟨hs.1, ?_, hs.2.1, hs.2.2⟩⟩
    · rw [hs.1]; simp [h]
    · simp [Context.serve, Context.run, Context.call]

/-- Witness for C2: with secret `s3cret`, the request `?api=s3cret` passes and the request
`?api=guess` is answered 403. -/
theorem MasterKeyAuth_credential_present_witness :
    MasterKeyAuth (lit "s3cret") (sampleRequest "/dashboard/logs" "api=s3cret" [] []) =
      [Call.Next] ∧
    MasterKeyAuth (lit "s3cret") (sampleRequest "/dashboard/logs" "api=guess" [] []) =
      [Call.JSON StatusForbidden (errorBody msgInvalidMaster), Call.Abort] :=
  ⟨(MasterKeyAuth_credential_present (lit "s3cret")
      (sampleRequest "/dashboard/logs" "api=s3cret" [] []) (by decide) (by decide)).2.1
      (by decide),
   (MasterKeyAuth_credential_present (lit "s3cret")
      (sampleRequest "/dashboard/logs" "api=guess" [] []) (by decide) (by decide)).2.2.1
      (by decide)⟩

/-- C3: master-key gate without a configured secret. Whatever the request (cookies, query,
`Accept` header, path), `MasterKeyAuth("")` answers 403 with the not-configured message and
aborts: it makes no `c.Next()` call and no `c.Redirect` call, the handlers that follow are
not started, and the resulting context has status 403, is aborted, carries no new
`Location` and does not depend on them. -/
theorem MasterKeyAuth_not_configured (c : Context) :
    MasterKeyAuth [] c =
      [Call.JSON StatusForbidden (errorBody msgNotConfigured), Call.Abort] ∧
    Call.Next ∉ MasterKeyAuth [] c ∧
    (∀ code location, Call.Redirect code location ∉ MasterKeyAuth [] c) ∧
    ∀ next : Context → Context,
      (c.serve next (MasterKeyAuth [] c)).2 = 0 ∧
      (c.serve next (MasterKeyAuth [] c)).1.Status = StatusForbidden ∧
      (c.serve next (MasterKeyAuth [] c)).1.Location = c.Location ∧
      (c.serve next (MasterKeyAuth [] c)).1.Aborted = true ∧
      c.serve next (MasterKeyAuth [] c) = c.serve id (MasterKeyAuth [] c) := by
  have hcalls : MasterKeyAuth [] c =
      [Call.JSON StatusForbidden (errorBody msgNotConfigured), Call.Abort] := by
    simp [MasterKeyAuth]
  refine ⟨hcalls, by simp [hcalls], by simp [hcalls], fun next => ?_⟩
  rw [hcalls]
  have hs := serve_reject c next
    (Call.JSON StatusForbidden (errorBody msgNotConfigured)) (by simp)
  refine ⟨hs.1, ?_, ?_, hs.2.1, hs.2.2⟩
  · simp [Context.serve, Context.run, Context.call]
  · simp [Context.serve, Context.run, Context.call]

/-- The master-key gate without a credential, as coded. With a non-empty secret and an
empty extracted credential, the handler redirects with 302 to `/auth` and aborts when the
`Accept` header equals `text/html` or the path is `/dashboard`, and answers 403 with a
JSON error and aborts otherwise; in neither case does it call `c.Next()`: the handlers
that follow are not started, the resulting context is aborted and does not depend on
them. -/
theorem MasterKeyAuth_no_credential (S : GoString) (c : Context)
    (hS : S ≠ []) (hc : MasterKeyAuth.apiKey c = []) :
    (c.GetHeader (lit "Accept") = lit "text/html" ∨ c.Request.Path = lit "/dashboard" →
      MasterKeyAuth S c = [Call.Redirect StatusFound (lit "/auth"), Call.Abort] ∧
      ∀ next : Context → Context,
        (c.serve next (MasterKeyAuth S c)).1.Status = StatusFound ∧
        (c.serve next (MasterKeyAuth S c)).1.Location = some (lit "/auth")) ∧
    (¬ (c.GetHeader (lit "Accept") = lit "text/html" ∨ c.Request.Path = lit "/dashboard") →
      MasterKeyAuth S c =
        [Call.JSON StatusForbidden (errorBody msgMasterRequired), Call.Abort] ∧
      ∀ next : Context → Context,
        (c.serve next (MasterKeyAuth S c)).1.Status = StatusForbidden ∧
        (c.serve next (MasterKeyAuth S c)).1.Body = some (errorBody msgMasterRequired)) ∧
    Call.Next ∉ MasterKeyAuth S c ∧
    ∀ next : Context → Context,
      (c.serve next (MasterKeyAuth S c)).2 = 0 ∧
      (c.serve next (MasterKeyAuth S c)).1.Aborted = true ∧
      c.serve next (MasterKeyAuth S c) = c.serve id (MasterKeyAuth S c) := by
  by_cases hb : c.GetHeader (lit "Accept") = lit "text/html" ∨ c.Request.Path = lit "/dashboard"
  · have hcalls : MasterKeyAuth S c = [Call.Redirect StatusFound (lit "/auth"), Call.Abort] := by
      unfold MasterKeyAuth
      rw [if_neg hS]
      simp only [hc, if_true]
      rw [if_pos (by simpa using hb)]
    refine ⟨fun _ => ⟨hcalls, fun next => ?_⟩, fun hn => absurd hb hn, by simp [hcalls],
      fun next => ?_⟩
    · rw [hcalls]
      simp [Context.serve, Context.run, Context.call]
    · rw [hcalls]
      exact serve_reject c next _ (by simp)
  · have hcalls : MasterKeyAuth S c =
        [Call.JSON StatusForbidden (errorBody msgMasterRequired), Call.Abort] := by
      unfold MasterKeyAuth
      rw [if_neg hS]
      simp only [hc, if_true]
      rw [if_neg (by simpa using hb)]
    refine ⟨fun h => absurd h hb, fun _ => ⟨hcalls, fun next => ?_⟩, by simp [hcalls],
      fun next => ?_⟩
    · rw [hcalls]
      simp [Context.serve, Context.run, Context.call]
    · rw [hcalls]
      exact serve_reject c next _ (by simp)

/-- Instances of the gate without a credential: `Accept: text/html` on `/api-keys` and any
request to `/dashboard` are redirected to `/auth`, and `Accept: application/json` on
`/dashboard/logs` is answered 403. -/
theorem MasterKeyAuth_no_credential_witness :
    MasterKeyAuth (lit "s3cret")
        (sampleRequest "/api-keys" "" [("Accept", "text/html")] []) =
      [Call.Redirect StatusFound (lit "/auth"), Call.Abort] ∧
    MasterKeyAuth (lit "s3cret") (sampleRequest "/dashboard" "" [] []) =
      [Call.Redirect StatusFound (lit "/auth"), Call.Abort] ∧
    MasterKeyAuth (lit "s3cret")
        (sampleRequest "/dashboard/logs" "" [("Accept", "application/json")] []) =
      [Call.JSON StatusForbidden (errorBody msgMasterRequired), Call.Abort] :=
  ⟨((MasterKeyAuth_no_credential (lit "s3cret")
      (sampleRequest "/api-keys" "" [("Accept", "text/html")] [])
      (by decide) (by decide)).1 (Or.inl (by decide))).1,
   ((MasterKeyAuth_no_credential (lit "s3cret") (sampleRequest "/dashboard" "" [] [])
      (by decide) (by decide)).1 (Or.inr (by decide))).1,
   ((MasterKeyAuth_no_credential (lit "s3cret")
      (sampleRequest "/dashboard/logs" "" [("Accept", "application/json")] [])
      (by decide) (by decide)).2.1 (by decide)).1⟩

/-- C5, the defect: the gate tests the `Accept` header for equality with `text/html`,
where its comment says that HTML requests are redirected to the auth page. A browser
navigation sends a list that starts with `text/html`; for such a request to
`/dashboard/logs` without credential, under a configured secret, the extracted credential
is empty and the gate answers 403 with the JSON error and no `Location`, alone and in the
chain `NewRouter` registers for the route. The same request with the header `text/html`
alone is redirected with 302 to `/auth`. -/
theorem browser_accept_not_redirected :
    MasterKeyAuth.apiKey (sampleRequest "/dashboard/logs" ""
      [("Accept", "text/html,application/xhtml+xml,application/xml;q=0.9,*/*;q=0.8")] []) =
        [] ∧
    MasterKeyAuth (lit "master-secret") (sampleRequest "/dashboard/logs" ""
      [("Accept", "text/html,application/xhtml+xml,application/xml;q=0.9,*/*;q=0.8")] []) =
        [Call.JSON StatusForbidden (errorBody msgMasterRequired), Call.Abort] ∧
    NewRouter.chain (lit "GET") (lit "/dashboard/logs") =
      some [Handler.Logger, Handler.Recovery, Handler.RequestLogger, Handler.MasterKeyAuth,
        Handler.GetLogs] ∧
    (World.Next sampleEnv [Handler.Logger, Handler.Recovery, Handler.RequestLogger,
      Handler.MasterKeyAuth, Handler.GetLogs]
      (sampleWorld (sampleRequest "/dashboard/logs" ""
        [("Accept", "text/html,application/xhtml+xml,application/xml;q=0.9,*/*;q=0.8")] [])
        samplePool)).c.Status = StatusForbidden ∧
    (World.Next sampleEnv [Handler.Logger, Handler.Recovery, Handler.RequestLogger,
      Handler.MasterKeyAuth, Handler.GetLogs]
      (sampleWorld (sampleRequest "/dashboard/logs" ""
        [("Accept", "text/html,application/xhtml+xml,application/xml;q=0.9,*/*;q=0.8")] [])
        samplePool)).c.Location = none ∧
    MasterKeyAuth (lit "master-secret")
        (sampleRequest "/dashboard/logs" "" [("Accept", "text/html")] []) =
      [Call.Redirect StatusFound (lit "/auth"), Call.Abort] := by
  decide

/-! ## Credential extraction -/

/-- C4: credential extraction precedence, the same in both gates. The credential of
`APIKeyAuth` and of `MasterKeyAuth` is the value `c.Cookie("api_key")` reports when the
request has that cookie and the value is non-empty, and `c.Query("api")` otherwise, which
is empty when the query has no `api` parameter. Hence a request whose cookie is non-empty
and not the master key is rejected by the master-key gate, and one whose cookie is
non-empty and unknown to the store is rejected by the user-key gate, whatever credential
the query string carries. -/
theorem credential_precedence (c : Context) :
    APIKeyAuth.apiKey c = MasterKeyAuth.apiKey c ∧
    ((c.Cookie (lit "api_key")).2 = none ↔
      ∃ kv ∈ c.Request.Cookies, kv.1 = lit "api_key") ∧
    ((c.Cookie (lit "api_key")).2 = none → (c.Cookie (lit "api_key")).1 ≠ [] →
      APIKeyAuth.apiKey c = (c.Cookie (lit "api_key")).1) ∧
    ((c.Cookie (lit "api_key")).2 ≠ none ∨ (c.Cookie (lit "api_key")).1 = [] →
      APIKeyAuth.apiKey c = c.Query (lit "api")) ∧
    ((∀ kv ∈ url.ParseQuery c.Request.RawQuery, kv.1 ≠ lit "api") →
      c.Query (lit "api") = []) ∧
    (∀ S : GoString, S ≠ [] →
      (c.Cookie (lit "api_key")).2 = none → (c.Cookie (lit "api_key")).1 ≠ [] →
      (c.Cookie (lit "api_key")).1 ≠ S →
      MasterKeyAuth S c =
        [Call.JSON StatusForbidden (errorBody msgInvalidMaster), Call.Abort]) ∧
    (∀ (db : Pool) (now : Time),
      (c.Cookie (lit "api_key")).2 = none → (c.Cookie (lit "api_key")).1 ≠ [] →
      (APIKeyRepository.FindByKey db (c.Cookie (lit "api_key")).1).1 = (none, none) →
      (APIKeyAuth db now c).1 =
        [Call.JSON StatusForbidden (errorBody msgInvalidKey), Call.Abort]) := by
  have hcookie : ∀ (_ : (c.Cookie (lit "api_key")).2 = none)
      (_ : (c.Cookie (lit "api_key")).1 ≠ []),
      APIKeyAuth.apiKey c = (c.Cookie (lit "api_key")).1 := by
    intro h2 h1
    unfold APIKeyAuth.apiKey
    rcases hck : c.Cookie (lit "api_key") with ⟨v, e⟩
    rw [hck] at h1 h2
    simp only at h1 h2
    simp [h1, h2]
  refine ⟨rfl, ?_, hcookie, ?_, ?_, ?_, ?_⟩
  · unfold Context.Cookie
    cases hf : c.Request.Cookies.find? (fun kv => kv.1 == lit "api_key") with
    | none =>
      simp only [List.find?_eq_none, beq_iff_eq] at hf
      simp only [reduceCtorEq, false_iff, not_exists, not_and]
      exact fun kv hkv => hf kv hkv
    | some kv =>
      have h1 := List.mem_of_find?_eq_some hf
      have h2 := List.find?_some hf
      simp only [beq_iff_eq] at h2
      simp only [true_iff]
      exact ⟨kv, h1, h2⟩
  · intro h
    unfold APIKeyAuth.apiKey
    rcases hck : c.Cookie (lit "api_key") with ⟨v, e⟩
    rw [hck] at h
    simp only at h
    rcases h with h | h
    · simp [h]
    · simp [h]
  · intro h
    unfold Context.Query firstValue
    cases hf : (url.ParseQuery c.Request.RawQuery).find? (fun kv => kv.1 == lit "api") with
    | none => rfl
    | some kv =>
      have h1 := List.mem_of_find?_eq_some hf
      have h2 := List.find?_some hf
      simp only [beq_iff_eq] at h2
      exact absurd h2 (h kv h1)
  · intro S hS h2 h1 hne
    have hk : MasterKeyAuth.apiKey c = (c.Cookie (lit "api_key")).1 := hcookie h2 h1
    have hc : MasterKeyAuth.apiKey c ≠ [] := by rw [hk]; exact h1
    exact MasterKeyAuth_mismatch S c hS hc (by rw [hk]; exact hne)
  · intro db now h2 h1 hfind
    have hk : APIKeyAuth.apiKey c = (c.Cookie (lit "api_key")).1 := hcookie h2 h1
    have hcalls := APIKeyAuth_calls db now c
    have hval := ValidateKey_of_FindByKey db now (APIKeyAuth.apiKey c)
    rw [hk] at hval
    rw [hfind] at hval
    simp only at hval
    rw [if_neg (by rw [hk]; exact h1), hk, hval] at hcalls
    exact hcalls

/-- Witness for C4: a stale cookie `api_key=stale` wins over a matching query credential,
in the master-key gate (secret `s3cret`) and in the user-key gate (issued key in the
query), so both requests are answered 403; without cookie the same queries pass. -/
theorem credential_precedence_witness :
    MasterKeyAuth (lit "s3cret")
        (sampleRequest "/dashboard/logs" "api=s3cret" [] [("api_key", "stale")]) =
      [Call.JSON StatusForbidden (errorBody msgInvalidMaster), Call.Abort] ∧
    (APIKeyAuth samplePool 200
        (sampleRequest "/hello" "api=0123456789abcdef" [] [("api_key", "stale")])).1 =
      [Call.JSON StatusForbidden (errorBody msgInvalidKey), Call.Abort] ∧
    APIKeyAuth.apiKey (sampleRequest "/hello" "api=0123456789abcdef" [] []) =
      lit "0123456789abcdef" ∧
    APIKeyAuth.apiKey (sampleRequest "/hello" "api=0123456789abcdef" [] [("api_key", "")]) =
      lit "0123456789abcdef" :=
  ⟨(credential_precedence
      (sampleRequest "/dashboard/logs" "api=s3cret" [] [("api_key", "stale")])).2.2.2.2.2.1
      (lit "s3cret") (by decide) (by decide) (by decide) (by decide),
   (credential_precedence
      (sampleRequest "/hello" "api=0123456789abcdef" [] [("api_key", "stale")])).2.2.2.2.2.2
      samplePool 200 (by decide) (by decide) (by decide),
   ((credential_precedence
      (sampleRequest "/hello" "api=0123456789abcdef" [] [])).2.2.2.1
      (Or.inl (by decide))).trans (by decide),
   ((credential_precedence
      (sampleRequest "/hello" "api=0123456789abcdef" [] [("api_key", "")])).2.2.2.1
      (Or.inr (by decide))).trans (by decide)⟩

/-! ## The request logger -/

/-- The masked key is the key itself up to 8 bytes and the 8-byte cut with `"..."` above. -/
theorem mask_eq (k : GoString) :
    (k.length ≤ 8 → RequestLogger.mask k = k) ∧
    (8 < k.length → RequestLogger.mask k = k.take 8 ++ lit "...") := by
  unfold RequestLogger.mask
  constructor
  · intro h; rw [if_neg (by omega)]
  · intro h; rw [if_pos h]

/-- The marker `"..."` is three bytes long. -/
theorem marker_length : (lit "...").length = 3 := by decide

/-- The entry handed to the log service carries the masked query parameter `api` of the
context in which it is built. -/
theorem RequestLogger_APIKey (next : Context → Context) (c : Context)
    (responseTime : Int) (now : Time) :
    (RequestLogger next responseTime now c).2.APIKey =
      RequestLogger.mask ((RequestLogger next responseTime now c).1.Query (lit "api")) :=
  rfl

/-- Rows of `request_logs` after the logging goroutine ran: the old rows, and at most one
new row, which carries the key fragment and the query string of the entry. -/
theorem persist_rows (db : Pool) (now : Time) (e : RequestLog) :
    ∀ row ∈ (RequestLogger.persist db now e).request_logs,
      row ∈ db.request_logs ∨ (row.APIKey = e.APIKey ∧ row.QueryParams = e.QueryParams) := by
  intro row hrow
  unfold RequestLogger.persist LogService.LogRequest LogRepository.Create at hrow
  cases hE : db.insertLogErr with
  | some err =>
    rw [hE] at hrow
    left
    simpa [Pool.record] using hrow
  | none =>
    rw [hE] at hrow
    simp only [Pool.record, List.mem_append, List.mem_singleton] at hrow
    rcases hrow with h | h
    · left; exact h
    · right
      subst h
      by_cases hz : e.CreatedAt = 0 <;> simp [hz]

/-- C6: masking rule of `RequestLogger`. With `k` the value of query parameter `api` when
the entry is built, the `APIKey` field of the entry is `k` unchanged when `k` has at most
8 bytes (the empty string included) and the first 8 bytes of `k` followed by `"..."` when
`k` has more than 8 bytes. -/
theorem RequestLogger_masking_rule (next : Context → Context) (c : Context)
    (responseTime : Int) (now : Time) (k : GoString)
    (hk : (RequestLogger next responseTime now c).1.Query (lit "api") = k) :
    (k.length ≤ 8 → (RequestLogger next responseTime now c).2.APIKey = k) ∧
    (8 < k.length →
      (RequestLogger next responseTime now c).2.APIKey = k.take 8 ++ lit "...") := by
  rw [RequestLogger_APIKey, hk]
  exact mask_eq k

/-- Witness for C6: the 16-byte key of `/hello?api=0123456789abcdef` is logged as
`01234567...`, the 8-byte key of `/hello?api=01234567` as it is. -/
theorem RequestLogger_masking_rule_witness :
    (RequestLogger id 3 700
        (sampleRequest "/hello" "api=0123456789abcdef" [] [])).2.APIKey = lit "01234567..." ∧
    (RequestLogger id 3 700
        (sampleRequest "/hello" "api=01234567" [] [])).2.APIKey = lit "01234567" :=
  ⟨((RequestLogger_masking_rule id (sampleRequest "/hello" "api=0123456789abcdef" [] [])
      3 700 (lit "0123456789abcdef") (by decide)).2 (by decide)).trans (by decide),
   (RequestLogger_masking_rule id (sampleRequest "/hello" "api=01234567" [] [])
      3 700 (lit "01234567") (by decide)).1 (by decide)⟩

/-- C7, counterexample: the full key reaches the log record. For
`GET /hello?api=0123456789abcdef` the `APIKey` field is masked, but the `QueryParams` field
is the raw query and contains the whole key, and the row stored by the logging goroutine
carries it; for `GET /hello?api=abc` the `APIKey` field is the whole key; and for
`GET /hello?api=12345678...` the masked `APIKey` field equals the whole key. -/
theorem full_key_in_log_record :
    ((sampleRequest "/hello" "api=0123456789abcdef" [] []).Query (lit "api") =
        lit "0123456789abcdef" ∧
      (RequestLogger id 3 700
        (sampleRequest "/hello" "api=0123456789abcdef" [] [])).2.APIKey = lit "01234567..." ∧
      lit "0123456789abcdef" <:+:
        (RequestLogger id 3 700
          (sampleRequest "/hello" "api=0123456789abcdef" [] [])).2.QueryParams ∧
      ∃ row ∈ (RequestLogger.persist samplePool 701
          (RequestLogger id 3 700
            (sampleRequest "/hello" "api=0123456789abcdef" [] [])).2).request_logs,
        lit "0123456789abcdef" <:+: row.QueryParams) ∧
    ((sampleRequest "/hello" "api=abc" [] []).Query (lit "api") = lit "abc" ∧
      (RequestLogger id 3 700 (sampleRequest "/hello" "api=abc" [] [])).2.APIKey =
        lit "abc") ∧
    ((sampleRequest "/hello" "api=12345678..." [] []).Query (lit "api") = lit "12345678..." ∧
      (RequestLogger id 3 700 (sampleRequest "/hello" "api=12345678..." [] [])).2.APIKey =
        lit "12345678...") := by
  refine ⟨⟨by decide, by decide, ⟨lit "api=", [], by decide⟩, ?_⟩,
    ⟨by decide, by decide⟩, ⟨by decide, by decide⟩⟩
  refine ⟨{ (RequestLogger id 3 700
      (sampleRequest "/hello" "api=0123456789abcdef" [] [])).2 with ID := 1 }, by decide, ?_⟩
  exact ⟨lit "api=", [], by decide⟩

/-- C7, amended: a key of more than 11 bytes carried in query parameter `api` is not
contained in the `APIKey` field of the entry, which is the first 8 bytes of the key
followed by `"..."`; and every row the logging goroutine adds to `request_logs` has that
same `APIKey` field. -/
theorem long_key_not_in_APIKey_field (next : Context → Context) (c : Context)
    (responseTime : Int) (now : Time) (k : GoString)
    (hk : (RequestLogger next responseTime now c).1.Query (lit "api") = k)
    (hlen : 11 < k.length) :
    (RequestLogger next responseTime now c).2.APIKey = k.take 8 ++ lit "..." ∧
    ¬ k <:+: (RequestLogger next responseTime now c).2.APIKey ∧
    ∀ (db : Pool) (t : Time),
      ∀ row ∈ (RequestLogger.persist db t (RequestLogger next responseTime now c).2).request_logs,
        row ∈ db.request_logs ∨ (row.APIKey = k.take 8 ++ lit "..." ∧ ¬ k <:+: row.APIKey) := by
  have hmask : (RequestLogger next responseTime now c).2.APIKey = k.take 8 ++ lit "..." := by
    rw [RequestLogger_APIKey, hk]
    exact (mask_eq k).2 (by omega)
  have hnot : ¬ k <:+: k.take 8 ++ lit "..." := by
    intro h
    have hle := h.length_le
    rw [List.length_append, List.length_take, marker_length] at hle
    omega
  refine ⟨hmask, by rw [hmask]; exact hnot, fun db t row hrow => ?_⟩
  rcases persist_rows db t _ row hrow with h | ⟨h, _⟩
  · left; exact h
  · right
    rw [h, hmask]
    exact ⟨rfl, hnot⟩

/-- Witness for the amended C7: the 16-byte key of `/hello?api=0123456789abcdef` is not
contained in the `APIKey` field of its entry. -/
theorem long_key_not_in_APIKey_field_witness :
    ¬ lit "0123456789abcdef" <:+:
      (RequestLogger id 3 700
        (sampleRequest "/hello" "api=0123456789abcdef" [] [])).2.APIKey :=
  (long_key_not_in_APIKey_field id (sampleRequest "/hello" "api=0123456789abcdef" [] [])
    3 700 (lit "0123456789abcdef") (by decide) (by decide)).2.1

/-- C8, counterexample: for `GET /hello?api=abc` the `APIKey` field of the entry is `abc`,
which is neither empty nor the first 8 bytes of the key followed by `"..."`. -/
theorem masked_key_invariant_fails :
    (sampleRequest "/hello" "api=abc" [] []).Query (lit "api") = lit "abc" ∧
    ¬ ((RequestLogger id 3 700 (sampleRequest "/hello" "api=abc" [] [])).2.APIKey = [] ∨
       (RequestLogger id 3 700 (sampleRequest "/hello" "api=abc" [] [])).2.APIKey =
         (lit "abc").take 8 ++ lit "...") := by
  decide

/-- C8, amended: with `k` the value of query parameter `api` when the entry is built, the
`APIKey` field of the entry is either `k` itself, `k` having at most 8 bytes, or the first
8 bytes of `k` followed by `"..."`, `k` having more than 8 bytes; it is empty exactly when
`k` is empty and never longer than 11 bytes. -/
theorem masked_key_invariant (next : Context → Context) (c : Context)
    (responseTime : Int) (now : Time) (k : GoString)
    (hk : (RequestLogger next responseTime now c).1.Query (lit "api") = k) :
    (((RequestLogger next responseTime now c).2.APIKey = k ∧ k.length ≤ 8) ∨
      ((RequestLogger next responseTime now c).2.APIKey = k.take 8 ++ lit "..." ∧
        8 < k.length)) ∧
    ((RequestLogger next responseTime now c).2.APIKey = [] ↔ k = []) ∧
    (RequestLogger next responseTime now c).2.APIKey.length ≤ 11 := by
  rw [RequestLogger_APIKey, hk]
  by_cases h : k.length ≤ 8
  · rw [(mask_eq k).1 h]
    exact ⟨Or.inl ⟨rfl, h⟩, Iff.rfl, by omega⟩
  · have h8 : 8 < k.length := by omega
    rw [(mask_eq k).2 h8]
    refine ⟨Or.inr ⟨rfl, h8⟩, ?_, ?_⟩
    · constructor
      · intro he
        have := congrArg List.length he
        rw [List.length_append, marker_length] at this
        simp at this
      · intro he
        rw [he] at h8
        simp at h8
    · rw [List.length_append, List.length_take, marker_length]
      omega

/-- Witness for the amended C8: the key `abc` is logged as it is, the key
`0123456789abcdef` as `01234567...`. -/
theorem masked_key_invariant_witness :
    (((RequestLogger id 3 700 (sampleRequest "/hello" "api=abc" [] [])).2.APIKey =
        lit "abc" ∧ (lit "abc").length ≤ 8) ∨
      ((RequestLogger id 3 700 (sampleRequest "/hello" "api=abc" [] [])).2.APIKey =
        (lit "abc").take 8 ++ lit "..." ∧ 8 < (lit "abc").length)) ∧
    (RequestLogger id 3 700
      (sampleRequest "/hello" "api=0123456789abcdef" [] [])).2.APIKey.length ≤ 11 :=
  ⟨(masked_key_invariant id (sampleRequest "/hello" "api=abc" [] []) 3 700 (lit "abc")
      (by decide)).1,
   (masked_key_invariant id (sampleRequest "/hello" "api=0123456789abcdef" [] []) 3 700
      (lit "0123456789abcdef") (by decide)).2.2⟩

/-! ## The key store seen through the gate -/

/-- With the SELECT answered, a token none of whose records is active is reported absent. -/
theorem FindByKey_absent (db : Pool) (token : GoString) (h : db.selectKeyErr = none)
    (hrows : ∀ r ∈ db.api_keys, r.Key = token → r.Active = false) :
    (APIKeyRepository.FindByKey db token).1 = (none, none) := by
  rcases FindByKey_shape db token with ⟨e, hf⟩ | hf | ⟨r, _, hmem, hkey, hact⟩
  · unfold APIKeyRepository.FindByKey Pool.scanActiveKey at hf
    rw [h] at hf
    cases hF : db.api_keys.find? (fun r => r.Key == token && r.Active) with
    | none => rw [hF] at hf; simp at hf
    | some r => rw [hF] at hf; simp at hf
  · exact hf
  · rw [hrows r hmem hkey] at hact
    exact absurd hact (by simp)

/-- With the SELECT answered, a token that has an active record is found. -/
theorem FindByKey_present (db : Pool) (token : GoString) (h : db.selectKeyErr = none)
    (hrow : ∃ r ∈ db.api_keys, r.Key = token ∧ r.Active = true) :
    ∃ r, (APIKeyRepository.FindByKey db token).1 = (some r, none) := by
  obtain ⟨r, hmem, hkey, hact⟩ := hrow
  unfold APIKeyRepository.FindByKey Pool.scanActiveKey
  rw [h]
  cases hF : db.api_keys.find? (fun r => r.Key == token && r.Active) with
  | none =>
    have := List.find?_eq_none.mp hF r hmem
    simp [hkey, hact] at this
  | some r' => exact ⟨r', rfl⟩

/-- The user-key gate answers a credential reported absent by the lookup with 403. -/
theorem APIKeyAuth_absent (db : Pool) (now : Time) (c : Context)
    (hf : (APIKeyRepository.FindByKey db (APIKeyAuth.apiKey c)).1 = (none, none)) :
    (APIKeyAuth db now c).1 =
      if APIKeyAuth.apiKey c = [] then
        [Call.JSON StatusForbidden (errorBody msgKeyRequired), Call.Abort]
      else [Call.JSON StatusForbidden (errorBody msgInvalidKey), Call.Abort] := by
  have hcalls := APIKeyAuth_calls db now c
  have hval := ValidateKey_of_FindByKey db now (APIKeyAuth.apiKey c)
  rw [hf] at hval
  simp only at hval
  rw [hval] at hcalls
  exact hcalls

/-- C9: inactive and never-issued tokens are indistinguishable. Let the SELECT be answered
in two key stores, the first with no record of `token`, the second with every record of
`token` inactive. Then `FindByKey` returns `(nil, nil)` in both,
`ValidateKey` returns `(false, nil)` in both, and the user-key gate makes the same calls in
both for a request carrying `token`: a 403 answer and an abort. In any store `FindByKey`
returns a record only if it is a stored record of `token` with `active = true`, and it does
return one when such a record exists and the SELECT is answered. -/
theorem FindByKey_absent_indistinguishable (db₁ db₂ : Pool) (now : Time) (token : GoString)
    (h₁ : db₁.selectKeyErr = none) (h₂ : db₂.selectKeyErr = none)
    (hnever : ∀ r ∈ db₁.api_keys, r.Key ≠ token)
    (hinactive : ∀ r ∈ db₂.api_keys, r.Key = token → r.Active = false) :
    (APIKeyRepository.FindByKey db₁ token).1 = (none, none) ∧
    (APIKeyRepository.FindByKey db₂ token).1 = (none, none) ∧
    (APIKeyService.ValidateKey db₁ now token).1 = (false, none) ∧
    (APIKeyService.ValidateKey db₂ now token).1 = (false, none) ∧
    (∀ c : Context, APIKeyAuth.apiKey c = token →
      (APIKeyAuth db₁ now c).1 = (APIKeyAuth db₂ now c).1 ∧
      (∃ msg, (APIKeyAuth db₁ now c).1 =
        [Call.JSON StatusForbidden (errorBody msg), Call.Abort]) ∧
      (token ≠ [] → (APIKeyAuth db₁ now c).1 =
        [Call.JSON StatusForbidden (errorBody msgInvalidKey), Call.Abort])) ∧
    (∀ (db : Pool) (r : APIKey), (APIKeyRepository.FindByKey db token).1 = (some r, none) →
      r ∈ db.api_keys ∧ r.Key = token ∧ r.Active = true) ∧
    (∀ db : Pool, db.selectKeyErr = none →
      (∃ r ∈ db.api_keys, r.Key = token ∧ r.Active = true) →
      ∃ r, (APIKeyRepository.FindByKey db token).1 = (some r, none)) := by
  have hf₁ : (APIKeyRepository.FindByKey db₁ token).1 = (none, none) :=
    FindByKey_absent db₁ token h₁ (fun r hr hk => absurd hk (hnever r hr))
  have hf₂ : (APIKeyRepository.FindByKey db₂ token).1 = (none, none) :=
    FindByKey_absent db₂ token h₂ hinactive
  have hv₁ := ValidateKey_of_FindByKey db₁ now token
  have hv₂ := ValidateKey_of_FindByKey db₂ now token
  rw [hf₁] at hv₁
  rw [hf₂] at hv₂
  refine ⟨hf₁, hf₂, hv₁, hv₂, ?_, ?_, fun db hdb hrow => FindByKey_present db token hdb hrow⟩
  · intro c hc
    have hc₁ := APIKeyAuth_absent db₁ now c (by rw [hc]; exact hf₁)
    have hc₂ := APIKeyAuth_absent db₂ now c (by rw [hc]; exact hf₂)
    refine ⟨by rw [hc₁, hc₂], ?_, ?_⟩
    · by_cases hk : APIKeyAuth.apiKey c = []
      · exact ⟨msgKeyRequired, by rw [hc₁, if_pos hk]⟩
      · exact ⟨msgInvalidKey, by rw [hc₁, if_neg hk]⟩
    · intro hne
      rw [hc₁, if_neg (by rw [hc]; exact hne)]
  · intro db r hfind
    rcases FindByKey_shape db token with ⟨e, hf⟩ | hf | ⟨r', hf, hmem, hkey, hact⟩
    · rw [hf] at hfind; simp at hfind
    · rw [hf] at hfind; simp at hfind
    · rw [hf] at hfind
      simp only [Prod.mk.injEq, Option.some.injEq, and_true] at hfind
      subst hfind
      exact ⟨hmem, hkey, hact⟩

/-- Witness for C9: the token `fedcba9876543210` was never issued in the empty store and is
deactivated in the sample store; the lookup reports it absent in both and a request
carrying it gets the same answer from the gate in both. -/
theorem FindByKey_absent_indistinguishable_witness :
    (APIKeyRepository.FindByKey { samplePool with api_keys := [] }
      (lit "fedcba9876543210")).1 = (none, none) ∧
    (APIKeyRepository.FindByKey samplePool (lit "fedcba9876543210")).1 = (none, none) ∧
    (APIKeyAuth { samplePool with api_keys := [] } 200
        (sampleRequest "/hello" "api=fedcba9876543210" [] [])).1 =
      (APIKeyAuth samplePool 200 (sampleRequest "/hello" "api=fedcba9876543210" [] [])).1 :=
  have h := FindByKey_absent_indistinguishable { samplePool with api_keys := [] } samplePool
    200 (lit "fedcba9876543210") rfl rfl (by decide) (by decide)
  ⟨h.1, h.2.1, (h.2.2.2.2.1 (sampleRequest "/hello" "api=fedcba9876543210" [] [])
    (by decide)).1⟩

/-- The lookup does not depend on how the pool answers the UPDATE. -/
theorem FindByKey_updateKeyErr (db : Pool) (upd : Option Error) (key : GoString) :
    (APIKeyRepository.FindByKey { db with updateKeyErr := upd } key).1 =
      (APIKeyRepository.FindByKey db key).1 := by
  unfold APIKeyRepository.FindByKey Pool.scanActiveKey
  simp only
  cases db.selectKeyErr with
  | some e => by_cases he : e = Error.ErrNoRows <;> simp [he]
  | none => cases db.api_keys.find? (fun r => r.Key == key && r.Active) <;> rfl

/-- C10: a failing last-used update never fails the request. Whenever `FindByKey` returns
an active record without error, `UpdateLastUsed` is called and returns whatever the pool
answers to the UPDATE (`upd`: nil or any error), `ValidateKey` returns `(true, nil)` all
the same, and the user-key gate calls `c.Next()` for a request carrying that key; when the
UPDATE failed the rows of `api_keys` are as before. -/
theorem ValidateKey_ignores_UpdateLastUsed (db : Pool) (now : Time) (key : GoString)
    (r : APIKey) (upd : Option Error)
    (hfind : (APIKeyRepository.FindByKey db key).1 = (some r, none)) :
    (APIKeyRepository.UpdateLastUsed
      (APIKeyRepository.FindByKey { db with updateKeyErr := upd } key).2 now key).1 = upd ∧
    (APIKeyService.ValidateKey { db with updateKeyErr := upd } now key).1 = (true, none) ∧
    (APIKeyService.ValidateKey { db with updateKeyErr := upd } now key).2 =
      (APIKeyRepository.UpdateLastUsed
        (APIKeyRepository.FindByKey { db with updateKeyErr := upd } key).2 now key).2 ∧
    (upd ≠ none →
      (APIKeyService.ValidateKey { db with updateKeyErr := upd } now key).2.api_keys =
        db.api_keys) ∧
    (∀ c : Context, APIKeyAuth.apiKey c = key → key ≠ [] →
      (APIKeyAuth { db with updateKeyErr := upd } now c).1 = [Call.Next]) := by
  have hfind' := FindByKey_updateKeyErr db upd key
  rw [hfind] at hfind'
  have hpool := FindByKey_pool { db with updateKeyErr := upd } key
  have hval := ValidateKey_of_FindByKey { db with updateKeyErr := upd } now key
  rw [hfind'] at hval
  simp only at hval
  have hpost : (APIKeyService.ValidateKey { db with updateKeyErr := upd } now key).2 =
      (APIKeyRepository.UpdateLastUsed
        (APIKeyRepository.FindByKey { db with updateKeyErr := upd } key).2 now key).2 := by
    unfold APIKeyService.ValidateKey
    rcases hF : APIKeyRepository.FindByKey { db with updateKeyErr := upd } key with
      ⟨⟨a, e⟩, db1⟩
    rw [hF] at hfind'
    simp only [Prod.mk.injEq] at hfind'
    obtain ⟨ha, he⟩ := hfind'
    subst ha he
    rfl
  have hret : (APIKeyRepository.UpdateLastUsed
      (APIKeyRepository.FindByKey { db with updateKeyErr := upd } key).2 now key).1 = upd := by
    rw [hpool]
    unfold APIKeyRepository.UpdateLastUsed Pool.record
    cases upd <;> rfl
  refine ⟨hret, hval, hpost, ?_, ?_⟩
  · intro hne
    rw [hpost, hpool]
    unfold APIKeyRepository.UpdateLastUsed Pool.record
    cases upd with
    | none => exact absurd rfl hne
    | some e => rfl
  · intro c hc hne
    have hcalls := APIKeyAuth_calls { db with updateKeyErr := upd } now c
    rw [if_neg (by rw [hc]; exact hne), hc, hval] at hcalls
    exact hcalls

/-- Witness for C10: with the UPDATE failing on a deadlock, the issued key still validates
and the request `/hello?api=0123456789abcdef` passes the gate. -/
theorem ValidateKey_ignores_UpdateLastUsed_witness :
    (APIKeyService.ValidateKey
      { samplePool with updateKeyErr := some (Error.other (lit "deadlock detected")) }
      200 (lit "0123456789abcdef")).1 = (true, none) ∧
    (APIKeyAuth
      { samplePool with updateKeyErr := some (Error.other (lit "deadlock detected")) }
      200 (sampleRequest "/hello" "api=0123456789abcdef" [] [])).1 = [Call.Next] :=
  have h := ValidateKey_ignores_UpdateLastUsed samplePool 200 (lit "0123456789abcdef")
    sampleKey (some (Error.other (lit "deadlock detected"))) (by decide)
  ⟨h.2.1, h.2.2.2.2 (sampleRequest "/hello" "api=0123456789abcdef" [] [])
    (by decide) (by decide)⟩

/-! ## Key issuance -/

set_option maxRecDepth 100000 in
/-- Both digits of every byte are lowercase hexadecimal and determine the byte. -/
theorem hex_digits (i : Fin 256) :
    hex.isLowerHex (hex.hextable.getD (UInt8.mk (BitVec.ofFin i) >>> 4).toNat 0) = true ∧
    hex.isLowerHex (hex.hextable.getD (UInt8.mk (BitVec.ofFin i) &&& 0x0f).toNat 0) = true ∧
    url.unhex (hex.hextable.getD (UInt8.mk (BitVec.ofFin i) >>> 4).toNat 0) * 16 +
      url.unhex (hex.hextable.getD (UInt8.mk (BitVec.ofFin i) &&& 0x0f).toNat 0) =
        UInt8.mk (BitVec.ofFin i) := by
  revert i
  decide

/-- The two digits of a byte, for every byte. -/
theorem hex_digits_byte (v : UInt8) :
    hex.isLowerHex (hex.hextable.getD (v >>> 4).toNat 0) = true ∧
    hex.isLowerHex (hex.hextable.getD (v &&& 0x0f).toNat 0) = true ∧
    url.unhex (hex.hextable.getD (v >>> 4).toNat 0) * 16 +
      url.unhex (hex.hextable.getD (v &&& 0x0f).toNat 0) = v := by
  rcases v with ⟨⟨f⟩⟩
  exact hex_digits f

/-- The rendering has two digits per byte. -/
theorem EncodeToString_length (bytes : GoString) :
    (hex.EncodeToString bytes).length = 2 * bytes.length := by
  induction bytes with
  | nil => rfl
  | cons v t ih => simp only [hex.EncodeToString, List.length_cons, ih]; omega

/-- The rendering consists of lowercase hexadecimal digits. -/
theorem EncodeToString_lowerHex (bytes : GoString) :
    ∀ c ∈ hex.EncodeToString bytes, hex.isLowerHex c = true := by
  induction bytes with
  | nil => intro c hc; simp [hex.EncodeToString] at hc
  | cons v t ih =>
    intro c hc
    simp only [hex.EncodeToString, List.mem_cons] at hc
    rcases hc with h | h | h
    · rw [h]; exact (hex_digits_byte v).1
    · rw [h]; exact (hex_digits_byte v).2.1
    · exact ih c h

/-- The rendering is injective. -/
theorem EncodeToString_injective (a b : GoString)
    (h : hex.EncodeToString a = hex.EncodeToString b) : a = b := by
  induction a generalizing b with
  | nil =>
    cases b with
    | nil => rfl
    | cons v t => simp [hex.EncodeToString] at h
  | cons v t ih =>
    cases b with
    | nil => simp [hex.EncodeToString] at h
    | cons w u =>
      simp only [hex.EncodeToString, List.cons.injEq] at h
      obtain ⟨h1, h2, h3⟩ := h
      have hv := (hex_digits_byte v).2.2
      have hw := (hex_digits_byte w).2.2
      rw [h1, h2, hw] at hv
      rw [hv, ih u h3]

/-- A successful read of 32 delivered bytes hands them to the rendering. -/
theorem GenerateKey_ok (rnd : Rand) (h : rnd.err = none) (hlen : rnd.bytes.length = 32) :
    APIKeyService.GenerateKey rnd =
      ((hex.EncodeToString rnd.bytes, none), { rnd with reads := rnd.reads + 1 }) := by
  unfold APIKeyService.GenerateKey rand.Read
  rw [h]
  simp only
  rw [List.take_append_of_le_length (by omega), List.take_of_length_le (by omega)]

/-- C11: rendering of `GenerateKey`. For every 32-byte sequence the entropy source
delivers, `GenerateKey` returns, without error, the hexadecimal rendering of those bytes:
a token of exactly 64 bytes, each of them one of `0-9a-f`; and two different 32-byte
sequences give two different tokens. -/
theorem GenerateKey_rendering (rnd : Rand) (h : rnd.err = none)
    (hlen : rnd.bytes.length = 32) :
    (APIKeyService.GenerateKey rnd).1 = (hex.EncodeToString rnd.bytes, none) ∧
    (APIKeyService.GenerateKey rnd).1.1.length = 64 ∧
    (∀ c ∈ (APIKeyService.GenerateKey rnd).1.1, hex.isLowerHex c = true) ∧
    (∀ rnd' : Rand, rnd'.err = none → rnd'.bytes.length = 32 → rnd'.bytes ≠ rnd.bytes →
      (APIKeyService.GenerateKey rnd').1.1 ≠ (APIKeyService.GenerateKey rnd).1.1) := by
  rw [GenerateKey_ok rnd h hlen]
  refine ⟨rfl, ?_, EncodeToString_lowerHex rnd.bytes, ?_⟩
  · simp only [EncodeToString_length, hlen]
  · intro rnd' h' hlen' hne heq
    rw [GenerateKey_ok rnd' h' hlen'] at heq
    exact hne (EncodeToString_injective _ _ heq)

/-- Witness for C11: the bytes `0, 1, ..., 31` are rendered as the 64 digits
`000102...1e1f`. -/
theorem GenerateKey_rendering_witness :
    (APIKeyService.GenerateKey sampleRand).1 =
      (lit "000102030405060708090a0b0c0d0e0f101112131415161718191a1b1c1d1e1f", none) ∧
    (APIKeyService.GenerateKey sampleRand).1.1.length = 64 :=
  ⟨(GenerateKey_rendering sampleRand rfl (by decide)).1.trans (by decide),
   (GenerateKey_rendering sampleRand rfl (by decide)).2.1⟩

/-- The method `GenerateKey` reads the entropy source exactly once. -/
theorem GenerateKey_reads (rnd : Rand) :
    (APIKeyService.GenerateKey rnd).2.reads = rnd.reads + 1 := by
  unfold APIKeyService.GenerateKey rand.Read
  cases rnd.err <;> rfl

/-- The method `Create` sends exactly one INSERT, and returns a record exactly when it
returns no error. -/
theorem Create_shape (db : Pool) (now : Time) (key name : GoString) :
    (APIKeyRepository.Create db now key name).2.executed =
      db.executed ++ [Stmt.InsertKey key name] ∧
    ((∃ e, (APIKeyRepository.Create db now key name).1 = (none, some e)) ∨
      ∃ r, (APIKeyRepository.Create db now key name).1 = (some r, none) ∧
        r.Key = key ∧ r.Name = name ∧ r.Active = true) := by
  unfold APIKeyRepository.Create Pool.record
  cases db.insertKeyErr with
  | some e => exact ⟨rfl, Or.inl ⟨e, rfl⟩⟩
  | none =>
    dsimp only
    by_cases hdup : (db.api_keys.any (fun r => r.Key == key)) = true
    · rw [if_pos hdup]
      exact ⟨rfl, Or.inl ⟨_, rfl⟩⟩
    · rw [if_neg hdup]
      exact ⟨rfl, Or.inr ⟨_, rfl, rfl, rfl, rfl⟩⟩

/-- The method `CreateAPIKey` in terms of `GenerateKey` and `Create`. -/
theorem CreateAPIKey_eq (rnd : Rand) (db : Pool) (now : Time) (name : GoString) :
    APIKeyService.CreateAPIKey rnd db now name =
      match (APIKeyService.GenerateKey rnd).1.2 with
      | some err => ((none, some err), (APIKeyService.GenerateKey rnd).2, db)
      | none =>
        match (APIKeyRepository.Create db now (APIKeyService.GenerateKey rnd).1.1 name).1.2 with
        | some err =>
          ((none, some err), (APIKeyService.GenerateKey rnd).2,
            (APIKeyRepository.Create db now (APIKeyService.GenerateKey rnd).1.1 name).2)
        | none =>
          (((APIKeyRepository.Create db now (APIKeyService.GenerateKey rnd).1.1 name).1.1.map
              (fun k => { Key := k.Key, Name := k.Name, CreatedAt := k.CreatedAt }), none),
            (APIKeyService.GenerateKey rnd).2,
            (APIKeyRepository.Create db now (APIKeyService.GenerateKey rnd).1.1 name).2) := by
  unfold APIKeyService.CreateAPIKey
  rcases hg : APIKeyService.GenerateKey rnd with ⟨⟨key, ge⟩, rnd1⟩
  cases ge with
  | some e => rfl
  | none =>
    simp only
    rcases hc : APIKeyRepository.Create db now key name with ⟨⟨r, ce⟩, db1⟩
    cases ce <;> rfl

/-- C12: key issuance failures are surfaced and not retried. When `GenerateKey` fails,
`CreateAPIKey` returns its error and no response and leaves the pool untouched, so the
store's `Create` is not called; when `Create` fails, `CreateAPIKey` returns its error and
no response; a nil error comes only with a response, both calls having succeeded. In
every run the entropy source is read once (one `GenerateKey` call) and at most one INSERT
reaches the pool (at most one `Create` call). The handler of `POST /api-keys` answers any
such error with 500 and nothing else, the entropy source and the pool being those the
service left. -/
theorem CreateAPIKey_failures_surface (rnd : Rand) (db : Pool) (now : Time)
    (name : GoString) :
    (∀ e, (APIKeyService.GenerateKey rnd).1.2 = some e →
      (APIKeyService.CreateAPIKey rnd db now name).1 = (none, some e) ∧
      (APIKeyService.CreateAPIKey rnd db now name).2.2 = db) ∧
    (∀ e, (APIKeyService.GenerateKey rnd).1.2 = none →
      (APIKeyRepository.Create db now (APIKeyService.GenerateKey rnd).1.1 name).1.2 = some e →
      (APIKeyService.CreateAPIKey rnd db now name).1 = (none, some e)) ∧
    ((APIKeyService.CreateAPIKey rnd db now name).1.2 = none →
      (APIKeyService.GenerateKey rnd).1.2 = none ∧
      (APIKeyRepository.Create db now (APIKeyService.GenerateKey rnd).1.1 name).1.2 = none ∧
      (APIKeyService.CreateAPIKey rnd db now name).1.1 ≠ none) ∧
    (APIKeyService.CreateAPIKey rnd db now name).2.1.reads = rnd.reads + 1 ∧
    ((APIKeyService.CreateAPIKey rnd db now name).2.2.executed = db.executed ∨
      (APIKeyService.CreateAPIKey rnd db now name).2.2.executed =
        db.executed ++ [Stmt.InsertKey (APIKeyService.GenerateKey rnd).1.1 name]) ∧
    (∀ e, (APIKeyService.CreateAPIKey rnd db now name).1.2 = some e →
      (APIKeyHandler.CreateAPIKey ({ Name := name }, none) rnd db now).1 =
        [Call.JSON StatusInternalServerError (errorBody msgCreateFailed)] ∧
      (APIKeyHandler.CreateAPIKey ({ Name := name }, none) rnd db now).2 =
        (APIKeyService.CreateAPIKey rnd db now name).2) := by
  have heq := CreateAPIKey_eq rnd db now name
  have hreads := GenerateKey_reads rnd
  have hshape := Create_shape db now (APIKeyService.GenerateKey rnd).1.1 name
  refine ⟨?_, ?_, ?_, ?_, ?_, ?_⟩
  · intro e he
    rw [heq, he]
    exact ⟨rfl, rfl⟩
  · intro e hg hc
    rw [heq, hg]
    simp only
    rw [hc]
  · intro hnone
    cases hg : (APIKeyService.GenerateKey rnd).1.2 with
    | some e => rw [heq, hg] at hnone; simp at hnone
    | none =>
      rw [hg] at heq
      simp only at heq
      cases hc : (APIKeyRepository.Create db now (APIKeyService.GenerateKey rnd).1.1 name).1.2 with
      | some e => rw [heq, hc] at hnone; simp at hnone
      | none =>
        refine ⟨rfl, rfl, ?_⟩
        rw [hc] at heq
        simp only at heq
        rw [heq]
        rcases hshape.2 with ⟨e, h⟩ | ⟨r, h, _⟩
        · rw [h] at hc; simp at hc
        · rw [h]; simp
  · rw [heq]
    cases (APIKeyService.GenerateKey rnd).1.2 with
    | some e => exact hreads
    | none =>
      simp only
      cases (APIKeyRepository.Create db now (APIKeyService.GenerateKey rnd).1.1 name).1.2 <;>
        exact hreads
  · rw [heq]
    cases (APIKeyService.GenerateKey rnd).1.2 with
    | some e => exact Or.inl rfl
    | none =>
      simp only
      cases (APIKeyRepository.Create db now (APIKeyService.GenerateKey rnd).1.1 name).1.2 <;>
        exact Or.inr hshape.1
  · intro e he
    unfold APIKeyHandler.CreateAPIKey
    simp only
    rcases hs : APIKeyService.CreateAPIKey rnd db now name with ⟨⟨resp, err⟩, rnd1, db1⟩
    rw [hs] at he
    simp only at he
    subst he
    exact ⟨rfl, rfl⟩

/-- Witness for C12: with a failing entropy source the service returns an error, no INSERT
reaches the pool and the handler answers 500; with the token already in the store the
INSERT is sent once, fails, and the handler answers 500. -/
theorem CreateAPIKey_failures_surface_witness :
    (APIKeyService.CreateAPIKey brokenRand samplePool 300 (lit "svc-c")).1.1 = none ∧
    (APIKeyService.CreateAPIKey brokenRand samplePool 300 (lit "svc-c")).2.2 = samplePool ∧
    (APIKeyHandler.CreateAPIKey ({ Name := lit "svc-c" }, none) brokenRand samplePool 300).1 =
      [Call.JSON StatusInternalServerError (errorBody msgCreateFailed)] ∧
    (APIKeyHandler.CreateAPIKey ({ Name := lit "svc-c" }, none) sampleRand
      { samplePool with api_keys := [{ sampleKey with
          Key := lit "000102030405060708090a0b0c0d0e0f101112131415161718191a1b1c1d1e1f" }] }
      300).1 = [Call.JSON StatusInternalServerError (errorBody msgCreateFailed)] :=
  ⟨congrArg Prod.fst ((CreateAPIKey_failures_surface brokenRand samplePool 300 (lit "svc-c")).1
      (fmt.Errorf (lit "failed to generate random bytes: ")
        (Error.other (lit "entropy source unavailable"))) (by decide)).1,
   ((CreateAPIKey_failures_surface brokenRand samplePool 300 (lit "svc-c")).1
      (fmt.Errorf (lit "failed to generate random bytes: ")
        (Error.other (lit "entropy source unavailable"))) (by decide)).2,
   ((CreateAPIKey_failures_surface brokenRand samplePool 300 (lit "svc-c")).2.2.2.2.2
      (fmt.Errorf (lit "failed to generate random bytes: ")
        (Error.other (lit "entropy source unavailable"))) (by decide)).1,
   ((CreateAPIKey_failures_surface sampleRand
      { samplePool with api_keys := [{ sampleKey with
          Key := lit "000102030405060708090a0b0c0d0e0f101112131415161718191a1b1c1d1e1f" }] }
      300 (lit "svc-c")).2.2.2.2.2 ErrUniqueViolation (by decide)).1⟩

/-! ## The log queries -/

/-- The placeholder following the arguments bound so far is bound to the next argument. -/
theorem bound_last (args extra : List Arg) (a : Arg) :
    Arg.bound (args ++ a :: extra) (args.length + 1) = some a := by
  unfold Arg.bound
  rw [if_neg (by omega)]
  rw [Nat.add_sub_cancel, List.getElem?_append_right (le_refl _), Nat.sub_self]
  simp

/-- A bound placeholder stays bound to the same value when arguments are appended. -/
theorem bound_append (args extra : List Arg) (pos : Nat) (x : Arg)
    (h : Arg.bound args pos = some x) : Arg.bound (args ++ extra) pos = some x := by
  unfold Arg.bound at h ⊢
  by_cases hp : pos = 0
  · simp [hp] at h
  · rw [if_neg hp] at h ⊢
    have hlt : pos - 1 < args.length := by
      by_contra hge
      rw [List.getElem?_eq_none (by omega)] at h
      simp at h
    rw [List.getElem?_append_left hlt]
    exact h

/-- A well-bound conjunct keeps its meaning when arguments are appended. -/
theorem wellBound_append (args extra : List Arg) (row : RequestLog) (cj : Conjunct)
    (h : cj.wellBound args = true) :
    cj.wellBound (args ++ extra) = true ∧ cj.holds (args ++ extra) row = cj.holds args row := by
  cases cj with
  | always => exact ⟨rfl, rfl⟩
  | methodEq pos | statusEq pos | pathLike pos | createdGe pos | createdLe pos =>
    simp only [Conjunct.wellBound, Conjunct.holds] at h ⊢
    cases hb : Arg.bound args pos with
    | none => rw [hb] at h; simp at h
    | some x =>
      rw [bound_append args extra pos x hb]
      rw [hb] at h
      exact ⟨h, rfl⟩

/-- Two tests that agree on the members of a list agree on the list. -/
theorem all_congr_mem {α : Type} (l : List α) (f g : α → Bool)
    (h : ∀ x ∈ l, f x = g x) : l.all f = l.all g := by
  induction l with
  | nil => rfl
  | cons x t ih =>
    simp only [List.all_cons]
    rw [h x (List.mem_cons_self x t), ih (fun y hy => h y (List.mem_cons_of_mem x hy))]

/-- One test of `LogRepository.List` keeps the clause well bound and, when its field is
present, adds the test of its conjunct to the meaning of the clause. -/
theorem add_spec (w : WhereClause) (present : Bool) (c : Nat → Conjunct) (a : Arg)
    (test : RequestLog → Bool)
    (hpos : w.argPos = w.args.length + 1)
    (hwb : ∀ cj ∈ w.conjuncts, cj.wellBound w.args = true)
    (hc : ∀ args : List Arg, (c (args.length + 1)).wellBound (args ++ [a]) = true ∧
      ∀ row, (c (args.length + 1)).holds (args ++ [a]) row = test row) :
    (w.add present c a).argPos = (w.add present c a).args.length + 1 ∧
    (∀ cj ∈ (w.add present c a).conjuncts, cj.wellBound (w.add present c a).args = true) ∧
    ∀ row, whereHolds (w.add present c a).conjuncts (w.add present c a).args row =
      (whereHolds w.conjuncts w.args row && (!present || test row)) := by
  unfold WhereClause.add
  cases present with
  | false =>
    simp only [Bool.false_eq_true, if_false]
    exact ⟨hpos, hwb, fun row => by simp⟩
  | true =>
    simp only [if_true]
    refine ⟨?_, ?_, ?_⟩
    · simp [hpos]
    · intro cj hcj
      rcases List.mem_append.mp hcj with h | h
      · exact (wellBound_append w.args [a] (sampleLog 0 "" 0 0 0) cj (hwb cj h)).1
      · rw [List.mem_singleton.mp h, hpos]
        exact (hc w.args).1
    · intro row
      unfold whereHolds
      rw [List.all_append, all_congr_mem w.conjuncts _ (fun cj => cj.holds w.args row)
        (fun cj hcj => (wellBound_append w.args [a] row cj (hwb cj hcj)).2)]
      simp [hpos, (hc w.args).2 row]

/-- The clause built by `LogRepository.List`: its placeholders are bound, and a row
satisfies it exactly when it passes the test of every field that is present. -/
theorem build_spec (params : LogQueryParams) :
    (LogRepository.List.build params).argPos =
      (LogRepository.List.build params).args.length + 1 ∧
    (∀ cj ∈ (LogRepository.List.build params).conjuncts,
      cj.wellBound (LogRepository.List.build params).args = true) ∧
    ∀ row, whereHolds (LogRepository.List.build params).conjuncts
        (LogRepository.List.build params).args row =
      ((((((true && (!decide (params.Method ≠ []) || row.Method == params.Method)) &&
        (!decide (params.StatusCode > 0) || row.StatusCode == params.StatusCode)) &&
        (!decide (params.Path ≠ []) || sqlLike (lit "%" ++ params.Path ++ lit "%") row.Path)) &&
        (!decide (params.StartDate ≠ 0) || decide (row.CreatedAt ≥ params.StartDate))) &&
        (!decide (params.EndDate ≠ 0) || decide (row.CreatedAt ≤ params.EndDate)))) := by
  have h0 : ∀ row, whereHolds [Conjunct.always] [] row = true := by
    intro row; simp [whereHolds, Conjunct.holds]
  have h1 := add_spec { conjuncts := [Conjunct.always], args := [], argPos := 1 }
    (decide (params.Method ≠ [])) Conjunct.methodEq (Arg.text params.Method)
    (fun row => row.Method == params.Method) rfl
    (by intro cj hcj; rw [List.mem_singleton.mp hcj]; rfl)
    (by intro args; simp only [Conjunct.wellBound, Conjunct.holds, bound_last args [] _]; simp)
  have h2 := add_spec _ (decide (params.StatusCode > 0)) Conjunct.statusEq
    (Arg.int params.StatusCode) (fun row => row.StatusCode == params.StatusCode) h1.1 h1.2.1
    (by intro args; simp only [Conjunct.wellBound, Conjunct.holds, bound_last args [] _]; simp)
  have h3 := add_spec _ (decide (params.Path ≠ [])) Conjunct.pathLike
    (Arg.text (lit "%" ++ params.Path ++ lit "%"))
    (fun row => sqlLike (lit "%" ++ params.Path ++ lit "%") row.Path) h2.1 h2.2.1
    (by intro args; simp only [Conjunct.wellBound, Conjunct.holds, bound_last args [] _]; simp)
  have h4 := add_spec _ (decide (params.StartDate ≠ 0)) Conjunct.createdGe
    (Arg.timestamp params.StartDate) (fun row => decide (row.CreatedAt ≥ params.StartDate))
    h3.1 h3.2.1
    (by intro args; simp only [Conjunct.wellBound, Conjunct.holds, bound_last args [] _]; simp)
  have h5 := add_spec _ (decide (params.EndDate ≠ 0)) Conjunct.createdLe
    (Arg.timestamp params.EndDate) (fun row => decide (row.CreatedAt ≤ params.EndDate))
    h4.1 h4.2.1
    (by intro args; simp only [Conjunct.wellBound, Conjunct.holds, bound_last args [] _]; simp)
  refine ⟨h5.1, h5.2.1, fun row => ?_⟩
  have e5 := h5.2.2 row
  rw [h4.2.2 row, h3.2.2 row, h2.2.2 row, h1.2.2 row, h0 row] at e5
  exact e5

/-- The clause built by `LogRepository.List` keeps its meaning when `LIMIT` and `OFFSET`
are appended to its arguments, and stays well bound. -/
theorem build_append (params : LogQueryParams) (extra : List Arg) :
    ((LogRepository.List.build params).conjuncts.all
      (fun cj => cj.wellBound ((LogRepository.List.build params).args ++ extra)) = true) ∧
    whereHolds (LogRepository.List.build params).conjuncts
        ((LogRepository.List.build params).args ++ extra) =
      whereHolds (LogRepository.List.build params).conjuncts
        (LogRepository.List.build params).args := by
  have hb := (build_spec params).2.1
  constructor
  · rw [List.all_eq_true]
    intro cj hcj
    exact (wellBound_append _ extra (sampleLog 0 "" 0 0 0) cj (hb cj hcj)).1
  · funext row
    unfold whereHolds
    exact all_congr_mem _ _ _ (fun cj hcj => (wellBound_append _ extra row cj (hb cj hcj)).2)

/-- The adjusted limit lies between 1 and 1000. -/
theorem limit_range (params : LogQueryParams) :
    1 ≤ LogRepository.List.limit params ∧ LogRepository.List.limit params ≤ 1000 := by
  unfold LogRepository.List.limit
  simp only
  split_ifs <;> omega

/-- The placeholders of `LIMIT` and `OFFSET` are bound to the adjusted limit and to the
offset. -/
theorem build_limit_offset (params : LogQueryParams) (limit offset : Int) :
    Arg.bound ((LogRepository.List.build params).args ++ [Arg.int limit, Arg.int offset])
      (LogRepository.List.build params).argPos = some (Arg.int limit) ∧
    Arg.bound ((LogRepository.List.build params).args ++ [Arg.int limit, Arg.int offset])
      ((LogRepository.List.build params).argPos + 1) = some (Arg.int offset) := by
  rw [(build_spec params).1]
  constructor
  · exact bound_last _ _ _
  · have h := bound_last ((LogRepository.List.build params).args ++ [Arg.int limit]) []
      (Arg.int offset)
    simpa using h

/-- The result of `LogRepository.List` in terms of the table: the error of the count
query, else the error of the page query, else the error of a negative offset, else the
page of the matching rows, newest first, with their number. -/
theorem List_result (db : Pool) (params : LogQueryParams) :
    (LogRepository.List db params).1 =
      match db.countLogsErr with
      | some err => ([], 0, some err)
      | none =>
        match db.selectLogsErr with
        | some err => ([], 0, some err)
        | none =>
          if 0 ≤ params.Offset then
            (((newestFirst (db.request_logs.filter
                (whereHolds (LogRepository.List.build params).conjuncts
                  (LogRepository.List.build params).args))).drop params.Offset.toNat).take
                (LogRepository.List.limit params).toNat,
              ((db.request_logs.filter
                (whereHolds (LogRepository.List.build params).conjuncts
                  (LogRepository.List.build params).args)).length : Int), none)
          else ([], 0, some ErrQuery) := by
  have hw0 := (build_append params []).1
  rw [List.append_nil] at hw0
  have hw := build_append params
    [Arg.int (LogRepository.List.limit params), Arg.int params.Offset]
  have hlo := build_limit_offset params (LogRepository.List.limit params) params.Offset
  have hlim := (limit_range params).1
  unfold LogRepository.List Pool.queryCount Pool.queryLogs
  simp only
  cases db.countLogsErr with
  | some e => rfl
  | none =>
    simp only [hw0, if_true]
    cases db.selectLogsErr with
    | some e => rfl
    | none =>
      simp only [hlo.1, hlo.2, hw.1, hw.2, Bool.true_and]
      by_cases hoff : 0 ≤ params.Offset
      · have hl : (0 : Int) ≤ LogRepository.List.limit params := by omega
        simp [hoff, hl]
      · simp [hoff]

/-- The statements `LogRepository.List` sends: the count query, and after it, unless the
count query failed, the page query with the adjusted limit and the offset as its last two
arguments. -/
theorem List_executed (db : Pool) (params : LogQueryParams) :
    (LogRepository.List db params).2.executed =
      db.executed ++ [Stmt.CountLogs (LogRepository.List.build params).conjuncts
        (LogRepository.List.build params).args] ∨
    (LogRepository.List db params).2.executed =
      db.executed ++ [Stmt.CountLogs (LogRepository.List.build params).conjuncts
        (LogRepository.List.build params).args] ++
        [Stmt.SelectLogs (LogRepository.List.build params).conjuncts
          ((LogRepository.List.build params).args ++
            [Arg.int (LogRepository.List.limit params), Arg.int params.Offset])
          (LogRepository.List.build params).argPos
          ((LogRepository.List.build params).argPos + 1)] := by
  unfold LogRepository.List
  simp only
  rcases db.queryCount (LogRepository.List.build params).conjuncts
      (LogRepository.List.build params).args with ⟨total, ce⟩
  cases ce with
  | some e => exact Or.inl rfl
  | none =>
    simp only
    rcases db.queryLogs (LogRepository.List.build params).conjuncts
      ((LogRepository.List.build params).args ++
        [Arg.int (LogRepository.List.limit params), Arg.int params.Offset])
      (LogRepository.List.build params).argPos
      ((LogRepository.List.build params).argPos + 1) with ⟨logs, se⟩
    cases se <;> exact Or.inr rfl

/-- C13: limit clamping. The `LIMIT` value of `LogRepository.List` is 100 when the
requested limit is zero or less, 1000 when it is above 1000 and the requested limit
otherwise, so it always lies in `[1, 1000]`; it is the value bound to the `LIMIT`
placeholder of the page query, the only statement `List` sends after the count query; and
the default the handler of `GET /dashboard/logs` applies beforehand does not change it.
For instance 2000 gives 1000, and 0 and -5 give 100. -/
theorem List_limit_clamp (params : LogQueryParams) :
    (params.Limit ≤ 0 → LogRepository.List.limit params = 100) ∧
    (params.Limit > 1000 → LogRepository.List.limit params = 1000) ∧
    (0 < params.Limit → params.Limit ≤ 1000 →
      LogRepository.List.limit params = params.Limit) ∧
    1 ≤ LogRepository.List.limit params ∧ LogRepository.List.limit params ≤ 1000 ∧
    Arg.bound ((LogRepository.List.build params).args ++
        [Arg.int (LogRepository.List.limit params), Arg.int params.Offset])
      (LogRepository.List.build params).argPos =
        some (Arg.int (LogRepository.List.limit params)) ∧
    (∀ db : Pool,
      (LogRepository.List db params).2.executed =
        db.executed ++ [Stmt.CountLogs (LogRepository.List.build params).conjuncts
          (LogRepository.List.build params).args] ∨
      (LogRepository.List db params).2.executed =
        db.executed ++ [Stmt.CountLogs (LogRepository.List.build params).conjuncts
          (LogRepository.List.build params).args] ++
          [Stmt.SelectLogs (LogRepository.List.build params).conjuncts
            ((LogRepository.List.build params).args ++
              [Arg.int (LogRepository.List.limit params), Arg.int params.Offset])
            (LogRepository.List.build params).argPos
            ((LogRepository.List.build params).argPos + 1)]) ∧
    LogRepository.List.limit (DashboardHandler.GetLogs.params params) =
      LogRepository.List.limit params ∧
    LogRepository.List.limit { Limit := 2000 } = 1000 ∧
    LogRepository.List.limit { Limit := 0 } = 100 ∧
    LogRepository.List.limit { Limit := -5 } = 100 := by
  refine ⟨?_, ?_, ?_, (limit_range params).1, (limit_range params).2,
    (build_limit_offset params _ _).1, fun db => List_executed db params, ?_,
    by decide, by decide, by decide⟩
  · intro h
    unfold LogRepository.List.limit
    simp only
    split_ifs <;> omega
  · intro h
    unfold LogRepository.List.limit
    simp only
    split_ifs <;> omega
  · intro h1 h2
    unfold LogRepository.List.limit
    simp only
    split_ifs <;> omega
  · unfold LogRepository.List.limit DashboardHandler.GetLogs.params
    by_cases hl : params.Limit ≤ 0
    · by_cases hp : params.Page > 0 <;> simp [hl, hp]
    · by_cases hp : params.Page > 0 <;> simp [hl, hp]

/-- Witness for C13: on the sample log a request for 2000 rows sends the count query and
then the page query with `LIMIT 1000 OFFSET 0`. -/
theorem List_limit_clamp_witness :
    (LogRepository.List logPool { Limit := 2000 }).2.executed =
      [Stmt.CountLogs [Conjunct.always] [],
       Stmt.SelectLogs [Conjunct.always] [Arg.int 1000, Arg.int 0] 1 2] :=
  ((List_limit_clamp { Limit := 2000 }).2.2.2.2.2.2.1 logPool).resolve_left (by decide)

/-- The clause built by `LogRepository.List` reads only the five filter fields. -/
theorem build_filter_only (params params' : LogQueryParams)
    (hm : params'.Method = params.Method) (hs : params'.StatusCode = params.StatusCode)
    (hp : params'.Path = params.Path) (hsd : params'.StartDate = params.StartDate)
    (hed : params'.EndDate = params.EndDate) :
    LogRepository.List.build params' = LogRepository.List.build params := by
  unfold LogRepository.List.build
  rw [hm, hs, hp, hsd, hed]

/-- C14, the defect: the page-derived offset is computed from the requested limit, not
from the limit in effect. For `GET /dashboard/logs?limit=2000&page=2` the handler hands to
the log service an offset of 2000 and a limit of 2000, and `LogRepository.List` sends
`LIMIT 1000 OFFSET 2000`, not the offset `(2 - 1) * 1000 = 1000` of the second page of
1000 rows; page 1 of the same request is `LIMIT 1000 OFFSET 0`, so rows 1000 to 1999 are
on no page. -/
theorem GetLogs_offset_ignores_clamp :
    (DashboardHandler.GetLogs.params { Limit := 2000, Page := 2 }).Offset = 2000 ∧
    LogRepository.List.limit (DashboardHandler.GetLogs.params { Limit := 2000, Page := 2 }) =
      1000 ∧
    (DashboardHandler.GetLogs.params { Limit := 2000, Page := 2 }).Offset ≠
      (2 - 1) *
        LogRepository.List.limit (DashboardHandler.GetLogs.params { Limit := 2000, Page := 2 }) ∧
    (DashboardHandler.GetLogs ({ Limit := 2000, Page := 2 }, none) logPool).2.executed =
      [Stmt.CountLogs [Conjunct.always] [],
       Stmt.SelectLogs [Conjunct.always] [Arg.int 1000, Arg.int 2000] 1 2] ∧
    (DashboardHandler.GetLogs ({ Limit := 2000, Page := 1 }, none) logPool).2.executed =
      [Stmt.CountLogs [Conjunct.always] [],
       Stmt.SelectLogs [Conjunct.always] [Arg.int 1000, Arg.int 0] 1 2] := by
  decide

/-- The offset the handler of `GET /dashboard/logs` hands on: with a positive page it is
`(Page - 1) * Limit` in Go `int` arithmetic, `Limit` being the requested limit, or 100
when that is zero or less; without a positive page it is the requested offset. It agrees
with `(Page - 1)` times the limit in effect when the requested limit is at most 1000 and
the page at most `2^32`. -/
theorem GetLogs_params_offset (params : LogQueryParams) :
    (params.Page > 0 →
      (DashboardHandler.GetLogs.params params).Offset =
        wrapInt ((params.Page - 1) * (if params.Limit ≤ 0 then 100 else params.Limit))) ∧
    (params.Page ≤ 0 → (DashboardHandler.GetLogs.params params).Offset = params.Offset) ∧
    (params.Page > 0 → params.Page ≤ 2 ^ 32 → params.Limit ≤ 1000 →
      (DashboardHandler.GetLogs.params params).Offset =
        (params.Page - 1) *
          LogRepository.List.limit (DashboardHandler.GetLogs.params params)) := by
  have hoff : params.Page > 0 →
      (DashboardHandler.GetLogs.params params).Offset =
        wrapInt ((params.Page - 1) * (if params.Limit ≤ 0 then 100 else params.Limit)) := by
    intro hp
    unfold DashboardHandler.GetLogs.params
    by_cases hl : params.Limit ≤ 0 <;> simp [hl, hp]
  refine ⟨hoff, ?_, ?_⟩
  · intro hp
    unfold DashboardHandler.GetLogs.params
    have hp' : ¬ params.Page > 0 := by omega
    by_cases hl : params.Limit ≤ 0 <;> simp [hl, hp']
  · intro hp hp32 hl
    have hlimit : LogRepository.List.limit (DashboardHandler.GetLogs.params params) =
        (if params.Limit ≤ 0 then 100 else params.Limit) := by
      unfold LogRepository.List.limit DashboardHandler.GetLogs.params
      by_cases hl0 : params.Limit ≤ 0
      · simp [hl0, hp]
      · have h1 : ¬ params.Limit > 1000 := by omega
        simp [hl0, hp, h1]
    rw [hlimit, hoff hp]
    have hbound : 0 ≤ (params.Page - 1) * (if params.Limit ≤ 0 then 100 else params.Limit) ∧
        (params.Page - 1) * (if params.Limit ≤ 0 then 100 else params.Limit) < 2 ^ 63 := by
      have h1 : (0 : Int) ≤ params.Page - 1 := by omega
      have h2 : params.Page - 1 ≤ 2 ^ 32 := by omega
      have h3 : (0 : Int) ≤ (if params.Limit ≤ 0 then 100 else params.Limit) ∧
          (if params.Limit ≤ 0 then 100 else params.Limit) ≤ 1000 := by
        split_ifs <;> omega
      constructor
      · exact mul_nonneg h1 h3.1
      · calc (params.Page - 1) * (if params.Limit ≤ 0 then 100 else params.Limit)
            ≤ 2 ^ 32 * 1000 := mul_le_mul h2 h3.2 h3.1 (by norm_num)
          _ < 2 ^ 63 := by norm_num
    unfold wrapInt
    omega

/-- C15: the total is independent of pagination. Whenever `LogRepository.List` returns
no error, its total is the number of rows of `request_logs` that satisfy the WHERE clause
built from the filter; a second call on the same store that differs only in `Limit`,
`Offset` or `Page` and returns no error returns the same total; and the page holds rows
that satisfy the clause, at most as many as the limit in effect and at most the total. -/
theorem List_total_independent (db : Pool) (params params' : LogQueryParams)
    (herr : (LogRepository.List db params).1.2.2 = none)
    (herr' : (LogRepository.List db params').1.2.2 = none)
    (hm : params'.Method = params.Method) (hs : params'.StatusCode = params.StatusCode)
    (hp : params'.Path = params.Path) (hsd : params'.StartDate = params.StartDate)
    (hed : params'.EndDate = params.EndDate) :
    (LogRepository.List db params).1.2.1 =
      ((db.request_logs.filter (whereHolds (LogRepository.List.build params).conjuncts
        (LogRepository.List.build params).args)).length : Int) ∧
    (LogRepository.List db params').1.2.1 = (LogRepository.List db params).1.2.1 ∧
    (∀ r ∈ (LogRepository.List db params).1.1,
      r ∈ db.request_logs ∧ whereHolds (LogRepository.List.build params).conjuncts
        (LogRepository.List.build params).args r = true) ∧
    ((LogRepository.List db params).1.1.length : Int) ≤ LogRepository.List.limit params ∧
    ((LogRepository.List db params).1.1.length : Int) ≤ (LogRepository.List db params).1.2.1 := by
  have hres := List_result db params
  have hres' := List_result db params'
  rw [build_filter_only params params' hm hs hp hsd hed] at hres'
  rw [hres] at herr ⊢
  rw [hres'] at herr' ⊢
  cases hc : db.countLogsErr with
  | some e => rw [hc] at herr; simp at herr
  | none =>
    rw [hc] at herr herr'
    cases hsel : db.selectLogsErr with
    | some e => rw [hsel] at herr; simp at herr
    | none =>
      rw [hsel] at herr herr'
      simp only at herr herr' ⊢
      by_cases hoff : 0 ≤ params.Offset
      · by_cases hoff' : 0 ≤ params'.Offset
        · rw [if_pos hoff, if_pos hoff']
          simp only
          refine ⟨trivial, trivial, ?_, ?_, ?_⟩
          · intro r hr
            have h1 := List.mem_of_mem_drop (List.mem_of_mem_take hr)
            unfold newestFirst at h1
            have h2 := (List.perm_insertionSort _ _).mem_iff.mp h1
            rw [List.mem_filter] at h2
            exact h2
          · have hl := (limit_range params).1
            rw [List.length_take]
            omega
          · rw [List.length_take, List.length_drop]
            unfold newestFirst
            rw [List.length_insertionSort]
            omega
        · rw [if_neg hoff'] at herr'; simp at herr'
      · rw [if_neg hoff] at herr; simp at herr

/-- Witness for C15: on the sample log, a request for one row from offset 1 and a request
for the default page both report the total 2, and the first page holds one row. -/
theorem List_total_independent_witness :
    (LogRepository.List logPool { Limit := 1, Offset := 1 }).1.2.1 = 2 ∧
    (LogRepository.List logPool { }).1.2.1 =
      (LogRepository.List logPool { Limit := 1, Offset := 1 }).1.2.1 ∧
    (LogRepository.List logPool { Limit := 1, Offset := 1 }).1.1 =
      [sampleLog 1 "/hello" 200 10 1000] :=
  ⟨(List_total_independent logPool { Limit := 1, Offset := 1 } { } (by decide) (by decide)
      rfl rfl rfl rfl rfl).1.trans (by decide),
   (List_total_independent logPool { Limit := 1, Offset := 1 } { } (by decide) (by decide)
      rfl rfl rfl rfl rfl).2.1,
   by decide⟩

/-- C16: conjunctive filter of `LogRepository.List`. A row satisfies the WHERE clause built
from the filter if and only if it satisfies the constraint of every field that is
present: its method equals `Method` when that is non-empty, its status code equals
`StatusCode` when that is positive, its path matches the `LIKE` pattern `%Path%` when
`Path` is non-empty, its `created_at` is at or after `StartDate` when that is non-zero
and at or before `EndDate` when that is non-zero. Absent fields add no conjunct, and
with all fields absent every row satisfies the clause. The count query counts exactly
these rows. -/
theorem List_filter_conjunctive (params : LogQueryParams) (row : RequestLog) :
    (whereHolds (LogRepository.List.build params).conjuncts
        (LogRepository.List.build params).args row = true ↔
      (params.Method ≠ [] → row.Method = params.Method) ∧
      (params.StatusCode > 0 → row.StatusCode = params.StatusCode) ∧
      (params.Path ≠ [] → sqlLike (lit "%" ++ params.Path ++ lit "%") row.Path = true) ∧
      (params.StartDate ≠ 0 → row.CreatedAt ≥ params.StartDate) ∧
      (params.EndDate ≠ 0 → row.CreatedAt ≤ params.EndDate)) ∧
    (params.Method = [] → params.StatusCode ≤ 0 → params.Path = [] → params.StartDate = 0 →
      params.EndDate = 0 →
      LogRepository.List.build params = { conjuncts := [Conjunct.always], args := [], argPos := 1 } ∧
      whereHolds (LogRepository.List.build params).conjuncts
        (LogRepository.List.build params).args row = true) ∧
    (∀ db : Pool, db.countLogsErr = none →
      db.queryCount (LogRepository.List.build params).conjuncts
        (LogRepository.List.build params).args =
        (((db.request_logs.filter (whereHolds (LogRepository.List.build params).conjuncts
          (LogRepository.List.build params).args)).length : Int), none)) := by
  have hspec := (build_spec params).2.2 row
  have hiff : whereHolds (LogRepository.List.build params).conjuncts
        (LogRepository.List.build params).args row = true ↔
      (params.Method ≠ [] → row.Method = params.Method) ∧
      (params.StatusCode > 0 → row.StatusCode = params.StatusCode) ∧
      (params.Path ≠ [] → sqlLike (lit "%" ++ params.Path ++ lit "%") row.Path = true) ∧
      (params.StartDate ≠ 0 → row.CreatedAt ≥ params.StartDate) ∧
      (params.EndDate ≠ 0 → row.CreatedAt ≤ params.EndDate) := by
    rw [hspec]
    simp only [Bool.true_and, Bool.and_eq_true, Bool.or_eq_true, Bool.not_eq_true',
      decide_eq_false_iff_not, decide_eq_true_eq, beq_iff_eq, and_assoc, ← imp_iff_not_or]
  refine ⟨hiff, ?_, ?_⟩
  · intro h1 h2 h3 h4 h5
    refine ⟨?_, ?_⟩
    · unfold LogRepository.List.build WhereClause.add
      have h2' : ¬ params.StatusCode > 0 := by omega
      simp [h1, h2', h3, h4, h5]
    · rw [hiff]
      have h2' : ¬ params.StatusCode > 0 := by omega
      exact ⟨fun h => absurd h1 h, fun h => absurd h h2', fun h => absurd h3 h,
        fun h => absurd h4 h, fun h => absurd h5 h⟩
  · intro db hdb
    have hw0 := (build_append params []).1
    rw [List.append_nil] at hw0
    unfold Pool.queryCount
    rw [hdb]
    simp only [hw0, if_true]

/-- Witness for C16: with method `GET`, status 500 and a start date of 1500, the request
answered 500 at instant 2000 satisfies the clause and the one answered 200 at instant
1000 does not. -/
theorem List_filter_conjunctive_witness :
    whereHolds
      (LogRepository.List.build { Method := lit "GET", StatusCode := 500, StartDate := 1500 }).conjuncts
      (LogRepository.List.build { Method := lit "GET", StatusCode := 500, StartDate := 1500 }).args
      (sampleLog 2 "/dashboard" 500 20 2000) = true ∧
    ¬ whereHolds
      (LogRepository.List.build { Method := lit "GET", StatusCode := 500, StartDate := 1500 }).conjuncts
      (LogRepository.List.build { Method := lit "GET", StatusCode := 500, StartDate := 1500 }).args
      (sampleLog 1 "/hello" 200 10 1000) = true :=
  ⟨(List_filter_conjunctive { Method := lit "GET", StatusCode := 500, StartDate := 1500 }
      (sampleLog 2 "/dashboard" 500 20 2000)).1.mpr (by decide),
   fun h => absurd (((List_filter_conjunctive
      { Method := lit "GET", StatusCode := 500, StartDate := 1500 }
      (sampleLog 1 "/hello" 200 10 1000)).1.mp h).2.1 (by decide)) (by decide)⟩

/-- The pattern `[]` matches the empty text only, and `%` matches every text. -/
theorem sqlLike_percent (text : GoString) : sqlLike [37] text = true := by
  simp only [sqlLike, if_true, List.any_eq_true]
  exact ⟨[], by simp, rfl⟩

/-- A pattern of literal bytes followed by `%` matches the texts that start with it. -/
theorem sqlLike_literal (p text : GoString)
    (hp : ∀ b ∈ p, b ≠ 37 ∧ b ≠ 95 ∧ b ≠ 92) :
    sqlLike (p ++ [37]) text = true ↔ p <+: text := by
  induction p generalizing text with
  | nil => simp [sqlLike_percent]
  | cons b ps ih =>
    have hb := hp b (List.mem_cons_self b ps)
    have ih' := fun t => ih t (fun x hx => hp x (List.mem_cons_of_mem b hx))
    cases text with
    | nil =>
      rw [List.cons_append]
      unfold sqlLike
      simp [hb.1, hb.2.1, hb.2.2]
    | cons x t =>
      rw [List.cons_append]
      unfold sqlLike
      simp only [hb.1, hb.2.1, hb.2.2, if_false, Bool.and_eq_true, beq_iff_eq, ih' t,
        List.cons_prefix_cons]
      constructor
      · rintro ⟨h1, h2⟩; exact ⟨h1.symm, h2⟩
      · rintro ⟨h1, h2⟩; exact ⟨h1.symm, h2⟩

/-- A filter string without `%`, `_` and backslash is matched as a substring. -/
theorem sqlLike_substring (p path : GoString)
    (hp : ∀ b ∈ p, b ≠ 37 ∧ b ≠ 95 ∧ b ≠ 92) :
    sqlLike (lit "%" ++ p ++ lit "%") path = true ↔ p <:+: path := by
  have h1 : lit "%" ++ p ++ lit "%" = 37 :: (p ++ [37]) := by
    have : lit "%" = [37] := by decide
    rw [this]; simp
  rw [h1]
  unfold sqlLike
  simp only [if_true, List.any_eq_true, List.mem_tails]
  rw [List.infix_iff_prefix_suffix]
  constructor
  · rintro ⟨t, ht, hm⟩
    exact ⟨t, (sqlLike_literal p t hp).mp hm, ht⟩
  · rintro ⟨t, hpre, hsuf⟩
    exact ⟨t, hsuf, (sqlLike_literal p t hp).mpr hpre⟩

/-- C17, the defect: the path filter is a `LIKE` pattern, not a substring test. With the
filter `_` the row with path `/hello` satisfies the path constraint although `_` does not
occur in `/hello`, and with the filter `h%o` it does although `h%o` does not occur in it;
`LogRepository.List` counts both sample rows for the filter `_`, none of whose paths
contains it. -/
theorem path_filter_wildcards :
    (whereHolds (LogRepository.List.build { Path := lit "_" }).conjuncts
        (LogRepository.List.build { Path := lit "_" }).args
        (sampleLog 1 "/hello" 200 10 1000) = true ∧
      ¬ lit "_" <:+: (sampleLog 1 "/hello" 200 10 1000).Path) ∧
    (whereHolds (LogRepository.List.build { Path := lit "h%o" }).conjuncts
        (LogRepository.List.build { Path := lit "h%o" }).args
        (sampleLog 1 "/hello" 200 10 1000) = true ∧
      ¬ lit "h%o" <:+: (sampleLog 1 "/hello" 200 10 1000).Path) ∧
    (LogRepository.List logPool { Path := lit "_" }).1.2.1 = 2 ∧
    (∀ r ∈ logPool.request_logs, ¬ lit "_" <:+: r.Path) := by
  decide

/-! ## Statistics -/

/-- The statements `LogRepository.GetStats` sends start with the totals query on its
window. -/
theorem GetStats_first_statement (db : Pool) (startDate endDate : Time) :
    ∃ rest, (LogRepository.GetStats db startDate endDate).2.executed =
      db.executed ++ Stmt.StatsTotals startDate endDate :: rest := by
  unfold LogRepository.GetStats Pool.record
  simp only
  split_ifs
  · exact ⟨[], rfl⟩
  · split
    · exact ⟨[Stmt.StatsStatusCodes startDate endDate], by simp⟩
    · split
      · exact ⟨[Stmt.StatsStatusCodes startDate endDate, Stmt.StatsPaths startDate endDate],
          by simp⟩
      · split
        · exact ⟨[Stmt.StatsStatusCodes startDate endDate, Stmt.StatsPaths startDate endDate,
            Stmt.StatsMethods startDate endDate], by simp⟩
        · exact ⟨[Stmt.StatsStatusCodes startDate endDate, Stmt.StatsPaths startDate endDate,
            Stmt.StatsMethods startDate endDate], by simp⟩

/-- C18, counterexample: with an end bound unset and a start bound set, the window is not
the trailing 7 days. At instant `20000` days, a start of `19999` days and a zero end give
the window from `19999` days to `20000` days, one day long, and that window is what the
totals query receives. -/
theorem stats_window_not_trailing_week :
    LogService.GetStats.window (20000 * Day) (20000 * Day) (19999 * Day) 0 =
      (19999 * Day, 20000 * Day) ∧
    LogService.GetStats.window (20000 * Day) (20000 * Day) (19999 * Day) 0 ≠
      (20000 * Day - 7 * Day, 20000 * Day) ∧
    (LogService.GetStats logPool (20000 * Day) (20000 * Day) (19999 * Day) 0).2.executed.head? =
      some (Stmt.StatsTotals (19999 * Day) (20000 * Day)) := by
  decide

/-- C18, amended: each bound of the statistics window is defaulted on its own. An unset
(zero) start becomes seven days before the clock reading and an unset end becomes the
clock reading, a set bound is kept: the window is the trailing 7 days when both bounds
are unset, exactly the given window when both are set, from the given start to now when
only the end is unset, and from seven days ago to the given end when only the start is
unset. That window is what `LogService.GetStats` hands to the repository, whose first
statement carries it. -/
theorem stats_window_defaults (now₁ now₂ startDate endDate : Time) :
    LogService.GetStats.window now₁ now₂ startDate endDate =
      (if startDate = 0 then now₁ - 7 * Day else startDate,
       if endDate = 0 then now₂ else endDate) ∧
    (startDate = 0 → endDate = 0 →
      LogService.GetStats.window now₁ now₂ startDate endDate = (now₁ - 7 * Day, now₂)) ∧
    (startDate ≠ 0 → endDate ≠ 0 →
      LogService.GetStats.window now₁ now₂ startDate endDate = (startDate, endDate)) ∧
    (startDate ≠ 0 → endDate = 0 →
      LogService.GetStats.window now₁ now₂ startDate endDate = (startDate, now₂)) ∧
    (startDate = 0 → endDate ≠ 0 →
      LogService.GetStats.window now₁ now₂ startDate endDate = (now₁ - 7 * Day, endDate)) ∧
    (∀ db : Pool,
      LogService.GetStats db now₁ now₂ startDate endDate =
        LogRepository.GetStats db (LogService.GetStats.window now₁ now₂ startDate endDate).1
          (LogService.GetStats.window now₁ now₂ startDate endDate).2 ∧
      ∃ rest, (LogService.GetStats db now₁ now₂ startDate endDate).2.executed =
        db.executed ++
          Stmt.StatsTotals (LogService.GetStats.window now₁ now₂ startDate endDate).1
            (LogService.GetStats.window now₁ now₂ startDate endDate).2 :: rest) := by
  have hw : LogService.GetStats.window now₁ now₂ startDate endDate =
      (if startDate = 0 then now₁ - 7 * Day else startDate,
       if endDate = 0 then now₂ else endDate) := by
    unfold LogService.GetStats.window Time.AddDays
    simp only
    split_ifs <;> simp <;> ring
  refine ⟨hw, ?_, ?_, ?_, ?_, fun db => ⟨rfl, GetStats_first_statement db _ _⟩⟩
  · intro h1 h2; rw [hw, if_pos h1, if_pos h2]
  · intro h1 h2; rw [hw, if_neg h1, if_neg h2]
  · intro h1 h2; rw [hw, if_neg h1, if_pos h2]
  · intro h1 h2; rw [hw, if_pos h1, if_neg h2]

/-- The result of `LogRepository.GetStats` when the pool answers its four queries: the
count and the mean of the rows of the window (0 for no rows), the map filled from the
status-code rows, and the path and method rows. -/
theorem GetStats_answered (db : Pool) (startDate endDate : Time)
    (h1 : db.statsTotalsErr = none) (h2 : db.statsStatusCodesErr = none)
    (h3 : db.statsPathsErr = none) (h4 : db.statsMethodsErr = none) :
    (LogRepository.GetStats db startDate endDate).1 =
      (some
        { TotalRequests := ((db.inWindow startDate endDate).length : Int)
          AverageResponseTime :=
            if db.inWindow startDate endDate = [] then 0
            else (((db.inWindow startDate endDate).map (fun r => r.ResponseTime)).sum : ℚ) /
              ((db.inWindow startDate endDate).length : ℚ)
          StatusCodes := some
            ((groupCount ((db.inWindow startDate endDate).map (fun r => r.StatusCode))).foldl
              (fun m row => mapSet m row.1 row.2) [])
          TopPaths :=
            ((groupCount ((db.inWindow startDate endDate).map (fun r => r.Path))).take 10).map
              (fun row => PathCount.mk row.1 row.2)
          TopMethods :=
            (groupCount ((db.inWindow startDate endDate).map (fun r => r.Method))).map
              (fun row => MethodCount.mk row.1 row.2) }, none) := by
  unfold LogRepository.GetStats Pool.queryTotals Pool.queryStatusCodes Pool.queryPaths
    Pool.queryMethods
  rw [h1, h2, h3, h4]
  by_cases hrows : db.inWindow startDate endDate = []
  · simp [hrows]
  · simp [hrows]

/-- Grouping no rows gives no rows. -/
theorem groupCount_nil {κ : Type} [DecidableEq κ] : groupCount ([] : List κ) = [] := by
  simp [groupCount]

/-- C19: statistics over an empty window. When no row of `request_logs` has its
`created_at` in the window and the pool answers the four queries, `LogRepository.GetStats`
returns no error and the snapshot with `TotalRequests = 0`, `AverageResponseTime = 0`, an
empty non-nil `StatusCodes` map, and no top paths and no top methods. -/
theorem GetStats_empty_window (db : Pool) (startDate endDate : Time)
    (h1 : db.statsTotalsErr = none) (h2 : db.statsStatusCodesErr = none)
    (h3 : db.statsPathsErr = none) (h4 : db.statsMethodsErr = none)
    (hempty : ∀ r ∈ db.request_logs, ¬ (startDate ≤ r.CreatedAt ∧ r.CreatedAt ≤ endDate)) :
    (LogRepository.GetStats db startDate endDate).1 =
      (some { TotalRequests := 0, AverageResponseTime := 0, StatusCodes := some [],
              TopPaths := [], TopMethods := [] }, none) := by
  have hrows : db.inWindow startDate endDate = [] := by
    unfold Pool.inWindow
    rw [List.filter_eq_nil_iff]
    intro r hr
    have := hempty r hr
    simpa using this
  rw [GetStats_answered db startDate endDate h1 h2 h3 h4, hrows]
  simp [groupCount_nil]

/-- Witness for C19: the sample log has no request between the instants 3000 and 4000, and
the snapshot of that window is empty. -/
theorem GetStats_empty_window_witness :
    (LogRepository.GetStats logPool 3000 4000).1 =
      (some { TotalRequests := 0, AverageResponseTime := 0, StatusCodes := some [],
              TopPaths := [], TopMethods := [] }, none) :=
  GetStats_empty_window logPool 3000 4000 rfl rfl rfl rfl (by decide)

/-- Assigning rows with distinct keys to a map appends them to its entries. -/
theorem foldl_mapSet (rows acc : List (Int × Int))
    (h : ((acc ++ rows).map Prod.fst).Nodup) :
    rows.foldl (fun m row => mapSet m row.1 row.2) acc = acc ++ rows := by
  induction rows generalizing acc with
  | nil => simp
  | cons row t ih =>
    have hk : row.1 ∉ acc.map Prod.fst := by
      rw [List.map_append, List.map_cons] at h
      have h' := List.nodup_append.mp h
      intro hmem
      exact h'.2.2 hmem (List.mem_cons_self _ _) 
    have hset : mapSet acc row.1 row.2 = acc ++ [row] := by
      unfold mapSet
      rw [List.filter_eq_self.mpr]
      intro e he
      have : e.1 ≠ row.1 := fun heq => hk (heq ▸ List.mem_map_of_mem Prod.fst he)
      simpa using this
    rw [List.foldl_cons, hset, ih (acc ++ [row]) (by simpa using h)]
    simp

/-- The value of a key in a map whose keys are distinct is the value of its entry. -/
theorem mapGet_of_mem (l : List (Int × Int)) (hnd : (l.map Prod.fst).Nodup) (k v : Int)
    (h : (k, v) ∈ l) : mapGet l k = some v := by
  induction l with
  | nil => simp at h
  | cons e t ih =>
    rw [List.map_cons, List.nodup_cons] at hnd
    unfold mapGet
    by_cases hek : e.1 = k
    · have hev : e = (k, v) := by
        rcases List.mem_cons.mp h with h' | h'
        · exact h'.symm
        · exact absurd (hek ▸ List.mem_map_of_mem Prod.fst h' : e.1 ∈ t.map Prod.fst) hnd.1
      simp [hev]
    · have ht : (k, v) ∈ t := by
        rcases List.mem_cons.mp h with h' | h'
        · exact absurd (by rw [← h']) hek
        · exact h'
      have := ih hnd.2 ht
      unfold mapGet at this
      simp [List.find?_cons, hek, this]

/-- A key that is not among the keys of a map has no value. -/
theorem mapGet_none (l : List (Int × Int)) (k : Int) (h : k ∉ l.map Prod.fst) :
    mapGet l k = none := by
  unfold mapGet
  rw [Option.map_eq_none', List.find?_eq_none]
  intro e he
  have : e.1 ≠ k := fun heq => h (heq ▸ List.mem_map_of_mem Prod.fst he)
  simpa using this

/-- The rows of a grouping: one row per distinct key, each with the number of occurrences
of its key, the counts adding up to the number of grouped rows. -/
theorem groupCount_spec {κ : Type} [DecidableEq κ] (keys : List κ) :
    ((groupCount keys).map Prod.fst).Nodup ∧
    (∀ k v, (k, v) ∈ groupCount keys ↔ k ∈ keys ∧ v = (keys.count k : Int)) ∧
    ((groupCount keys).map Prod.snd).sum = (keys.length : Int) := by
  have hperm := List.perm_insertionSort (fun a b : κ × Int => a.2 ≥ b.2)
    (keys.dedup.map (fun k => (k, (keys.count k : Int))))
  refine ⟨?_, ?_, ?_⟩
  · unfold groupCount
    rw [(hperm.map Prod.fst).nodup_iff, List.map_map]
    have : (Prod.fst ∘ fun k => (k, (keys.count k : Int))) = id := rfl
    rw [this, List.map_id]
    exact List.nodup_dedup keys
  · intro k v
    unfold groupCount
    rw [hperm.mem_iff, List.mem_map]
    constructor
    · rintro ⟨k', hk', heq⟩
      simp only [Prod.mk.injEq] at heq
      obtain ⟨h1, h2⟩ := heq
      subst h1
      exact ⟨List.mem_dedup.mp hk', h2.symm⟩
    · rintro ⟨hk, hv⟩
      exact ⟨k, List.mem_dedup.mpr hk, by rw [hv]⟩
  · unfold groupCount
    rw [(hperm.map Prod.snd).sum_eq, List.map_map]
    have : (Prod.snd ∘ fun k => (k, (keys.count k : Int))) =
        (fun n : Nat => (n : Int)) ∘ (fun k => keys.count k) := rfl
    rw [this, ← List.map_map, ← Nat.cast_list_sum, List.sum_map_count_dedup_eq_length]

/-- C20: statistics aggregate the full matching set. When the pool answers the four
queries, `LogRepository.GetStats` returns no error and a snapshot whose `TotalRequests` is
the number of rows of `request_logs` with `startDate <= created_at <= endDate`, whose
`AverageResponseTime` is the sum of their latencies divided by their number (0 when
there is none), and whose `StatusCodes` map has one entry per status code occurring
among those rows, its value being the number of those rows with that code; the values of
the map add up to `TotalRequests`. -/
theorem GetStats_aggregates (db : Pool) (startDate endDate : Time)
    (h1 : db.statsTotalsErr = none) (h2 : db.statsStatusCodesErr = none)
    (h3 : db.statsPathsErr = none) (h4 : db.statsMethodsErr = none) :
    ∃ stats codes,
      (LogRepository.GetStats db startDate endDate).1 = (some stats, none) ∧
      stats.StatusCodes = some codes ∧
      (∀ r, r ∈ db.inWindow startDate endDate ↔
        r ∈ db.request_logs ∧ startDate ≤ r.CreatedAt ∧ r.CreatedAt ≤ endDate) ∧
      stats.TotalRequests = ((db.inWindow startDate endDate).length : Int) ∧
      (db.inWindow startDate endDate ≠ [] →
        stats.AverageResponseTime =
          (((db.inWindow startDate endDate).map (fun r => r.ResponseTime)).sum : ℚ) /
            ((db.inWindow startDate endDate).length : ℚ)) ∧
      (db.inWindow startDate endDate = [] → stats.AverageResponseTime = 0) ∧
      (∀ code : Int,
        mapGet codes code =
          if 0 < (db.inWindow startDate endDate).countP (fun r => r.StatusCode == code) then
            some (((db.inWindow startDate endDate).countP
              (fun r => r.StatusCode == code) : Nat) : Int)
          else none) ∧
      (codes.map Prod.fst).Nodup ∧
      (codes.map Prod.snd).sum = stats.TotalRequests := by
  have hg := groupCount_spec ((db.inWindow startDate endDate).map (fun r => r.StatusCode))
  have hfold := foldl_mapSet
    (groupCount ((db.inWindow startDate endDate).map (fun r => r.StatusCode))) []
    (by simpa using hg.1)
  rw [List.nil_append] at hfold
  have hcount : ∀ code : Int,
      ((db.inWindow startDate endDate).map (fun r => r.StatusCode)).count code =
        (db.inWindow startDate endDate).countP (fun r => r.StatusCode == code) := by
    intro code
    rw [List.count, List.countP_map]
    rfl
  refine ⟨_, _, GetStats_answered db startDate endDate h1 h2 h3 h4, rfl, ?_, rfl, ?_, ?_,
    ?_, ?_, ?_⟩
  · intro r
    unfold Pool.inWindow
    simp [List.mem_filter]
  · intro hne
    simp only [hne, if_false]
  · intro he
    simp only [he, if_true]
  · intro code
    rw [hfold, ← hcount code]
    by_cases hmem : code ∈ (db.inWindow startDate endDate).map (fun r => r.StatusCode)
    · rw [if_pos (List.count_pos_iff.mpr hmem)]
      exact mapGet_of_mem _ hg.1 code _ ((hg.2.1 code _).mpr ⟨hmem, rfl⟩)
    · rw [if_neg (fun h => hmem (List.count_pos_iff.mp h))]
      apply mapGet_none
      intro hk
      obtain ⟨e, he, hek⟩ := List.mem_map.mp hk
      have := (hg.2.1 e.1 e.2).mp he
      exact hmem (hek ▸ this.1)
  · rw [hfold]
    exact hg.1
  · rw [hfold, hg.2.2]
    simp

/-- Witness for C20: over a window that holds both sample requests, answered 200 in 10 ms
and 500 in 20 ms, the snapshot has a total of 2, a mean of 15 ms and the map
`{200: 1, 500: 1}`. -/
theorem GetStats_aggregates_witness :
    ∃ stats codes,
      (LogRepository.GetStats logPool 0 5000).1 = (some stats, none) ∧
      stats.StatusCodes = some codes ∧
      stats.TotalRequests = 2 ∧ stats.AverageResponseTime = 15 ∧
      mapGet codes 200 = some 1 ∧ mapGet codes 500 = some 1 ∧ mapGet codes 404 = none ∧
      (codes.map Prod.snd).sum = 2 := by
  obtain ⟨stats, codes, hres, hcodes, -, htotal, havg, -, hmap, -, hsum⟩ :=
    GetStats_aggregates logPool 0 5000 rfl rfl rfl rfl
  have hrows : logPool.inWindow 0 5000 =
      [sampleLog 1 "/hello" 200 10 1000, sampleLog 2 "/dashboard" 500 20 2000] := by decide
  rw [hrows] at htotal havg hmap
  refine ⟨stats, codes, hres, hcodes, by simpa using htotal, ?_, ?_, ?_, ?_, ?_⟩
  · rw [havg (by simp)]
    simp [sampleLog]
    norm_num
  · exact (hmap 200).trans (by decide)
  · exact (hmap 500).trans (by decide)
  · exact (hmap 404).trans (by decide)
  · rw [hsum, htotal]; rfl

/-! ## The chains of the router -/

/-- A handler body that only calls `c.Next()`, started in a fresh world, runs the handlers
that follow and leaves the chain index past them. -/
theorem run_Next (next : World → World) (w : World)
    (h1 : w.c.Aborted = false) (h2 : w.c.Finished = false) :
    w.run next [Call.Next] = { next w with c := { (next w).c with Finished := true } } := by
  simp [World.run, World.call, h1, h2]

/-- A handler body that writes a response and aborts changes the context only. -/
theorem run_reject (next : World → World) (w : World) (r : Call) (hr : r ≠ Call.Next)
    (hp : w.panicking = false) :
    w.run next [r, Call.Abort] =
      { w with c := { (Context.call id (w.c, 0) r).1 with Aborted := true } } := by
  cases r <;> simp_all [World.run, World.call, Context.call]

/-- The three middlewares in front of a chain, in a fresh world: the rest of the chain
runs; a panic in it is answered with status 500 and leaves no log entry, otherwise one
log entry is handed to a goroutine. -/
theorem Next_middleware (env : Env) (rest : List Handler) (w : World) (hw : w.fresh) :
    World.Next env (Handler.Logger :: Handler.Recovery :: Handler.RequestLogger :: rest) w =
      if (World.Next env rest w).panicking then
        { World.Next env rest w with
          panicking := false,
          c := { (World.Next env rest w).c with
            Status := StatusInternalServerError, Aborted := true, Finished := true } }
      else
        { World.Next env rest w with
          c := { (World.Next env rest w).c with Finished := true },
          spawned := (World.Next env rest w).spawned ++
            [RequestLogger.logEntry (World.Next env rest w).c env.responseTime env.now] } := by
  obtain ⟨hp, h1, h2⟩ := hw
  have hlog : ∀ c : Context, RequestLogger.logEntry { c with Finished := true }
      env.responseTime env.now = RequestLogger.logEntry c env.responseTime env.now := by
    intro c; rfl
  simp only [World.Next, World.exec, run_Next _ _ h1 h2]
  by_cases hq : (World.Next env rest w).panicking = true
  · simp [hq]
  · simp [hq, hlog]

/-- A handler body hands no log entry to a goroutine when the handlers that follow hand
none. -/
theorem run_spawned (next : World → World) (hnext : ∀ w, (next w).spawned = w.spawned)
    (calls : List Call) : ∀ w : World, (w.run next calls).spawned = w.spawned := by
  induction calls with
  | nil => intro w; rfl
  | cons call rest ih =>
    intro w
    have hcall : (w.call next call).spawned = w.spawned := by
      cases call <;> simp only [World.call]
      split
      · rfl
      · exact hnext w
    simp only [World.run]
    split
    · exact hcall
    · rw [ih, hcall]

/-- Only `RequestLogger` hands log entries to goroutines. -/
theorem exec_spawned (env : Env) (next : World → World)
    (hnext : ∀ w, (next w).spawned = w.spawned) (h : Handler)
    (hh : h ≠ Handler.RequestLogger) (w : World) :
    (w.exec env next h).spawned = w.spawned := by
  cases h <;> simp only [World.exec]
  case RequestLogger => exact absurd rfl hh
  case Recovery =>
    split
    · exact run_spawned next hnext _ w
    · exact run_spawned next hnext _ w
  case DashboardPage =>
    split
    · rfl
    · rw [run_spawned next hnext]
  all_goals rw [run_spawned next hnext]

/-- A chain without `RequestLogger` hands no log entry to a goroutine. -/
theorem Next_spawned (env : Env) (handlers : List Handler)
    (hh : Handler.RequestLogger ∉ handlers) :
    ∀ w : World, (World.Next env handlers w).spawned = w.spawned := by
  induction handlers with
  | nil => intro w; rfl
  | cons h rest ih =>
    intro w
    have hrest : Handler.RequestLogger ∉ rest := fun hm => hh (List.mem_cons_of_mem _ hm)
    have hne : h ≠ Handler.RequestLogger := fun he => hh (by simp [he])
    have hexec := exec_spawned env (World.Next env rest) (ih hrest) h hne w
    simp only [World.Next]
    split
    · exact hexec
    · simp only [ih hrest, hexec]

/-- C22: request logging on the routes of `NewRouter`. The chains registered for
`GET /auth`, `POST /auth/set` and `POST /auth/clear` consist of `gin.Logger`,
`gin.Recovery` and the handler: `RequestLogger` is not part of them, because these routes
are registered before `r.Use(middleware.RequestLogger(logService))` and a route keeps the
chain it was given. Among the registered routes, `RequestLogger` is in the chain exactly
of `/api-keys`, `/dashboard`, `/dashboard/logs`, `/dashboard/stats` and `/hello`. A request
served by one of the three authentication chains, whatever its handler does, hands no log
entry to a goroutine. -/
theorem auth_routes_not_logged :
    NewRouter.chain (lit "GET") (lit "/auth") =
      some [Handler.Logger, Handler.Recovery, Handler.AuthPage] ∧
    NewRouter.chain (lit "POST") (lit "/auth/set") =
      some [Handler.Logger, Handler.Recovery, Handler.SetAuthCookie] ∧
    NewRouter.chain (lit "POST") (lit "/auth/clear") =
      some [Handler.Logger, Handler.Recovery, Handler.ClearAuthCookie] ∧
    (∀ r ∈ NewRouter.routes, Handler.RequestLogger ∈ r.handlers ↔
      r.path ∈ [lit "/api-keys", lit "/dashboard", lit "/dashboard/logs",
        lit "/dashboard/stats", lit "/hello"]) ∧
    (∀ (env : Env) (w : World),
      (World.Next env [Handler.Logger, Handler.Recovery, Handler.AuthPage] w).spawned =
        w.spawned ∧
      (World.Next env [Handler.Logger, Handler.Recovery, Handler.SetAuthCookie] w).spawned =
        w.spawned ∧
      (World.Next env [Handler.Logger, Handler.Recovery, Handler.ClearAuthCookie] w).spawned =
        w.spawned) := by
  refine ⟨by decide, by decide, by decide, by decide, fun env w => ⟨?_, ?_, ?_⟩⟩
  · exact Next_spawned env _ (by decide) w
  · exact Next_spawned env _ (by decide) w
  · exact Next_spawned env _ (by decide) w

/-! ## The key store under authorization -/

/-- The pool `ValidateKey` leaves: the pool after the lookup when the lookup erred or found
nothing, and the pool `UpdateLastUsed` leaves after the lookup otherwise. -/
theorem ValidateKey_pool (db : Pool) (now : Time) (key : GoString) :
    (APIKeyService.ValidateKey db now key).2 =
      match (APIKeyRepository.FindByKey db key).1 with
      | (some _, none) =>
        (APIKeyRepository.UpdateLastUsed (db.record (Stmt.SelectKey key)) now key).2
      | _ => db.record (Stmt.SelectKey key) := by
  have hpool := FindByKey_pool db key
  unfold APIKeyService.ValidateKey
  rcases hF : APIKeyRepository.FindByKey db key with ⟨⟨a, e⟩, db1⟩
  rw [hF] at hpool
  simp only at hpool
  subst hpool
  cases a <;> cases e <;> rfl

/-- The pool after the master-key gate is the pool before it, or the pool the handlers
that follow left. -/
theorem MasterKeyAuth_pool (env : Env) (next : World → World) (w : World) :
    (w.exec env next Handler.MasterKeyAuth).db = w.db ∨
    (w.exec env next Handler.MasterKeyAuth).db = (next w).db := by
  simp only [World.exec]
  rcases MasterKeyAuth_shape env.masterKey w.c with h | ⟨r, hr, h⟩
  · rw [h]
    simp only [World.run, World.call]
    by_cases hc : (w.c.Aborted || w.c.Finished) = true
    · left; simp [hc]
    · right; simp [hc]
  · rw [h]
    left
    cases r <;> simp only [World.run, World.call] <;> first | exact absurd rfl hr | skip
    all_goals split <;> rfl

/-- C23: `last_used_at` changes only on successful authorization. When `FindByKey` returned
an active record without error, `ValidateKey` sends exactly two statements, the lookup and
one `UpdateLastUsed` for the presented token, and the rows of `api_keys` afterwards are
the rows before with `last_used_at` set on the rows of that token (or the rows before,
when the UPDATE failed). When the lookup erred or found nothing, the lookup is the only
statement sent, no `UpdateLastUsed` among them, and the key store is unchanged. The
master-key gate takes no pool: the pool after it is the pool before it, or the pool the
handlers that follow left. -/
theorem ValidateKey_store_frame (db : Pool) (now : Time) (key : GoString) :
    (∀ r, (APIKeyRepository.FindByKey db key).1 = (some r, none) →
      (APIKeyService.ValidateKey db now key).2.executed =
        db.executed ++ [Stmt.SelectKey key, Stmt.UpdateLastUsed now key] ∧
      ((APIKeyService.ValidateKey db now key).2.api_keys =
          db.api_keys.map (fun row =>
            if row.Key == key then { row with LastUsedAt := some now } else row) ∨
        (APIKeyService.ValidateKey db now key).2.api_keys = db.api_keys)) ∧
    ((APIKeyRepository.FindByKey db key).1.2 ≠ none ∨
        (APIKeyRepository.FindByKey db key).1.1 = none →
      (APIKeyService.ValidateKey db now key).2 = db.record (Stmt.SelectKey key) ∧
      (APIKeyService.ValidateKey db now key).2.executed = db.executed ++ [Stmt.SelectKey key] ∧
      (APIKeyService.ValidateKey db now key).2.api_keys = db.api_keys) ∧
    (∀ (env : Env) (next : World → World) (w : World),
      (w.exec env next Handler.MasterKeyAuth).db = w.db ∨
      (w.exec env next Handler.MasterKeyAuth).db = (next w).db) := by
  have hpool := ValidateKey_pool db now key
  refine ⟨?_, ?_, MasterKeyAuth_pool⟩
  · intro r hr
    rw [hr] at hpool
    simp only at hpool
    rw [hpool]
    unfold APIKeyRepository.UpdateLastUsed Pool.record
    cases db.updateKeyErr with
    | some e => exact ⟨by simp, Or.inr rfl⟩
    | none => exact ⟨by simp, Or.inl rfl⟩
  · intro hne
    have h : (APIKeyService.ValidateKey db now key).2 = db.record (Stmt.SelectKey key) := by
      rw [hpool]
      rcases hF : (APIKeyRepository.FindByKey db key).1 with ⟨a, e⟩
      cases a with
      | none => cases e <;> rfl
      | some r =>
        cases e with
        | none => rw [hF] at hne; simp at hne
        | some e => rfl
    exact ⟨h, by rw [h]; rfl, by rw [h]; rfl⟩

/-- Witness for C23: for the issued key the lookup and one UPDATE for that key are sent and
its row is stamped; for the revoked key only the lookup is sent and the rows are as
before. -/
theorem ValidateKey_store_frame_witness :
    (APIKeyService.ValidateKey samplePool 200 (lit "0123456789abcdef")).2.executed =
      [Stmt.SelectKey (lit "0123456789abcdef"),
        Stmt.UpdateLastUsed 200 (lit "0123456789abcdef")] ∧
    (APIKeyService.ValidateKey samplePool 200 (lit "fedcba9876543210")).2.executed =
      [Stmt.SelectKey (lit "fedcba9876543210")] ∧
    (APIKeyService.ValidateKey samplePool 200 (lit "fedcba9876543210")).2.api_keys =
      samplePool.api_keys :=
  ⟨((ValidateKey_store_frame samplePool 200 (lit "0123456789abcdef")).1 sampleKey
      (by decide)).1,
   ((ValidateKey_store_frame samplePool 200 (lit "fedcba9876543210")).2.1 (by decide)).2.1,
   ((ValidateKey_store_frame samplePool 200 (lit "fedcba9876543210")).2.1 (by decide)).2.2⟩

/-! ## Placeholders and arguments of the log queries -/

/-- A run of the tests of `LogRepository.List`: the present fields append their conjuncts
with consecutive placeholders, and their arguments in the same order. -/
theorem foldl_add (fs : List (Bool × (Nat → Conjunct) × Arg)) :
    ∀ w : WhereClause,
      fs.foldl (fun w f => w.add f.1 f.2.1 f.2.2) w =
        { conjuncts := w.conjuncts ++
            ((fs.filter (fun f => f.1)).enumFrom w.argPos).map (fun p => p.2.2.1 p.1),
          args := w.args ++ (fs.filter (fun f => f.1)).map (fun f => f.2.2),
          argPos := w.argPos + (fs.filter (fun f => f.1)).length } := by
  induction fs with
  | nil => intro w; simp
  | cons f rest ih =>
    intro w
    rw [List.foldl_cons, ih]
    cases hf : f.1 with
    | false => simp [WhereClause.add, hf]
    | true =>
      simp [WhereClause.add, hf, List.enumFrom]
      omega

/-- The query of `LogRepository.List` is the run of its five tests over the filter fields. -/
theorem build_eq_foldl (params : LogQueryParams) :
    LogRepository.List.build params =
      (filterFields params).foldl (fun w f => w.add f.1 f.2.1 f.2.2)
        { conjuncts := [Conjunct.always], args := [], argPos := 1 } := rfl

/-- Conjuncts numbered in order use consecutive placeholders. -/
theorem placeholder_enumFrom (fs : List (Bool × (Nat → Conjunct) × Arg))
    (h : ∀ f ∈ fs, ∀ k, (f.2.1 k).placeholder = some k) :
    ∀ start : Nat, (fs.enumFrom start).map (fun p => (p.2.2.1 p.1).placeholder) =
      (List.range' start fs.length).map some := by
  induction fs with
  | nil => intro start; rfl
  | cons f rest ih =>
    intro start
    simp only [List.enumFrom, List.map_cons, List.length_cons, List.range'_succ]
    rw [h f (List.mem_cons_self _ _), ih (fun g hg => h g (List.mem_cons_of_mem _ hg))]

/-- C27: placeholders and arguments of the queries of `LogRepository.List`. With `n` of the
five filter fields present, the WHERE clause is `1=1` followed by the conjuncts of the
present fields in field order, which use the placeholders `$1` to `$n`, one each, in
increasing order; the argument list of the count query has `n` entries, the values of the
present fields in the same order (the path wrapped as `%path%`); the next placeholder is
`$(n+1)`. The statements `List` sends are the count query with that clause and those
arguments, followed (unless the count query failed) by the page query with the same
clause, `LIMIT $(n+1)`, `OFFSET $(n+2)` and `n + 2` arguments: the same `n`, then the
effective limit, then the offset. -/
theorem List_placeholders (db : Pool) (params : LogQueryParams) :
    (LogRepository.List.build params).conjuncts =
      Conjunct.always ::
        (((filterFields params).filter (fun f => f.1)).enumFrom 1).map
          (fun p => p.2.2.1 p.1) ∧
    (LogRepository.List.build params).conjuncts.tail.map Conjunct.placeholder =
      (List.range' 1 ((filterFields params).filter (fun f => f.1)).length).map some ∧
    (LogRepository.List.build params).args =
      ((filterFields params).filter (fun f => f.1)).map (fun f => f.2.2) ∧
    (LogRepository.List.build params).args.length =
      ((filterFields params).filter (fun f => f.1)).length ∧
    (LogRepository.List.build params).argPos =
      ((filterFields params).filter (fun f => f.1)).length + 1 ∧
    ((LogRepository.List db params).2.executed =
        db.executed ++ [Stmt.CountLogs (LogRepository.List.build params).conjuncts
          (LogRepository.List.build params).args] ∨
      (LogRepository.List db params).2.executed =
        db.executed ++ [Stmt.CountLogs (LogRepository.List.build params).conjuncts
          (LogRepository.List.build params).args] ++
          [Stmt.SelectLogs (LogRepository.List.build params).conjuncts
            ((LogRepository.List.build params).args ++
              [Arg.int (LogRepository.List.limit params), Arg.int params.Offset])
            (((filterFields params).filter (fun f => f.1)).length + 1)
            (((filterFields params).filter (fun f => f.1)).length + 2)]) ∧
    (db.countLogsErr = none →
      (LogRepository.List db params).2.executed =
        db.executed ++ [Stmt.CountLogs (LogRepository.List.build params).conjuncts
          (LogRepository.List.build params).args] ++
          [Stmt.SelectLogs (LogRepository.List.build params).conjuncts
            ((LogRepository.List.build params).args ++
              [Arg.int (LogRepository.List.limit params), Arg.int params.Offset])
            (((filterFields params).filter (fun f => f.1)).length + 1)
            (((filterFields params).filter (fun f => f.1)).length + 2)]) ∧
    ((LogRepository.List.build params).args ++
      [Arg.int (LogRepository.List.limit params), Arg.int params.Offset]).length =
      ((filterFields params).filter (fun f => f.1)).length + 2 := by
  have hb : LogRepository.List.build params =
      { conjuncts := Conjunct.always ::
          (((filterFields params).filter (fun f => f.1)).enumFrom 1).map
            (fun p => p.2.2.1 p.1),
        args := ((filterFields params).filter (fun f => f.1)).map (fun f => f.2.2),
        argPos := ((filterFields params).filter (fun f => f.1)).length + 1 } := by
    rw [build_eq_foldl, foldl_add]
    simp [Nat.add_comm]
  have hmem : ∀ f ∈ (filterFields params).filter (fun f => f.1),
      ∀ k, (f.2.1 k).placeholder = some k := by
    intro f hf k
    have hf' := (List.mem_filter.mp hf).1
    simp only [filterFields, List.mem_cons, List.mem_singleton, List.not_mem_nil,
      or_false] at hf'
    rcases hf' with h | h | h | h | h <;> subst h <;> rfl
  have hpos : (LogRepository.List.build params).argPos =
      ((filterFields params).filter (fun f => f.1)).length + 1 := by rw [hb]
  have hexec := List_executed db params
  rw [hpos] at hexec
  refine ⟨by rw [hb], ?_, by rw [hb], by rw [hb]; simp, hpos, hexec, ?_, by rw [hb]; simp⟩
  · rw [hb]
    simp only [List.tail_cons, List.map_map]
    exact placeholder_enumFrom _ hmem 1
  · intro hc
    rcases hexec with h | h
    · exfalso
      have hwb := (build_spec params).2.1
      have hlen := congrArg List.length h
      unfold LogRepository.List Pool.queryCount at hlen
      simp only [hc] at hlen
      rw [if_pos (by simpa [List.all_eq_true] using hwb)] at hlen
      simp only at hlen
      revert hlen
      split <;> simp [Pool.record]
    · exact h

/-- Witness for C27: for the filter `method=GET&path=/he` the clause is
`1=1 AND method = $1 AND path LIKE $2` with the arguments `GET` and `%/he%`, and the page
query binds `LIMIT $3` and `OFFSET $4`. -/
theorem List_placeholders_witness :
    (LogRepository.List.build { Method := lit "GET", Path := lit "/he" }).conjuncts =
      [Conjunct.always, Conjunct.methodEq 1, Conjunct.pathLike 2] ∧
    (LogRepository.List.build { Method := lit "GET", Path := lit "/he" }).args =
      [Arg.text (lit "GET"), Arg.text (lit "%/he%")] ∧
    (LogRepository.List logPool { Method := lit "GET", Path := lit "/he" }).2.executed =
      [Stmt.CountLogs [Conjunct.always, Conjunct.methodEq 1, Conjunct.pathLike 2]
          [Arg.text (lit "GET"), Arg.text (lit "%/he%")],
        Stmt.SelectLogs [Conjunct.always, Conjunct.methodEq 1, Conjunct.pathLike 2]
          [Arg.text (lit "GET"), Arg.text (lit "%/he%"), Arg.int 100, Arg.int 0] 3 4] :=
  ⟨(List_placeholders logPool { Method := lit "GET", Path := lit "/he" }).1.trans
      (by decide),
   (List_placeholders logPool { Method := lit "GET", Path := lit "/he" }).2.2.1.trans
      (by decide),
   ((List_placeholders logPool { Method := lit "GET", Path := lit "/he" }).2.2.2.2.2.2.1
      (by decide)).trans (by decide)⟩

/-! ## The offset of the page query -/

/-- The handler of `GET /dashboard/logs` answers 500 exactly when the log service returns
an error, and 200 otherwise. -/
theorem GetLogs_calls (params : LogQueryParams) (db : Pool) :
    (DashboardHandler.GetLogs (params, none) db).1 =
      match (LogRepository.List db (DashboardHandler.GetLogs.params params)).1 with
      | (_, _, some _) => [Call.JSON StatusInternalServerError (errorBody msgLogsFailed)]
      | (logs, total, none) =>
        [Call.JSON StatusOK (Payload.Logs logs total
          (DashboardHandler.GetLogs.params params).Limit
          (DashboardHandler.GetLogs.params params).Offset
          (DashboardHandler.GetLogs.params params).Page)] := by
  unfold DashboardHandler.GetLogs LogService.GetLogs
  simp only
  rcases LogRepository.List db (DashboardHandler.GetLogs.params params) with
    ⟨⟨logs, total, e⟩, db1⟩
  cases e <;> rfl

/-- C25, as stated, fails: for `GET /dashboard/logs?offset=-5` the handler hands the offset
-5 to `LogRepository.List`, which binds it to the `OFFSET` placeholder of the page query;
the database rejects the query and the handler answers 500. A page number whose product
with the limit leaves the range of a Go `int` also gives a negative offset: page
`2^61 + 1` with limit 6. -/
theorem GetLogs_negative_offset :
    (DashboardHandler.GetLogs.params { Offset := -5 }).Offset = -5 ∧
    (DashboardHandler.GetLogs ({ Offset := -5 }, none) logPool).2.executed =
      [Stmt.CountLogs [Conjunct.always] [],
       Stmt.SelectLogs [Conjunct.always] [Arg.int 100, Arg.int (-5)] 1 2] ∧
    (DashboardHandler.GetLogs ({ Offset := -5 }, none) logPool).1 =
      [Call.JSON StatusInternalServerError (errorBody msgLogsFailed)] ∧
    (DashboardHandler.GetLogs.params { Page := 2 ^ 61 + 1, Limit := 6 }).Offset =
      -4611686018427387904 := by
  decide

/-- C25, amended: the offset the handler of `GET /dashboard/logs` hands to
`LogRepository.List` is the last argument of the page query. It is non-negative when a
positive page is given and `(page - 1) * limit` (with the requested limit, or 100 when
that is zero or less) is below `2^63`, and when no positive page is given and the
requested offset is non-negative. A negative requested offset without a positive page is
handed on unchanged, and the handler then answers 500. -/
theorem GetLogs_offset_nonneg (params : LogQueryParams) (db : Pool) :
    (params.Page > 0 →
      (params.Page - 1) * (if params.Limit ≤ 0 then 100 else params.Limit) < 2 ^ 63 →
      0 ≤ (DashboardHandler.GetLogs.params params).Offset) ∧
    (params.Page ≤ 0 → 0 ≤ params.Offset →
      0 ≤ (DashboardHandler.GetLogs.params params).Offset) ∧
    (params.Page ≤ 0 → params.Offset < 0 →
      (DashboardHandler.GetLogs.params params).Offset = params.Offset) ∧
    ((DashboardHandler.GetLogs.params params).Offset < 0 →
      (DashboardHandler.GetLogs (params, none) db).1 =
        [Call.JSON StatusInternalServerError (errorBody msgLogsFailed)]) ∧
    (∀ st ∈ (DashboardHandler.GetLogs (params, none) db).2.executed.drop db.executed.length,
      ∀ conjuncts args limitPos offsetPos,
        st = Stmt.SelectLogs conjuncts args limitPos offsetPos →
        Arg.bound args offsetPos =
          some (Arg.int (DashboardHandler.GetLogs.params params).Offset)) := by
  have hoff := GetLogs_params_offset params
  refine ⟨?_, ?_, ?_, ?_, ?_⟩
  · intro hp hlt
    rw [hoff.1 hp]
    have h0 : 0 ≤ (params.Page - 1) * (if params.Limit ≤ 0 then 100 else params.Limit) := by
      apply Int.mul_nonneg (by omega)
      split <;> omega
    unfold wrapInt
    omega
  · intro hp h0
    rw [hoff.2.1 hp]
    exact h0
  · intro hp _
    exact hoff.2.1 hp
  · intro hneg
    rw [GetLogs_calls]
    have hres := List_result db (DashboardHandler.GetLogs.params params)
    rw [hres]
    cases db.countLogsErr with
    | some e => rfl
    | none =>
      cases db.selectLogsErr with
      | some e => rfl
      | none =>
        simp only
        rw [if_neg (by omega)]
  · intro st hst conjuncts args limitPos offsetPos hsel
    have hexec := List_executed db (DashboardHandler.GetLogs.params params)
    have hlo := build_limit_offset (DashboardHandler.GetLogs.params params)
      (LogRepository.List.limit (DashboardHandler.GetLogs.params params))
      (DashboardHandler.GetLogs.params params).Offset
    have hpool : (DashboardHandler.GetLogs (params, none) db).2 =
        (LogRepository.List db (DashboardHandler.GetLogs.params params)).2 := by
      unfold DashboardHandler.GetLogs LogService.GetLogs
      simp only
      rcases LogRepository.List db (DashboardHandler.GetLogs.params params) with
        ⟨⟨logs, total, e⟩, db1⟩
      cases e <;> rfl
    rw [hpool] at hst
    subst hsel
    rcases hexec with h | h
    · rw [h] at hst
      simp at hst
    · rw [h] at hst
      simp at hst
      obtain ⟨_, ha, _, ho⟩ := hst
      subst ha ho
      exact hlo.2

/-- Witness for C25: page 3 with limit 20 gives the offset 40, and the requested offset 7
without a page is handed on. -/
theorem GetLogs_offset_nonneg_witness :
    0 ≤ (DashboardHandler.GetLogs.params { Page := 3, Limit := 20 }).Offset ∧
    0 ≤ (DashboardHandler.GetLogs.params { Offset := 7 }).Offset :=
  ⟨(GetLogs_offset_nonneg { Page := 3, Limit := 20 } logPool).1 (by decide) (by decide),
   (GetLogs_offset_nonneg { Offset := 7 } logPool).2.1 (by decide) (by decide)⟩

/-! ## The dashboard page -/

/-- The master-key gate that authorizes, in front of a chain: the rest of the chain runs. -/
theorem Next_gate_pass (env : Env) (rest : List Handler) (w : World)
    (h1 : w.c.Aborted = false) (h2 : w.c.Finished = false)
    (hg : MasterKeyAuth env.masterKey w.c = [Call.Next]) :
    World.Next env (Handler.MasterKeyAuth :: rest) w =
      { World.Next env rest w with c := { (World.Next env rest w).c with Finished := true } } := by
  simp only [World.Next, World.exec, hg, run_Next _ _ h1 h2]
  simp

/-- The master-key gate that rejects, in front of a chain: only the context changes, by
the response of the gate, and the chain is aborted. -/
theorem Next_gate_reject (env : Env) (rest : List Handler) (w : World) (r : Call)
    (hr : r ≠ Call.Next) (hp : w.panicking = false)
    (hg : MasterKeyAuth env.masterKey w.c = [r, Call.Abort]) :
    World.Next env (Handler.MasterKeyAuth :: rest) w =
      { w with c := { (Context.call id (w.c, 0) r).1 with Aborted := true } } := by
  simp only [World.Next, World.exec, hg, run_reject _ _ _ hr hp]
  simp [hp]

/-- An error of `LogRepository.GetStats` comes with the nil pointer. -/
theorem GetStats_nil_on_error (db : Pool) (startDate endDate : Time)
    (h : (LogRepository.GetStats db startDate endDate).1.2 ≠ none) :
    (LogRepository.GetStats db startDate endDate).1.1 = none := by
  unfold LogRepository.GetStats at h ⊢
  simp only at h ⊢
  by_cases hc : (db.queryTotals startDate endDate).2 ≠ none ∧
      (db.queryTotals startDate endDate).2 ≠ some Error.ErrNoRows
  · rw [if_pos hc]
  · rw [if_neg hc] at h ⊢
    revert h
    rcases db.queryStatusCodes startDate endDate with ⟨rows1, e1⟩
    cases e1 with
    | some e => intro _; rfl
    | none =>
      simp only
      rcases db.queryPaths startDate endDate with ⟨rows2, e2⟩
      cases e2 with
      | some e => intro _; rfl
      | none =>
        simp only
        rcases db.queryMethods startDate endDate with ⟨rows3, e3⟩
        cases e3 with
        | some e => intro _; rfl
        | none => intro h; exact absurd rfl h

/-- C24, the defect: `DashboardPage` discards the error of `LogService.GetStats` and hands
the returned pointer to `generateDashboardHTML`, whose first inserted value is
`stats.TotalRequests`. Whenever `GetStats` returns an error the pointer is nil, the page
generator dereferences it and `DashboardPage` panics instead of rendering. Served through
the chain of `GET /dashboard` with the master key, the panic unwinds through
`RequestLogger`, which hands no log entry to a goroutine, and `gin.Recovery` answers 500
without a body. The sibling handler `GetStats` tests the error and answers 500 with a JSON
body. -/
theorem DashboardPage_panics_on_stats_error (env : Env) (w : World) (hw : w.fresh)
    (hg : MasterKeyAuth env.masterKey w.c = [Call.Next])
    (herr : (LogService.GetStats w.db env.now env.now 0 0).1.2 ≠ none) :
    (LogService.GetStats w.db env.now env.now 0 0).1.1 = none ∧
    (∀ logs total, generateDashboardHTML env.template
      (LogService.GetStats w.db env.now env.now 0 0).1.1 logs total = none) ∧
    (DashboardHandler.DashboardPage env.template w.db env.now env.now).1 = none ∧
    (World.Next env [Handler.DashboardPage] w).panicking = true ∧
    (World.Next env [Handler.Logger, Handler.Recovery, Handler.RequestLogger,
      Handler.MasterKeyAuth, Handler.DashboardPage] w).c.Status =
        StatusInternalServerError ∧
    (World.Next env [Handler.Logger, Handler.Recovery, Handler.RequestLogger,
      Handler.MasterKeyAuth, Handler.DashboardPage] w).c.Body = w.c.Body ∧
    (World.Next env [Handler.Logger, Handler.Recovery, Handler.RequestLogger,
      Handler.MasterKeyAuth, Handler.DashboardPage] w).spawned = w.spawned ∧
    (w.c.Query (lit "start_date") = [] → w.c.Query (lit "end_date") = [] →
      (DashboardHandler.GetStats env.parse w.c w.db env.now env.now).1 =
        [Call.JSON StatusInternalServerError (errorBody msgStatsFailed)]) := by
  obtain ⟨hp, h1, h2⟩ := hw
  have hnil : (LogService.GetStats w.db env.now env.now 0 0).1.1 = none :=
    GetStats_nil_on_error w.db _ _ herr
  have hpage : (DashboardHandler.DashboardPage env.template w.db env.now env.now).1 =
      none := by
    unfold DashboardHandler.DashboardPage
    rcases hS : LogService.GetStats w.db env.now env.now 0 0 with ⟨⟨stats, e⟩, db1⟩
    rw [hS] at hnil
    simp only at hnil
    subst hnil
    rfl
  have hlast : (World.Next env [Handler.DashboardPage] w).panicking = true ∧
      (World.Next env [Handler.DashboardPage] w).c = w.c ∧
      (World.Next env [Handler.DashboardPage] w).spawned = w.spawned := by
    simp only [World.Next, World.exec]
    rcases hD : DashboardHandler.DashboardPage env.template w.db env.now env.now with
      ⟨calls, db1⟩
    rw [hD] at hpage
    simp only at hpage
    subst hpage
    simp
  have hmid := Next_middleware env [Handler.MasterKeyAuth, Handler.DashboardPage] w
    ⟨hp, h1, h2⟩
  have hgate := Next_gate_pass env [Handler.DashboardPage] w h1 h2 hg
  rw [hgate] at hmid
  simp only [hlast.1, if_true] at hmid
  refine ⟨hnil, ?_, hpage, hlast.1, ?_, ?_, ?_, ?_⟩
  · intro logs total
    rw [hnil]
    rfl
  · rw [hmid]
  · rw [hmid]
    simp only [hlast.2.1]
  · rw [hmid]
    simp only [hlast.2.2]
  · intro hs he
    unfold DashboardHandler.GetStats
    simp only [hs, he, ne_eq, not_true_eq_false, if_false]
    rcases hS : LogService.GetStats w.db env.now env.now 0 0 with ⟨⟨stats, e⟩, db1⟩
    rw [hS] at herr
    cases e with
    | none => exact absurd rfl herr
    | some e => rfl

/-- Witness for C24: with the statistics queries failing, `GET /dashboard?api=master-secret`
is answered 500 by `gin.Recovery` and no log entry is handed to a goroutine. -/
theorem DashboardPage_panics_on_stats_error_witness :
    (DashboardHandler.DashboardPage sampleTemplate brokenStatsPool 5000 5000).1 = none ∧
    (World.Next sampleEnv [Handler.Logger, Handler.Recovery, Handler.RequestLogger,
      Handler.MasterKeyAuth, Handler.DashboardPage]
      (sampleWorld (sampleRequest "/dashboard" "api=master-secret" [] [])
        brokenStatsPool)).c.Status = StatusInternalServerError ∧
    (World.Next sampleEnv [Handler.Logger, Handler.Recovery, Handler.RequestLogger,
      Handler.MasterKeyAuth, Handler.DashboardPage]
      (sampleWorld (sampleRequest "/dashboard" "api=master-secret" [] [])
        brokenStatsPool)).spawned = [] :=
  have h := DashboardPage_panics_on_stats_error sampleEnv
    (sampleWorld (sampleRequest "/dashboard" "api=master-secret" [] []) brokenStatsPool)
    ⟨rfl, rfl, rfl⟩ (by decide) (by decide)
  ⟨h.2.2.1, h.2.2.2.2.1, h.2.2.2.2.2.2.1⟩

/-! ## The rows of the dashboard table -/

/-- The character of a decimal digit is one of the bytes `0` to `9`. -/
theorem digitChar_byte (d : Nat) (h : d < 10) :
    48 ≤ (UInt8.ofNat (Nat.digitChar d).toNat).toNat ∧
    (UInt8.ofNat (Nat.digitChar d).toNat).toNat ≤ 57 := by
  interval_cases d <;> decide

/-- Decimal rendering produces digit characters only. -/
theorem toDigitsCore_digits (fuel : Nat) :
    ∀ (n : Nat) (acc : List Char),
      (∀ ch ∈ acc, ∃ d, d < 10 ∧ ch = Nat.digitChar d) →
      ∀ ch ∈ Nat.toDigitsCore 10 fuel n acc, ∃ d, d < 10 ∧ ch = Nat.digitChar d := by
  induction fuel with
  | zero => intro n acc hacc; simpa [Nat.toDigitsCore] using hacc
  | succ fuel ih =>
    intro n acc hacc
    have hcons : ∀ ch ∈ Nat.digitChar (n % 10) :: acc, ∃ d, d < 10 ∧ ch = Nat.digitChar d := by
      intro ch hch
      rcases List.mem_cons.mp hch with h | h
      · exact ⟨n % 10, Nat.mod_lt _ (by decide), h⟩
      · exact hacc ch h
    simp only [Nat.toDigitsCore]
    split
    · exact hcons
    · exact ih _ _ hcons

/-- The bytes of `strconv.digits` are the bytes `0` to `9`. -/
theorem digits_bytes (n : Nat) :
    ∀ b ∈ strconv.digits n, 48 ≤ b.toNat ∧ b.toNat ≤ 57 := by
  intro b hb
  unfold strconv.digits Nat.toDigits at hb
  obtain ⟨ch, hch, rfl⟩ := List.mem_map.mp hb
  obtain ⟨d, hd, rfl⟩ := toDigitsCore_digits (n + 1) n [] (by simp) ch hch
  exact digitChar_byte d hd

/-- A decimal rendering holds none of the bytes `<`, `>` and `&`. -/
theorem FormatInt_count (n : Int) (b : UInt8) (hb : b = 60 ∨ b = 62 ∨ b = 38) :
    (strconv.FormatInt n).count b = 0 := by
  have hd : b ∉ strconv.digits n.natAbs := by
    intro hmem
    have h := digits_bytes n.natAbs b hmem
    rcases hb with rfl | rfl | rfl <;> revert h <;> decide
  have hm : b ∉ lit "-" := by
    rcases hb with rfl | rfl | rfl <;> decide
  unfold strconv.FormatInt
  split
  · rw [List.count_append, List.count_eq_zero.mpr hm, List.count_eq_zero.mpr hd]
  · exact List.count_eq_zero.mpr hd

/-- The class suffix holds none of the bytes `<`, `>` and `&`. -/
theorem statusClass_count (code : Int) (b : UInt8) (hb : b = 60 ∨ b = 62 ∨ b = 38) :
    (generateLogsTableRows.statusClass code).count b = 0 := by
  unfold generateLogsTableRows.statusClass
  rcases hb with rfl | rfl | rfl <;> split_ifs <;> decide

/-- The loop of `generateLogsTableRows` appends the rows of the records in order. -/
theorem foldl_rows (format : Time → GoString) (logs : List RequestLog) :
    ∀ rows : GoString,
      logs.foldl (fun rows log => rows ++ generateLogsTableRows.row format log) rows =
        rows ++ (logs.map (generateLogsTableRows.row format)).flatten := by
  induction logs with
  | nil => intro rows; simp
  | cons log rest ih => intro rows; simp [ih]

/-- Occurrences of a byte in a row: those of the fixed text (18 for `<`, 18 for `>`, none
for `&`) and those of the four inserted fields. -/
theorem row_count (format : Time → GoString) (log : RequestLog) (b : UInt8)
    (hb : b = 60 ∨ b = 62 ∨ b = 38) :
    (generateLogsTableRows.row format log).count b =
      (if b = 38 then 0 else 18) + (format log.CreatedAt).count b + log.Method.count b +
        log.Path.count b + log.IPAddress.count b := by
  have h1 := FormatInt_count log.StatusCode b hb
  have h2 := FormatInt_count log.ResponseTime b hb
  have h3 := statusClass_count log.StatusCode b hb
  unfold generateLogsTableRows.row
  simp only [List.count_append, h1, h2, h3]
  rcases hb with rfl | rfl | rfl
  · have hl : (lit "<tr>\n\t\t\t<td>").count 60 = 2 ∧
        (lit "</td>\n\t\t\t<td><strong>").count 60 = 3 ∧
        (lit "</strong></td>\n\t\t\t<td>").count 60 = 3 ∧
        (lit "</td>\n\t\t\t<td><span class=\"status-code status-").count 60 = 3 ∧
        (lit "\">").count 60 = 0 ∧
        (lit "</span></td>\n\t\t\t<td class=\"response-time\">").count 60 = 3 ∧
        (lit "ms</td>\n\t\t\t<td>").count 60 = 2 ∧
        (lit "</td>\n\t\t</tr>").count 60 = 2 := by decide
    obtain ⟨a1, a2, a3, a4, a5, a6, a7, a8⟩ := hl
    rw [a1, a2, a3, a4, a5, a6, a7, a8, if_neg (by decide)]
    omega
  · have hl : (lit "<tr>\n\t\t\t<td>").count 62 = 2 ∧
        (lit "</td>\n\t\t\t<td><strong>").count 62 = 3 ∧
        (lit "</strong></td>\n\t\t\t<td>").count 62 = 3 ∧
        (lit "</td>\n\t\t\t<td><span class=\"status-code status-").count 62 = 2 ∧
        (lit "\">").count 62 = 1 ∧
        (lit "</span></td>\n\t\t\t<td class=\"response-time\">").count 62 = 3 ∧
        (lit "ms</td>\n\t\t\t<td>").count 62 = 2 ∧
        (lit "</td>\n\t\t</tr>").count 62 = 2 := by decide
    obtain ⟨a1, a2, a3, a4, a5, a6, a7, a8⟩ := hl
    rw [a1, a2, a3, a4, a5, a6, a7, a8, if_neg (by decide)]
    omega
  · have hl : (lit "<tr>\n\t\t\t<td>").count 38 = 0 ∧
        (lit "</td>\n\t\t\t<td><strong>").count 38 = 0 ∧
        (lit "</strong></td>\n\t\t\t<td>").count 38 = 0 ∧
        (lit "</td>\n\t\t\t<td><span class=\"status-code status-").count 38 = 0 ∧
        (lit "\">").count 38 = 0 ∧
        (lit "</span></td>\n\t\t\t<td class=\"response-time\">").count 38 = 0 ∧
        (lit "ms</td>\n\t\t\t<td>").count 38 = 0 ∧
        (lit "</td>\n\t\t</tr>").count 38 = 0 := by decide
    obtain ⟨a1, a2, a3, a4, a5, a6, a7, a8⟩ := hl
    rw [a1, a2, a3, a4, a5, a6, a7, a8, if_pos rfl]
    omega

set_option maxRecDepth 100000 in
/-- The rows of two records whose path holds markup, evaluated. -/
theorem rows_of_markup_paths :
    generateLogsTableRows strconv.FormatInt
        [sampleLog 7 "/<script>alert(1)</script>" 404 3 1000] =
      lit ("<tr>\n\t\t\t<td>1000</td>\n\t\t\t<td><strong>GET</strong></td>" ++
        "\n\t\t\t<td>/<script>alert(1)</script></td>" ++
        "\n\t\t\t<td><span class=\"status-code status-4xx\">404</span></td>" ++
        "\n\t\t\t<td class=\"response-time\">3ms</td>" ++
        "\n\t\t\t<td>203.0.113.7</td>\n\t\t</tr>") ∧
    (generateLogsTableRows strconv.FormatInt
        [sampleLog 7 "/<script>alert(1)</script>" 404 3 1000]).count 60 = 20 ∧
    generateLogsTableRows strconv.FormatInt [sampleLog 8 "</td><td>" 404 3 1000] =
      lit ("<tr>\n\t\t\t<td>1000</td>\n\t\t\t<td><strong>GET</strong></td>" ++
        "\n\t\t\t<td></td><td></td>" ++
        "\n\t\t\t<td><span class=\"status-code status-4xx\">404</span></td>" ++
        "\n\t\t\t<td class=\"response-time\">3ms</td>" ++
        "\n\t\t\t<td>203.0.113.7</td>\n\t\t</tr>") := by
  decide

/-- C26, as stated, fails: the fields are inserted as they are, nothing is escaped. For a
record whose path is `/<script>alert(1)</script>` the row holds the `script` element as
markup, and for a record whose path is `</td><td>` the row has seven cells. -/
theorem rows_emit_field_markup :
    generateLogsTableRows strconv.FormatInt
        [sampleLog 7 "/<script>alert(1)</script>" 404 3 1000] =
      lit ("<tr>\n\t\t\t<td>1000</td>\n\t\t\t<td><strong>GET</strong></td>" ++
        "\n\t\t\t<td>/<script>alert(1)</script></td>" ++
        "\n\t\t\t<td><span class=\"status-code status-4xx\">404</span></td>" ++
        "\n\t\t\t<td class=\"response-time\">3ms</td>" ++
        "\n\t\t\t<td>203.0.113.7</td>\n\t\t</tr>") ∧
    (generateLogsTableRows strconv.FormatInt
        [sampleLog 7 "/<script>alert(1)</script>" 404 3 1000]).count 60 = 20 ∧
    generateLogsTableRows strconv.FormatInt [sampleLog 8 "</td><td>" 404 3 1000] =
      lit ("<tr>\n\t\t\t<td>1000</td>\n\t\t\t<td><strong>GET</strong></td>" ++
        "\n\t\t\t<td></td><td></td>" ++
        "\n\t\t\t<td><span class=\"status-code status-4xx\">404</span></td>" ++
        "\n\t\t\t<td class=\"response-time\">3ms</td>" ++
        "\n\t\t\t<td>203.0.113.7</td>\n\t\t</tr>") :=
  rows_of_markup_paths

/-- C26, amended: for every list of log records the text returned by
`generateLogsTableRows` is the concatenation, in input order, of one row per record; a row
is `<tr>`, six `<td>` cells (time, method, path, status code, response time, address) and
`</tr>`, with the fields `Method`, `Path` and `IPAddress` inserted as they are. Every `<`,
`>` and `&` of a field value is therefore emitted unchanged: a row holds the 18 `<` and
18 `>` of its fixed text plus those of its fields, and as many `&` as its fields. -/
theorem generateLogsTableRows_verbatim (format : Time → GoString) (logs : List RequestLog) :
    generateLogsTableRows format logs =
      (logs.map (generateLogsTableRows.row format)).flatten ∧
    (∀ log : RequestLog, generateLogsTableRows.row format log =
      lit "<tr>" ++
      ([lit "<td>" ++ format log.CreatedAt ++ lit "</td>",
        lit "<td><strong>" ++ log.Method ++ lit "</strong></td>",
        lit "<td>" ++ log.Path ++ lit "</td>",
        lit "<td><span class=\"status-code status-" ++
          generateLogsTableRows.statusClass log.StatusCode ++ lit "\">" ++
          strconv.FormatInt log.StatusCode ++ lit "</span></td>",
        lit "<td class=\"response-time\">" ++ strconv.FormatInt log.ResponseTime ++
          lit "ms</td>",
        lit "<td>" ++ log.IPAddress ++ lit "</td>"].map
          (fun cell => lit "\n\t\t\t" ++ cell)).flatten ++
      lit "\n\t\t</tr>") ∧
    (∀ b : UInt8, b = 60 ∨ b = 62 ∨ b = 38 →
      (generateLogsTableRows format logs).count b =
        (logs.map (fun log =>
          (if b = 38 then 0 else 18) + (format log.CreatedAt).count b + log.Method.count b +
            log.Path.count b + log.IPAddress.count b)).sum) := by
  have hrows : generateLogsTableRows format logs =
      (logs.map (generateLogsTableRows.row format)).flatten := by
    unfold generateLogsTableRows
    rw [foldl_rows]
    rfl
  refine ⟨hrows, ?_, ?_⟩
  · intro log
    have e1 : lit "<tr>\n\t\t\t<td>" = lit "<tr>" ++ (lit "\n\t\t\t" ++ lit "<td>") := by
      decide
    have e2 : lit "</td>\n\t\t\t<td><strong>" =
        lit "</td>" ++ (lit "\n\t\t\t" ++ lit "<td><strong>") := by decide
    have e3 : lit "</strong></td>\n\t\t\t<td>" =
        lit "</strong></td>" ++ (lit "\n\t\t\t" ++ lit "<td>") := by decide
    have e4 : lit "</td>\n\t\t\t<td><span class=\"status-code status-" =
        lit "</td>" ++ (lit "\n\t\t\t" ++ lit "<td><span class=\"status-code status-") := by
      decide
    have e5 : lit "</span></td>\n\t\t\t<td class=\"response-time\">" =
        lit "</span></td>" ++ (lit "\n\t\t\t" ++ lit "<td class=\"response-time\">") := by
      decide
    have e6 : lit "ms</td>\n\t\t\t<td>" = lit "ms</td>" ++ (lit "\n\t\t\t" ++ lit "<td>") := by
      decide
    have e7 : lit "</td>\n\t\t</tr>" = lit "</td>" ++ lit "\n\t\t</tr>" := by decide
    unfold generateLogsTableRows.row
    rw [e1, e2, e3, e4, e5, e6, e7]
    simp only [List.map_cons, List.map_nil, List.flatten_cons, List.flatten_nil,
      List.append_assoc, List.append_nil]
  · intro b hb
    rw [hrows, List.count_flatten, List.map_map]
    congr 1
    apply List.map_congr_left
    intro log _
    exact row_count format log b hb

/-! ## The route `POST /api-keys` -/

/-- The three ways the master-key gate ends: it authorizes; it redirects to `/auth` (a
secret is configured, no credential was presented and the request accepts `text/html` or
targets `/dashboard`); or it answers 403 with a JSON error. -/
theorem MasterKeyAuth_cases (S : GoString) (c : Context) :
    MasterKeyAuth S c = [Call.Next] ∨
    (MasterKeyAuth S c = [Call.Redirect StatusFound (lit "/auth"), Call.Abort] ∧
      S ≠ [] ∧ MasterKeyAuth.apiKey c = [] ∧
      (c.GetHeader (lit "Accept") = lit "text/html" ∨ c.Request.Path = lit "/dashboard")) ∨
    (∃ msg, MasterKeyAuth S c = [Call.JSON StatusForbidden (errorBody msg), Call.Abort] ∧
      ¬ (S ≠ [] ∧ MasterKeyAuth.apiKey c = [] ∧
        (c.GetHeader (lit "Accept") = lit "text/html" ∨
          c.Request.Path = lit "/dashboard"))) := by
  unfold MasterKeyAuth
  by_cases hS : S = []
  · rw [if_pos hS]
    exact Or.inr (Or.inr ⟨_, rfl, fun h => h.1 hS⟩)
  · rw [if_neg hS]
    simp only
    by_cases hk : MasterKeyAuth.apiKey c = []
    · rw [if_pos hk]
      by_cases hb : c.GetHeader (lit "Accept") = lit "text/html" ∨
          c.Request.Path = lit "/dashboard"
      · rw [if_pos (by simpa using hb)]
        exact Or.inr (Or.inl ⟨rfl, hS, hk, hb⟩)
      · rw [if_neg (by simpa using hb)]
        exact Or.inr (Or.inr ⟨_, rfl, fun h => hb h.2.2⟩)
    · rw [if_neg hk]
      by_cases hm : MasterKeyAuth.apiKey c ≠ S
      · rw [if_pos hm]
        exact Or.inr (Or.inr ⟨_, rfl, fun h => hk h.2.1⟩)
      · rw [if_neg hm]
        exact Or.inl rfl

/-- The handler of `POST /api-keys` as the last of a chain, in a fresh world: its one
response is written, and the entropy source and the pool are those it left. -/
theorem Next_CreateAPIKey (env : Env) (w : World) (hw : w.fresh) (code : Int)
    (obj : Payload)
    (h : (APIKeyHandler.CreateAPIKey (ShouldBindJSON env.body) w.rnd w.db env.now).1 =
      [Call.JSON code obj]) :
    World.Next env [Handler.CreateAPIKey] w =
      { w with
        c := { w.c with Status := code, Body := some obj, Finished := true },
        rnd := (APIKeyHandler.CreateAPIKey (ShouldBindJSON env.body) w.rnd w.db env.now).2.1,
        db := (APIKeyHandler.CreateAPIKey (ShouldBindJSON env.body) w.rnd w.db env.now).2.2 } := by
  obtain ⟨hp, h1, h2⟩ := hw
  simp [World.Next, World.exec, h, World.run, World.call, Context.call, hp, h1, h2]

/-- A record `Create` returns is a row of `api_keys` afterwards, with the key and the name
it was given. -/
theorem Create_stored (db : Pool) (now : Time) (key name : GoString)
    (h : (APIKeyRepository.Create db now key name).1.2 = none) :
    ∃ r, (APIKeyRepository.Create db now key name).1 = (some r, none) ∧
      r.Key = key ∧ r.Name = name ∧ r.CreatedAt = now ∧
      r ∈ (APIKeyRepository.Create db now key name).2.api_keys := by
  unfold APIKeyRepository.Create at h ⊢
  simp only at h ⊢
  cases he : db.insertKeyErr with
  | some e => rw [he] at h; simp at h
  | none =>
    rw [he] at h
    simp only at h ⊢
    by_cases hdup : (db.api_keys.any (fun r => r.Key == key)) = true
    · rw [if_pos hdup] at h; simp at h
    · rw [if_neg hdup]
      exact ⟨_, rfl, rfl, rfl, rfl, by simp [Pool.record]⟩

/-- The bodies `ShouldBindJSON` rejects: those that do not decode, and the objects whose
`name` is missing or empty. -/
theorem ShouldBindJSON_error (body : JSONBody) :
    ((ShouldBindJSON body).2 ≠ none ↔
      body = JSONBody.malformed ∨ body = JSONBody.object none ∨
        body = JSONBody.object (some [])) ∧
    (∀ name, body = JSONBody.object (some name) → name ≠ [] →
      ShouldBindJSON body = ({ Name := name }, none)) := by
  constructor
  · cases body with
    | malformed => simp [ShouldBindJSON, ErrDecode]
    | object name =>
      cases name with
      | none => simp [ShouldBindJSON, ErrRequired]
      | some name =>
        by_cases hn : name = []
        · simp [ShouldBindJSON, hn, ErrRequired]
        · simp [ShouldBindJSON, hn]
  · intro name hb hn
    subst hb
    simp [ShouldBindJSON, hn]

/-- The handler of `POST /api-keys` when the body binds and issuance succeeds: it answers
201 with the key, the name and the creation time of the record the store returned, which
is a row of `api_keys` afterwards and carries the generated token and the given name. -/
theorem CreateAPIKey_created (rnd : Rand) (db : Pool) (now : Time) (name : GoString)
    (h : (APIKeyService.CreateAPIKey rnd db now name).1.2 = none) :
    ∃ r, (APIKeyHandler.CreateAPIKey ({ Name := name }, none) rnd db now).1 =
        [Call.JSON StatusCreated (Payload.CreateAPIKeyResponse
          (some { Key := r.Key, Name := r.Name, CreatedAt := r.CreatedAt }))] ∧
      r.Key = (APIKeyService.GenerateKey rnd).1.1 ∧ r.Name = name ∧
      r ∈ (APIKeyHandler.CreateAPIKey ({ Name := name }, none) rnd db now).2.2.api_keys := by
  have heq := CreateAPIKey_eq rnd db now name
  cases hg : (APIKeyService.GenerateKey rnd).1.2 with
  | some e => rw [heq, hg] at h; simp at h
  | none =>
    rw [hg] at heq
    simp only at heq
    cases hc : (APIKeyRepository.Create db now (APIKeyService.GenerateKey rnd).1.1 name).1.2 with
    | some e => rw [heq, hc] at h; simp at h
    | none =>
      rw [hc] at heq
      simp only at heq
      obtain ⟨r, hr, hk, hn, _, hmem⟩ :=
        Create_stored db now (APIKeyService.GenerateKey rnd).1.1 name hc
      rw [hr] at heq
      refine ⟨r, ?_, hk, hn, ?_⟩
      · unfold APIKeyHandler.CreateAPIKey
        simp only [heq, Option.map_some']
      · unfold APIKeyHandler.CreateAPIKey
        simp only [heq, Option.map_some']
        exact hmem

/-- The chain of `POST /api-keys` in a fresh world when the gate rejects: the response of
the gate is the response, the chain is aborted, the entropy source and the pool are
untouched and one log entry is handed to a goroutine. -/
theorem api_keys_rejected (env : Env) (w : World) (hw : w.fresh) (r : Call)
    (hr : r ≠ Call.Next) (hg : MasterKeyAuth env.masterKey w.c = [r, Call.Abort]) :
    World.Next env [Handler.Logger, Handler.Recovery, Handler.RequestLogger,
        Handler.MasterKeyAuth, Handler.CreateAPIKey] w =
      { w with
        c := { (Context.call id (w.c, 0) r).1 with Aborted := true, Finished := true },
        spawned := w.spawned ++
          [RequestLogger.logEntry { (Context.call id (w.c, 0) r).1 with Aborted := true }
            env.responseTime env.now] } := by
  have hmid := Next_middleware env [Handler.MasterKeyAuth, Handler.CreateAPIKey] w hw
  rw [Next_gate_reject env [Handler.CreateAPIKey] w r hr hw.1 hg] at hmid
  rw [hmid]
  simp [hw.1]

/-- The chain of `POST /api-keys` in a fresh world when the gate authorizes: the response
of the handler is the response, the entropy source and the pool are those the handler
left and one log entry is handed to a goroutine. -/
theorem api_keys_authorized (env : Env) (w : World) (hw : w.fresh)
    (hg : MasterKeyAuth env.masterKey w.c = [Call.Next]) (code : Int) (obj : Payload)
    (h : (APIKeyHandler.CreateAPIKey (ShouldBindJSON env.body) w.rnd w.db env.now).1 =
      [Call.JSON code obj]) :
    World.Next env [Handler.Logger, Handler.Recovery, Handler.RequestLogger,
        Handler.MasterKeyAuth, Handler.CreateAPIKey] w =
      { w with
        c := { w.c with Status := code, Body := some obj, Finished := true },
        rnd := (APIKeyHandler.CreateAPIKey (ShouldBindJSON env.body) w.rnd w.db env.now).2.1,
        db := (APIKeyHandler.CreateAPIKey (ShouldBindJSON env.body) w.rnd w.db env.now).2.2,
        spawned := w.spawned ++
          [RequestLogger.logEntry { w.c with Status := code, Body := some obj }
            env.responseTime env.now] } := by
  have hmid := Next_middleware env [Handler.MasterKeyAuth, Handler.CreateAPIKey] w hw
  rw [Next_gate_pass env [Handler.CreateAPIKey] w hw.2.1 hw.2.2 hg,
    Next_CreateAPIKey env w hw code obj h] at hmid
  rw [hmid]
  simp [hw.1]
  rfl

/-- C21, as stated, fails. A `POST /api-keys` without credential that carries
`Accept: text/html` is rejected by the gate with a 302 redirect to `/auth`, not with 403.
And a request the gate authorizes whose body is the object with `name` set to the empty
string is answered 400 although `name` is present, the `required` tag rejecting the empty
string. -/
theorem api_keys_gate_redirects :
    MasterKeyAuth sampleEnv.masterKey (samplePost "" [("Accept", "text/html")]).c ≠
      [Call.Next] ∧
    (World.Next sampleEnv [Handler.Logger, Handler.Recovery, Handler.RequestLogger,
      Handler.MasterKeyAuth, Handler.CreateAPIKey]
      (samplePost "" [("Accept", "text/html")])).c.Status = StatusFound ∧
    (World.Next sampleEnv [Handler.Logger, Handler.Recovery, Handler.RequestLogger,
      Handler.MasterKeyAuth, Handler.CreateAPIKey]
      (samplePost "" [("Accept", "text/html")])).c.Location = some (lit "/auth") ∧
    MasterKeyAuth sampleEnv.masterKey (samplePost "api=master-secret" []).c = [Call.Next] ∧
    (World.Next { sampleEnv with body := JSONBody.object (some []) }
      [Handler.Logger, Handler.Recovery, Handler.RequestLogger,
        Handler.MasterKeyAuth, Handler.CreateAPIKey]
      (samplePost "api=master-secret" [])).c.Status = StatusBadRequest := by
  decide

/-- C21, amended: the status codes of `POST /api-keys`, served in a fresh world by the
chain `NewRouter` registers for it. When the master-key gate rejects the request the
response is, whatever the body, a 302 redirect to `/auth` if a secret is configured, no
credential was presented and `Accept` is `text/html`, and 403 with a JSON error otherwise;
the handler does not run, the entropy source and the pool being untouched. When the gate
authorizes it and the body is malformed or is an object whose `name` is missing or empty,
the response is 400 and nothing is issued. When the gate authorizes it, `name` is present
and not empty and issuance succeeds, the response is 201 with the key, the name and the
creation time of a record that is a row of `api_keys` afterwards, whose name is the given
name and whose key is the generated token; when issuance fails the response is 500. In
every case one log entry, carrying the final status, is handed to a goroutine. -/
theorem api_keys_status_codes (env : Env) (w : World) (chain : List Handler)
    (hchain : NewRouter.chain (lit "POST") (lit "/api-keys") = some chain)
    (hw : w.fresh) (hpath : w.c.Request.Path = lit "/api-keys") :
    (MasterKeyAuth env.masterKey w.c ≠ [Call.Next] →
      (World.Next env chain w).db = w.db ∧ (World.Next env chain w).rnd = w.rnd ∧
      (World.Next env chain w).c.Aborted = true ∧
      (env.masterKey ≠ [] ∧ MasterKeyAuth.apiKey w.c = [] ∧
          w.c.GetHeader (lit "Accept") = lit "text/html" →
        (World.Next env chain w).c.Status = StatusFound ∧
        (World.Next env chain w).c.Location = some (lit "/auth")) ∧
      (¬ (env.masterKey ≠ [] ∧ MasterKeyAuth.apiKey w.c = [] ∧
          w.c.GetHeader (lit "Accept") = lit "text/html") →
        (World.Next env chain w).c.Status = StatusForbidden ∧
        ∃ msg, (World.Next env chain w).c.Body = some (errorBody msg))) ∧
    (MasterKeyAuth env.masterKey w.c = [Call.Next] →
      (env.body = JSONBody.malformed ∨ env.body = JSONBody.object none ∨
        env.body = JSONBody.object (some [])) →
      (World.Next env chain w).c.Status = StatusBadRequest ∧
      (World.Next env chain w).c.Body = some (errorBody msgInvalidRequest) ∧
      (World.Next env chain w).db = w.db ∧ (World.Next env chain w).rnd = w.rnd) ∧
    (MasterKeyAuth env.masterKey w.c = [Call.Next] →
      ∀ name, env.body = JSONBody.object (some name) → name ≠ [] →
      (APIKeyService.CreateAPIKey w.rnd w.db env.now name).1.2 = none →
      (World.Next env chain w).c.Status = StatusCreated ∧
      ∃ r, (World.Next env chain w).c.Body = some (Payload.CreateAPIKeyResponse
          (some { Key := r.Key, Name := r.Name, CreatedAt := r.CreatedAt })) ∧
        r.Key = (APIKeyService.GenerateKey w.rnd).1.1 ∧ r.Name = name ∧
        r ∈ (World.Next env chain w).db.api_keys) ∧
    (MasterKeyAuth env.masterKey w.c = [Call.Next] →
      ∀ name, env.body = JSONBody.object (some name) → name ≠ [] →
      (APIKeyService.CreateAPIKey w.rnd w.db env.now name).1.2 ≠ none →
      (World.Next env chain w).c.Status = StatusInternalServerError ∧
      (World.Next env chain w).c.Body = some (errorBody msgCreateFailed)) ∧
    (∃ entry, (World.Next env chain w).spawned = w.spawned ++ [entry] ∧
      entry.StatusCode = (World.Next env chain w).c.Status) := by
  have hc : chain = [Handler.Logger, Handler.Recovery, Handler.RequestLogger,
      Handler.MasterKeyAuth, Handler.CreateAPIKey] := by
    have h0 : NewRouter.chain (lit "POST") (lit "/api-keys") =
        some [Handler.Logger, Handler.Recovery, Handler.RequestLogger,
          Handler.MasterKeyAuth, Handler.CreateAPIKey] := by decide
    rw [h0] at hchain
    exact (Option.some.inj hchain).symm
  subst hc
  have hnd : w.c.Request.Path ≠ lit "/dashboard" := by rw [hpath]; decide
  have hbind := ShouldBindJSON_error env.body
  refine ⟨?_, ?_, ?_, ?_, ?_⟩
  · intro hrej
    rcases MasterKeyAuth_cases env.masterKey w.c with h | ⟨h, hS, hk, hb⟩ | ⟨msg, h, hn⟩
    · exact absurd h hrej
    · rw [api_keys_rejected env w hw _ (by simp) h]
      have ha : w.c.GetHeader (lit "Accept") = lit "text/html" := by
        rcases hb with hb | hb
        · exact hb
        · exact absurd hb hnd
      refine ⟨rfl, rfl, rfl, fun _ => ⟨rfl, rfl⟩, fun hneg => absurd ⟨hS, hk, ha⟩ hneg⟩
    · rw [api_keys_rejected env w hw _ (by simp) h]
      refine ⟨rfl, rfl, rfl, fun hpos => ?_, fun _ => ⟨rfl, msg, rfl⟩⟩
      exact absurd ⟨hpos.1, hpos.2.1, Or.inl hpos.2.2⟩ hn
  · intro hg hbody
    have he := hbind.1.mpr hbody
    have hcalls : APIKeyHandler.CreateAPIKey (ShouldBindJSON env.body) w.rnd w.db env.now =
        ([Call.JSON StatusBadRequest (errorBody msgInvalidRequest)], w.rnd, w.db) := by
      rcases hB : ShouldBindJSON env.body with ⟨req, e⟩
      rw [hB] at he
      cases e with
      | none => exact absurd rfl he
      | some e => rfl
    rw [api_keys_authorized env w hw hg _ _ (congrArg Prod.fst hcalls), hcalls]
    exact ⟨rfl, rfl, rfl, rfl⟩
  · intro hg name hbody hname hok
    have hB := hbind.2 name hbody hname
    obtain ⟨r, hcalls, hk, hn, hmem⟩ := CreateAPIKey_created w.rnd w.db env.now name hok
    rw [← hB] at hcalls hmem
    rw [api_keys_authorized env w hw hg _ _ hcalls]
    exact ⟨rfl, r, rfl, hk, hn, hmem⟩
  · intro hg name hbody hname hfail
    have hB := hbind.2 name hbody hname
    have hcalls : (APIKeyHandler.CreateAPIKey (ShouldBindJSON env.body) w.rnd w.db env.now).1 =
        [Call.JSON StatusInternalServerError (errorBody msgCreateFailed)] := by
      rw [hB]
      unfold APIKeyHandler.CreateAPIKey
      simp only
      rcases hS : APIKeyService.CreateAPIKey w.rnd w.db env.now name with
        ⟨⟨resp, e⟩, rnd1, db1⟩
      rw [hS] at hfail
      cases e with
      | none => exact absurd rfl hfail
      | some e => rfl
    rw [api_keys_authorized env w hw hg _ _ hcalls]
    exact ⟨rfl, rfl⟩
  · rcases MasterKeyAuth_shape env.masterKey w.c with hg | ⟨r, hr, hg⟩
    · have hone : ∃ code obj,
          (APIKeyHandler.CreateAPIKey (ShouldBindJSON env.body) w.rnd w.db env.now).1 =
            [Call.JSON code obj] := by
        unfold APIKeyHandler.CreateAPIKey
        rcases ShouldBindJSON env.body with ⟨req, e⟩
        cases e with
        | some e => exact ⟨_, _, rfl⟩
        | none =>
          simp only
          rcases APIKeyService.CreateAPIKey w.rnd w.db env.now req.Name with
            ⟨⟨resp, e⟩, rnd1, db1⟩
          cases e with
          | some e => exact ⟨_, _, rfl⟩
          | none => exact ⟨_, _, rfl⟩
      obtain ⟨code, obj, hcalls⟩ := hone
      rw [api_keys_authorized env w hw hg _ _ hcalls]
      exact ⟨_, rfl, rfl⟩
    · rw [api_keys_rejected env w hw r hr hg]
      exact ⟨_, rfl, rfl⟩

/-- Witness for C21: with the master key in the query and the body naming `svc-c`, the
sample entropy source and pool, the response is 201; without credential and without an
`Accept` header it is 403. -/
theorem api_keys_status_codes_witness :
    (World.Next sampleEnv [Handler.Logger, Handler.Recovery, Handler.RequestLogger,
      Handler.MasterKeyAuth, Handler.CreateAPIKey]
      (samplePost "api=master-secret" [])).c.Status = StatusCreated ∧
    (World.Next sampleEnv [Handler.Logger, Handler.Recovery, Handler.RequestLogger,
      Handler.MasterKeyAuth, Handler.CreateAPIKey]
      (samplePost "" [])).c.Status = StatusForbidden :=
  ⟨((api_keys_status_codes sampleEnv (samplePost "api=master-secret" []) _ (by decide)
      ⟨rfl, rfl, rfl⟩ rfl).2.2.1 (by decide) (lit "svc-c") rfl (by decide) (by decide)).1,
   (((api_keys_status_codes sampleEnv (samplePost "" []) _ (by decide)
      ⟨rfl, rfl, rfl⟩ rfl).1 (by decide)).2.2.2.2 (by decide)).1⟩
end Notifications
